import Mathlib

/-! # UART DPI: the connection and buffering engine of `uart_dpi.cpp`

A shallow embedding of class `uart_dpi` (src/uart_dpi.cpp) and theorems
about it.

Conventions of the embedding.

* The object's fields are the fields of the structure `uart_dpi`, under the
  source's names.  `unsigned` is a natural number below `2^32` and every
  `unsigned` addition is written with its `% 2^32`; `int` is an integer.
* A byte (`uint8_t`, `char`) is the natural number of its bit pattern.  The
  engine never computes with a byte, it stores, copies and compares it.
* A method is a function from the state before the call to a pair: how the
  call ended (`Except Failure _`) and the state it left behind.  A C++
  exception is `Failure.runtime_error`, a failed `assert` (debug builds) is
  `Failure.assertion_failed`; in both cases the state is the one reached
  when control left the method.  The buffer operations are written on the
  object alone; the methods that call the operating system are written as
  `Method`s, statement after statement, on a `World`.
* The operating system is an oracle `Os : Nat → OsReply`: the reply to the
  n-th system call of the run.  Every call is appended to `World.trace`.
  The replies are typed after the calls' contracts: `poll` on one
  descriptor yields -1, 0 or 1, `recv` of one byte yields -1, 0 or 1,
  `socket` and `accept4` yield -1 or a non-negative descriptor.
  `close` on a descriptor the engine owns is taken to succeed (the source
  only asserts on it), and the text produced by `inet_ntop` for an IPv4
  address is taken to satisfy the two length assertions that follow it.
* Text written by `printf` / `fprintf` is recorded as a `LogEvent`.
-/

namespace UartDpi

/-! ## Failures -/

/-- The text of an exception (`e.what()`): either a literal, or the result
of `get_error_message`, kept as its prefix and error code (the text that
`strerror_r` adds is not modelled). -/
inductive What where
  | text (s : String)
  | os_error (prefix_msg : String) (errno_val : Int)
  deriving DecidableEq, Repr

/-- How a method can end other than by returning. -/
inductive Failure where
  | runtime_error (what : What)
  | assertion_failed (expr : String)
  | out_of_fuel
  deriving DecidableEq, Repr

/-- Message builder `get_error_message ( prefix_msg, errno_val )`; a NULL
prefix is the empty prefix. -/
def get_error_message (prefix_msg : Option String) (errno_val : Int) : What :=
  What.os_error (prefix_msg.getD "") errno_val

/-! ## The object -/

/-- One past the largest `unsigned`. -/
def UNSIGNED_RANGE : Nat := 2 ^ 32

/-- Fields of class `uart_dpi`. -/
structure uart_dpi where
  m_listening_tcp_port : Nat
  m_listening_socket : Int
  m_listen_on_local_addr_only : Bool
  m_receive_buffer_size : Nat
  m_transmit_buffer_size : Nat
  m_receive_buffer : List Nat
  m_transmit_buffer : List Nat
  m_receive_write_pointer : Nat
  m_receive_read_pointer : Nat
  m_transmit_write_pointer : Nat
  m_transmit_read_pointer : Nat
  m_print_informational_messages : Bool
  m_informational_message_prefix : String
  m_listening_message_already_printed : Bool
  m_welcome_message : List Nat
  m_welcome_message_pos : Int
  m_connectionSocket : Int
  deriving DecidableEq, Repr

/-! ## The two ring buffers -/

/-- Source: `uart_dpi::is_receive_buffer_empty`. -/
def is_receive_buffer_empty (s : uart_dpi) : Bool :=
  s.m_receive_read_pointer == s.m_receive_write_pointer

/-- Source: `uart_dpi::is_receive_buffer_full`. -/
def is_receive_buffer_full (s : uart_dpi) : Bool :=
  ((s.m_receive_write_pointer + 1) % UNSIGNED_RANGE) % s.m_receive_buffer_size
    == s.m_receive_read_pointer

/-- Source: `uart_dpi::enqueue_receive_byte`. -/
def enqueue_receive_byte (s : uart_dpi) (character : Nat) : Except Failure Unit × uart_dpi :=
  if is_receive_buffer_full s then
    (.error (.assertion_failed "!is_receive_buffer_full()"), s)
  else
    (.ok (),
      { s with
        m_receive_buffer := s.m_receive_buffer.set s.m_receive_write_pointer character
        m_receive_write_pointer :=
          ((s.m_receive_write_pointer + 1) % UNSIGNED_RANGE) % s.m_receive_buffer_size })

/-- Source: `uart_dpi::deque_receive_byte`. -/
def deque_receive_byte (s : uart_dpi) : Except Failure Nat × uart_dpi :=
  if is_receive_buffer_empty s then
    (.error (.assertion_failed "!is_receive_buffer_empty()"), s)
  else
    (.ok (s.m_receive_buffer.getD s.m_receive_read_pointer 0),
      { s with
        m_receive_read_pointer :=
          ((s.m_receive_read_pointer + 1) % UNSIGNED_RANGE) % s.m_receive_buffer_size })

/-- Conversion of an `unsigned` to `int` (two's complement). -/
def unsigned_to_int (u : Nat) : Int :=
  if u % UNSIGNED_RANGE < 2 ^ 31 then ((u % UNSIGNED_RANGE : Nat) : Int)
  else ((u % UNSIGNED_RANGE : Nat) : Int) - (UNSIGNED_RANGE : Int)

/-- Subtraction of two `unsigned` values. -/
def unsigned_sub (a b : Nat) : Nat :=
  (a + UNSIGNED_RANGE - b % UNSIGNED_RANGE) % UNSIGNED_RANGE

/-- Source: `uart_dpi::get_received_byte_count`. -/
def get_received_byte_count (s : uart_dpi) : Except Failure Int :=
  if s.m_receive_read_pointer ≤ s.m_receive_write_pointer then
    .ok (unsigned_to_int (unsigned_sub s.m_receive_write_pointer s.m_receive_read_pointer))
  else
    let ret : Int :=
      unsigned_to_int
        (unsigned_sub s.m_receive_buffer_size
          (unsigned_sub s.m_receive_read_pointer s.m_receive_write_pointer))
    if ret > 0 then .ok ret else .error (.assertion_failed "ret > 0")

/-- Source: `uart_dpi::is_transmit_buffer_full`. -/
def is_transmit_buffer_full (s : uart_dpi) : Bool :=
  ((s.m_transmit_write_pointer + 1) % UNSIGNED_RANGE) % s.m_transmit_buffer_size
    == s.m_transmit_read_pointer

/-- Source: `uart_dpi::is_transmit_buffer_empty`. -/
def is_transmit_buffer_empty (s : uart_dpi) : Bool :=
  s.m_transmit_read_pointer == s.m_transmit_write_pointer

/-- Source: `uart_dpi::deque_transmit_byte`. -/
def deque_transmit_byte (s : uart_dpi) : Except Failure Nat × uart_dpi :=
  if is_transmit_buffer_empty s then
    (.error (.assertion_failed "!is_transmit_buffer_empty()"), s)
  else
    (.ok (s.m_transmit_buffer.getD s.m_transmit_read_pointer 0),
      { s with
        m_transmit_read_pointer :=
          ((s.m_transmit_read_pointer + 1) % UNSIGNED_RANGE) % s.m_transmit_buffer_size })

/-- The three statements that end `uart_dpi::send_char`: store the
character at the write pointer and advance the pointer. -/
def store_transmit_byte (s : uart_dpi) (character : Nat) : uart_dpi :=
  { s with
    m_transmit_buffer := s.m_transmit_buffer.set s.m_transmit_write_pointer character
    m_transmit_write_pointer :=
      ((s.m_transmit_write_pointer + 1) % UNSIGNED_RANGE) % s.m_transmit_buffer_size }

/-- Source: `uart_dpi::send_char`. -/
def send_char (s : uart_dpi) (character : Nat) : Except Failure Unit × uart_dpi :=
  if is_transmit_buffer_full s then
    match deque_transmit_byte s with
    | (.error e, s1) => (.error e, s1)
    | (.ok _, s1) =>
      if is_transmit_buffer_full s1 then
        (.error (.assertion_failed "! is_transmit_buffer_full()"), s1)
      else
        (.ok (), store_transmit_byte s1 character)
  else
    (.ok (), store_transmit_byte s character)

/-- Source: `uart_dpi::receive`. -/
def receive (s : uart_dpi) : Except Failure Nat × uart_dpi :=
  if is_receive_buffer_empty s then
    (.error (.runtime_error (.text "The receive buffer is empty.")), s)
  else
    deque_receive_byte s

/-! ## The operating system -/

/-- Result of `poll` on one descriptor. -/
inductive PollResult where
  | failed
  | none_ready
  | one_ready
  deriving DecidableEq, Repr

/-- The `int` that `poll` returned. -/
def PollResult.toInt : PollResult → Int
  | .failed => -1
  | .none_ready => 0
  | .one_ready => 1

/-- Result of `recv` with a buffer of one byte. -/
inductive RecvResult where
  | failed
  | peer_closed
  | one_byte
  deriving DecidableEq, Repr

/-- The `ssize_t` that `recv` returned. -/
def RecvResult.toInt : RecvResult → Int
  | .failed => -1
  | .peer_closed => 0
  | .one_byte => 1

/-- What the operating system (and the allocator) answers to one call.
Each call reads the fields that concern it. -/
structure OsReply where
  /-- value of `errno` after the call -/
  errno : Int
  /-- for `socket`, `accept4`: the new descriptor, `none` for -1 -/
  fd : Option Nat
  /-- for `setsockopt`, `bind`, `listen`, `send`: false for -1;
  for `malloc`: false for NULL -/
  ok : Bool
  /-- for `poll` -/
  poll : PollResult
  /-- for `recv` -/
  recv : RecvResult
  /-- for `recv`: the byte stored in the buffer -/
  recv_data : Nat
  /-- for `accept4`: the value left in `remoteAddrLen` -/
  addr_len : Nat
  /-- for `accept4`: the peer's port, host byte order -/
  peer_port : Nat
  /-- for `inet_ntop`: the text, `none` for NULL -/
  addr_text : Option String
  /-- for `malloc`: the (indeterminate) contents of the block -/
  memory : List Nat

/-- Which readiness a `poll` asks for: `POLLIN | POLLERR` or
`POLLOUT | POLLERR`. -/
inductive PollEvents where
  | pollin
  | pollout
  deriving DecidableEq, Repr

/-- The calls the engine makes, with the arguments that matter. -/
inductive Syscall where
  | malloc (size : Nat)
  | socket
  | setsockopt (fd : Int)
  | bind (fd : Int) (port : Nat) (local_only : Bool)
  | listen (fd : Int) (backlog : Nat)
  | poll (fd : Int) (events : PollEvents)
  | accept4 (fd : Int)
  | send (fd : Int) (data : Nat)
  | recv (fd : Int)
  | close (fd : Int)
  | inet_ntop
  deriving DecidableEq, Repr

/-- The lines the engine prints. The first three go to stdout and are only
printed when `m_print_informational_messages` is set; the last two go to
stderr.
* `listening`: "%sListening on IP address %s (%s), TCP port %d.\n"
* `accepted`: "%sAccepted an incoming connection from IP address %s, TCP port %d.\n"
* `closed_at_other_end`: "%sConnection closed at the other end.\n"
* `error_accepting`: "%sError accepting a connection on the listening socket: %s\n"
* `closed_after_error`: "%sConnection closed after error: %s\n" -/
inductive LogEvent where
  | listening (pfx : String) (addr : String) (local_only : Bool) (port : Nat)
  | accepted (pfx : String) (addr : String) (port : Nat)
  | closed_at_other_end (pfx : String)
  | error_accepting (what : What)
  | closed_after_error (what : What)
  deriving DecidableEq, Repr

/-- The oracle: the reply to the n-th call of the run. -/
abbrev Os := Nat → OsReply

/-- The object together with what the run has done so far: the calls made
(oldest first) and the lines printed (oldest first). -/
structure World where
  dpi : uart_dpi
  trace : List Syscall
  log : List LogEvent
  deriving DecidableEq, Repr

/-- A method of the object that can call the operating system: from the
world before the call to how the call ended and the world it left. -/
def Method (α : Type) : Type := World → Except Failure α × World

/-- Call the method in world `w`. -/
def Method.run {α : Type} (m : Method α) (w : World) : Except Failure α × World := m w

/-- Sequencing of statements: a statement that fails ends the method, in
the world the statement left. -/
instance : Monad Method where
  pure a := fun w => (.ok a, w)
  bind m f := fun w =>
    match m w with
    | (.ok a, w1) => f a w1
    | (.error e, w1) => (.error e, w1)

/-- Read the object's fields. -/
def the_object : Method uart_dpi := fun w => (.ok w.dpi, w)

/-- Assign to fields of the object. -/
def assign (f : uart_dpi → uart_dpi) : Method Unit :=
  fun w => (.ok (), { w with dpi := f w.dpi })

/-- Call one of the object's buffer operations. -/
def on_object {α : Type} (f : uart_dpi → Except Failure α × uart_dpi) : Method α :=
  fun w => ((f w.dpi).1, { w with dpi := (f w.dpi).2 })

/-- Perform one system call: take the oracle's reply and record the call. -/
def syscall (os : Os) (c : Syscall) : Method OsReply :=
  fun w => (.ok (os w.trace.length), { w with trace := w.trace ++ [c] })

/-- Print one line. -/
def print_line (e : LogEvent) : Method Unit :=
  fun w => (.ok (), { w with log := w.log ++ [e] })

/-- The statement `throw std::runtime_error( what )`. -/
def throw_runtime_error {α : Type} (what : What) : Method α :=
  fun w => (.error (.runtime_error what), w)

/-- The statement `assert( cond )`, with the text of the condition. -/
def c_assert (cond : Bool) (expr : String) : Method Unit :=
  fun w => if cond then (.ok (), w) else (.error (.assertion_failed expr), w)

/-- A loop of the model has used up its fuel. -/
def fuel_exhausted {α : Type} : Method α :=
  fun w => (.error .out_of_fuel, w)

/-- The statement `try { body } catch ( const std::exception & e ) { handler }`
(and `catch ( ... )`): only an exception is caught. -/
def try_catch {α : Type} (body : Method α) (handler : What → Method α) : Method α :=
  fun w =>
    match body w with
    | (.error (.runtime_error what), w1) => handler what w1
    | (r, w1) => (r, w1)

/-- The descriptor returned by `socket` / `accept4` as an `int`. -/
def fd_to_int : Option Nat → Int
  | none => -1
  | some n => (n : Int)

def EAGAIN : Int := 11
def EWOULDBLOCK : Int := 11

/-- The value of `sizeof( sockaddr_in )`. -/
def SIZEOF_SOCKADDR_IN : Nat := 16

/-! ## Sockets -/

/-- Source: `uart_dpi::close_current_connection`. -/
def close_current_connection (os : Os) : Method Unit := do
  let self ← the_object
  c_assert (self.m_connectionSocket != -1) "m_connectionSocket != -1"
  let _ ← syscall os (.close self.m_connectionSocket)
  assign fun s => { s with m_connectionSocket := -1 }

/-- Source: `uart_dpi::send_byte`. -/
def send_byte (os : Os) (data : Nat) : Method Unit := do
  let self ← the_object
  let r ← syscall os (.send self.m_connectionSocket data)
  if !r.ok then
    throw_runtime_error (get_error_message (some "Error sending data: ") r.errno)
  else
    pure ()

/-- Source: `ip_address_to_text`. -/
def ip_address_to_text (os : Os) : Method String := do
  let r ← syscall os .inet_ntop
  match r.addr_text with
  | none =>
    throw_runtime_error (get_error_message (some "Error formatting the IP address: ") r.errno)
  | some str => pure str

/-- Source: `uart_dpi::close_listening_socket`. -/
def close_listening_socket (os : Os) : Method Unit := do
  let self ← the_object
  c_assert (self.m_listening_socket != -1) "m_listening_socket != -1"
  let _ ← syscall os (.close self.m_listening_socket)
  assign fun s => { s with m_listening_socket := -1 }

/-- The `if` of `uart_dpi::create_listening_socket` that prints the
banner, once. -/
def print_listening_message_once (os : Os) : Method Unit := do
  let self ← the_object
  if !self.m_listening_message_already_printed then do
    assign fun s => { s with m_listening_message_already_printed := true }
    if self.m_print_informational_messages then do
      let addr_str ← ip_address_to_text os
      print_line (.listening self.m_informational_message_prefix addr_str
        self.m_listen_on_local_addr_only self.m_listening_tcp_port)
    else
      pure ()
  else
    pure ()

/-- The body of the `try` block of `uart_dpi::create_listening_socket`:
socket options, bind, the banner, listen. -/
def create_listening_socket_try (os : Os) : Method Unit := do
  let self ← the_object
  let r1 ← syscall os (.setsockopt self.m_listening_socket)
  if !r1.ok then
    throw_runtime_error
      (get_error_message (some "Error setting the listen socket options: ") r1.errno)
  else do
    let r2 ← syscall os
      (.bind self.m_listening_socket self.m_listening_tcp_port self.m_listen_on_local_addr_only)
    if !r2.ok then
      throw_runtime_error (get_error_message (some "Error binding the socket: ") r2.errno)
    else do
      print_listening_message_once os
      let r3 ← syscall os (.listen self.m_listening_socket 1)
      if !r3.ok then
        throw_runtime_error (get_error_message (some "Error listening on the socket: ") r3.errno)
      else
        pure ()

/-- Source: `uart_dpi::create_listening_socket`. -/
def create_listening_socket (os : Os) : Method Unit := do
  let self ← the_object
  c_assert (self.m_listening_socket == -1) "m_listening_socket == -1"
  let r ← syscall os .socket
  assign fun s => { s with m_listening_socket := fd_to_int r.fd }
  if fd_to_int r.fd = -1 then
    throw_runtime_error
      (get_error_message (some "Error creating the listening socket: ") r.errno)
  else
    try_catch (create_listening_socket_try os) fun what => do
      close_listening_socket os
      throw_runtime_error what

/-- The body of the `try` block of `uart_dpi::accept_connection`. -/
def accept_connection_try (os : Os) (connectionSocket : Int) (ra : OsReply) : Method Unit := do
  let self ← the_object
  if connectionSocket = -1 then
    throw_runtime_error (get_error_message none ra.errno)
  else if ra.addr_len > SIZEOF_SOCKADDR_IN then
    throw_runtime_error (.text "The address buffer is too small.")
  else if self.m_print_informational_messages then do
    let addr_str ← ip_address_to_text os
    print_line (.accepted self.m_informational_message_prefix addr_str ra.peer_port)
  else
    pure ()

/-- What `uart_dpi::accept_connection` does once `poll` has reported a
pending peer: accept it, and on success take over the new socket, set the
welcome cursor and close the listening socket. -/
def accept_pending_connection (os : Os) : Method Unit := do
  let self ← the_object
  let ra ← syscall os (.accept4 self.m_listening_socket)
  let connectionSocket : Int := fd_to_int ra.fd
  let accepted ←
    try_catch
      (do accept_connection_try os connectionSocket ra
          pure true)
      (fun what => do
        print_line (.error_accepting what)
        if connectionSocket ≠ -1 then do
          let _ ← syscall os (.close connectionSocket)
          pure false
        else
          pure false)
  if accepted then do
    assign fun s =>
      { s with
        m_connectionSocket := connectionSocket
        m_welcome_message_pos := if s.m_welcome_message.isEmpty then -1 else 0 }
    close_listening_socket os
  else
    pure ()

/-- Source: `uart_dpi::accept_connection`. -/
def accept_connection (os : Os) : Method Unit := do
  let self ← the_object
  c_assert (self.m_listening_socket != -1) "m_listening_socket != -1"
  let r ← syscall os (.poll self.m_listening_socket .pollin)
  let pollRes : Int := r.poll.toInt
  if pollRes = 0 then
    pure ()
  else if pollRes = -1 then
    throw_runtime_error
      (get_error_message (some "Error polling the listening socket: ") r.errno)
  else do
    c_assert (pollRes == 1) "pollRes == 1"
    accept_pending_connection os

/-- Source: `uart_dpi::accept_eventual_incoming_connection`. -/
def accept_eventual_incoming_connection (os : Os) : Method Unit := do
  let self ← the_object
  if self.m_connectionSocket = -1 then do
    if self.m_listening_socket = -1 then
      create_listening_socket os
    else
      pure ()
    accept_connection os
  else
    pure ()

/-! ## Transfer -/

/-- The statements of `uart_dpi::transmit_data` that choose the byte to
send: the next byte of the welcome message, or the oldest byte of the
transmit buffer.  `m_welcome_message[ i ]` is the i-th character, and the
terminator 0 at `i = size()`. -/
def next_byte_to_send : Method Nat := do
  let self ← the_object
  if self.m_welcome_message_pos ≠ -1 then do
    let byte_to_send := self.m_welcome_message.getD self.m_welcome_message_pos.toNat 0
    let pos : Int := self.m_welcome_message_pos + 1
    assign fun s => { s with m_welcome_message_pos := pos }
    if self.m_welcome_message.getD pos.toNat 0 = 0 then
      assign fun s => { s with m_welcome_message_pos := -1 }
    else
      pure ()
    pure byte_to_send
  else
    on_object deque_transmit_byte

/-- The loop of `uart_dpi::transmit_data`; `fuel` bounds the number of
times the loop condition is evaluated. -/
def transmit_data_loop (os : Os) : Nat → Method Unit
  | 0 => fuel_exhausted
  | fuel + 1 => do
    let self ← the_object
    if !is_transmit_buffer_empty self || self.m_welcome_message_pos != -1 then do
      let r ← syscall os (.poll self.m_connectionSocket .pollout)
      let pollRes : Int := r.poll.toInt
      if pollRes = -1 then
        throw_runtime_error
          (get_error_message (some "Error polling the connection socket: ") r.errno)
      else if pollRes = 0 then
        pure ()
      else do
        c_assert (pollRes == 1) "pollRes == 1"
        let byte_to_send ← next_byte_to_send
        send_byte os byte_to_send
        transmit_data_loop os fuel
    else
      pure ()

/-- Source: `uart_dpi::transmit_data`.  Every pass through the loop that
does not leave it sends one byte of the welcome message or of the transmit
buffer, so the condition is evaluated at most
`m_welcome_message.length + m_transmit_buffer_size` times. -/
def transmit_data (os : Os) : Method Unit := do
  let self ← the_object
  transmit_data_loop os (self.m_welcome_message.length + self.m_transmit_buffer_size + 1)

/-- The loop of `uart_dpi::receive_data`; `fuel` bounds the number of
times the loop condition is evaluated. -/
def receive_data_loop (os : Os) : Nat → Method Unit
  | 0 => fuel_exhausted
  | fuel + 1 => do
    let self ← the_object
    if !is_receive_buffer_full self then do
      let r ← syscall os (.poll self.m_connectionSocket .pollin)
      let pollRes : Int := r.poll.toInt
      if pollRes = -1 then
        throw_runtime_error
          (get_error_message (some "Error polling the connection socket: ") r.errno)
      else if pollRes = 0 then
        pure ()
      else do
        c_assert (pollRes == 1) "pollRes == 1"
        let rr ← syscall os (.recv self.m_connectionSocket)
        let received_byte_count : Int := rr.recv.toInt
        if received_byte_count = 0 then do
          if self.m_print_informational_messages then
            print_line (.closed_at_other_end self.m_informational_message_prefix)
          else
            pure ()
          close_current_connection os
        else if received_byte_count = -1 then
          if rr.errno = EAGAIN || rr.errno = EWOULDBLOCK then
            pure ()
          else
            throw_runtime_error (get_error_message (some "Error receiving data: ") rr.errno)
        else do
          c_assert (received_byte_count == 1) "received_byte_count == 1"
          on_object fun s => enqueue_receive_byte s rr.recv_data
          receive_data_loop os fuel
    else
      pure ()

/-- Source: `uart_dpi::receive_data`.  Every pass through the loop that
does not leave it enqueues one byte, so the condition is evaluated at most
`m_receive_buffer_size` times. -/
def receive_data (os : Os) : Method Unit := do
  let self ← the_object
  receive_data_loop os (self.m_receive_buffer_size + 1)

/-- The `try` / `catch` statement of `uart_dpi::tick`: transmit, receive,
and on an exception print it and close the connection. -/
def transfer_or_drop (os : Os) : Method Unit :=
  try_catch
    (do transmit_data os
        receive_data os)
    (fun what => do
      print_line (.closed_after_error what)
      close_current_connection os)

/-- Source: `uart_dpi::tick`.  The value returned is the one written to
`*received_byte_count`. -/
def tick (os : Os) : Method Int := do
  accept_eventual_incoming_connection os
  let self ← the_object
  if self.m_connectionSocket ≠ -1 then
    transfer_or_drop os
  else
    pure ()
  on_object fun s => (get_received_byte_count s, s)

/-! ## Construction -/

/-- Conversion of an `int` to `unsigned`. -/
def int_to_unsigned (x : Int) : Nat := (x % (UNSIGNED_RANGE : Int)).toNat

/-- Conversion of an `int` to `uint16_t`. -/
def int_to_uint16 (x : Int) : Nat := (x % 65536).toNat

def MIN_BUFFER_SIZE : Int := 16

/-- The object before the constructor body has assigned anything: the
fields of built-in type hold whatever `garbage` holds (they are
indeterminate), the two strings are default-constructed. -/
def unassigned (garbage : uart_dpi) : uart_dpi :=
  { garbage with
    m_informational_message_prefix := ""
    m_welcome_message := [] }

/-- A block of `size` bytes returned by `malloc`, with the contents the
oracle gives it. -/
def allocated (size : Nat) (memory : List Nat) : List Nat :=
  (List.range size).map (fun i => memory.getD i 0)

/-- The body of the constructor `uart_dpi::uart_dpi`.  A C string argument
is `none` for NULL, otherwise the characters before its terminator.  The
sum `size + 1` is converted to `unsigned` directly. -/
def uart_dpi_body (os : Os) (tcp_port : Int) (listen_on_local_addr_only : Nat)
    (transmit_buffer_size : Int) (receive_buffer_size : Int)
    (welcome_message : Option (List Nat)) (print_informational_messages : Nat)
    ( informational_message_prefix : Option String) : Method Unit := do
  assign fun s =>
    { s with
      m_listening_socket := -1
      m_listening_message_already_printed := false
      m_connectionSocket := -1 }
  if tcp_port = 0 then
    throw_runtime_error (.text "Invalid TCP port.")
  else do
    assign fun s =>
      { s with
        m_welcome_message := welcome_message.getD []
        m_listening_tcp_port := int_to_uint16 tcp_port }
    if print_informational_messages ≠ 0 ∧ print_informational_messages ≠ 1 then
      throw_runtime_error (.text "Invalid print_informational_messages parameter.")
    else do
      assign fun s =>
        { s with
          m_print_informational_messages := decide (print_informational_messages = 1)
          m_informational_message_prefix := informational_message_prefix.getD "" }
      if listen_on_local_addr_only ≠ 0 ∧ listen_on_local_addr_only ≠ 1 then
        throw_runtime_error (.text "Invalid listen_on_local_addr_only parameter.")
      else do
        assign fun s =>
          { s with m_listen_on_local_addr_only := decide (listen_on_local_addr_only = 1) }
        if receive_buffer_size < MIN_BUFFER_SIZE then
          throw_runtime_error (.text "Invalid receive buffer size.")
        else do
          assign fun s =>
            { s with m_receive_buffer_size := int_to_unsigned (receive_buffer_size + 1) }
          if transmit_buffer_size < MIN_BUFFER_SIZE then
            throw_runtime_error (.text "Invalid transmit buffer size.")
          else do
            assign fun s =>
              { s with m_transmit_buffer_size := int_to_unsigned (transmit_buffer_size + 1) }
            let self ← the_object
            let m1 ← syscall os (.malloc self.m_receive_buffer_size)
            if !m1.ok then
              throw_runtime_error (.text "Out of memory allocating the receive buffer.")
            else do
              assign fun s =>
                { s with m_receive_buffer := allocated self.m_receive_buffer_size m1.memory }
              let m2 ← syscall os (.malloc self.m_transmit_buffer_size)
              if !m2.ok then
                throw_runtime_error (.text "Out of memory allocating the transmit buffer.")
              else do
                assign fun s =>
                  { s with
                    m_transmit_buffer := allocated self.m_transmit_buffer_size m2.memory
                    m_receive_write_pointer := 0
                    m_receive_read_pointer := 0
                    m_transmit_write_pointer := 0
                    m_transmit_read_pointer := 0 }
                create_listening_socket os

/-- Source: the constructor `uart_dpi::uart_dpi`, run on fresh memory
holding `garbage`, with no call made and no line printed yet.  The result
`.ok ()` stands for a constructed object, found in the `dpi` field. -/
def uart_dpi_new (os : Os) (garbage : uart_dpi) (tcp_port : Int)
    (listen_on_local_addr_only : Nat) (transmit_buffer_size : Int) (receive_buffer_size : Int)
    (welcome_message : Option (List Nat)) (print_informational_messages : Nat)
    ( informational_message_prefix : Option String) : Except Failure Unit × World :=
  (uart_dpi_body os tcp_port listen_on_local_addr_only transmit_buffer_size receive_buffer_size
      welcome_message print_informational_messages informational_message_prefix).run
    { dpi := unassigned garbage, trace := [], log := [] }

/-! ## Reading the ring buffers

The functions of this section are not in the source: they say which bytes
a ring buffer holds, so that the theorems can speak about them. -/

/-- Number of bytes between a read pointer and a write pointer in a ring
of `size` slots. -/
def ring_count (size rp wp : Nat) : Nat :=
  if rp ≤ wp then wp - rp else size - (rp - wp)

/-- The `n` bytes found from slot `rp` on, advancing the way the source
advances a pointer (`++p; p %= size`). -/
def ring_bytes (buf : List Nat) (size : Nat) : Nat → Nat → List Nat
  | _, 0 => []
  | rp, n + 1 => buf.getD rp 0 :: ring_bytes buf size (((rp + 1) % UNSIGNED_RANGE) % size) n

/-- The bytes waiting in the receive buffer, oldest first. -/
def receive_pending (s : uart_dpi) : List Nat :=
  ring_bytes s.m_receive_buffer s.m_receive_buffer_size s.m_receive_read_pointer
    (ring_count s.m_receive_buffer_size s.m_receive_read_pointer s.m_receive_write_pointer)

/-- The bytes waiting in the transmit buffer, oldest first. -/
def transmit_pending (s : uart_dpi) : List Nat :=
  ring_bytes s.m_transmit_buffer s.m_transmit_buffer_size s.m_transmit_read_pointer
    (ring_count s.m_transmit_buffer_size s.m_transmit_read_pointer s.m_transmit_write_pointer)

/-- A ring buffer as the constructor leaves it and every operation keeps
it: at least two slots, a size that is at most `INT_MAX + 1` (it is an
`int` plus one), a block of that many bytes, both pointers inside. -/
def RingOk (buf : List Nat) (size rp wp : Nat) : Prop :=
  1 < size ∧ size ≤ 2 ^ 31 ∧ buf.length = size ∧ rp < size ∧ wp < size

instance (buf : List Nat) (size rp wp : Nat) : Decidable (RingOk buf size rp wp) := by
  unfold RingOk; infer_instance

/-- Both ring buffers are in order. -/
def BuffersOk (s : uart_dpi) : Prop :=
  RingOk s.m_receive_buffer s.m_receive_buffer_size
      s.m_receive_read_pointer s.m_receive_write_pointer ∧
    RingOk s.m_transmit_buffer s.m_transmit_buffer_size
      s.m_transmit_read_pointer s.m_transmit_write_pointer

instance (s : uart_dpi) : Decidable (BuffersOk s) := by
  unfold BuffersOk; infer_instance

/-! ## Runs of buffer operations -/

/-- The operations that put a byte into one of the two ring buffers or
take one out. -/
inductive BufferOp where
  | enqueue_receive_byte (c : Nat)
  | deque_receive_byte
  | receive
  | send_char (c : Nat)
  | deque_transmit_byte
  deriving DecidableEq, Repr

/-- Run the operations in order, starting from `s`; `rx` and `tx` collect
the bytes dequeued from the receive and from the transmit buffer.  The run
stops at the first operation that fails. -/
def run_ops : List BufferOp → uart_dpi → List Nat → List Nat →
    Except Failure (List Nat × List Nat) × uart_dpi
  | [], s, rx, tx => (.ok (rx, tx), s)
  | .enqueue_receive_byte c :: ops, s, rx, tx =>
    match enqueue_receive_byte s c with
    | (.error e, s1) => (.error e, s1)
    | (.ok _, s1) => run_ops ops s1 rx tx
  | .deque_receive_byte :: ops, s, rx, tx =>
    match deque_receive_byte s with
    | (.error e, s1) => (.error e, s1)
    | (.ok b, s1) => run_ops ops s1 (rx ++ [b]) tx
  | .receive :: ops, s, rx, tx =>
    match receive s with
    | (.error e, s1) => (.error e, s1)
    | (.ok b, s1) => run_ops ops s1 (rx ++ [b]) tx
  | .send_char c :: ops, s, rx, tx =>
    match send_char s c with
    | (.error e, s1) => (.error e, s1)
    | (.ok _, s1) => run_ops ops s1 rx tx
  | .deque_transmit_byte :: ops, s, rx, tx =>
    match deque_transmit_byte s with
    | (.error e, s1) => (.error e, s1)
    | (.ok b, s1) => run_ops ops s1 rx (tx ++ [b])

/-- The bytes a run enqueues into the receive buffer, in order. -/
def enqueued_receive : List BufferOp → List Nat
  | [] => []
  | .enqueue_receive_byte c :: ops => c :: enqueued_receive ops
  | _ :: ops => enqueued_receive ops

/-- The bytes a run enqueues into the transmit buffer, in order. -/
def enqueued_transmit : List BufferOp → List Nat
  | [] => []
  | .send_char c :: ops => c :: enqueued_transmit ops
  | _ :: ops => enqueued_transmit ops

/-- The number of operations of a run that dequeue from the receive
buffer. -/
def dequeues_receive : List BufferOp → Nat
  | [] => 0
  | .deque_receive_byte :: ops => dequeues_receive ops + 1
  | .receive :: ops => dequeues_receive ops + 1
  | _ :: ops => dequeues_receive ops

/-- The number of operations of a run that dequeue from the transmit
buffer. -/
def dequeues_transmit : List BufferOp → Nat
  | [] => 0
  | .deque_transmit_byte :: ops => dequeues_transmit ops + 1
  | _ :: ops => dequeues_transmit ops

/-- The run keeps within the buffers: with `r` and `t` bytes in flight in
the receive and the transmit buffer before it, no enqueue brings the bytes
in flight above capacity - 1 and no dequeue finds nothing in flight. -/
def within_capacity (rx_capacity tx_capacity : Nat) : Nat → Nat → List BufferOp → Bool
  | _, _, [] => true
  | r, t, .enqueue_receive_byte _ :: ops =>
    decide (r + 1 ≤ rx_capacity - 1) && within_capacity rx_capacity tx_capacity (r + 1) t ops
  | r, t, .deque_receive_byte :: ops =>
    decide (0 < r) && within_capacity rx_capacity tx_capacity (r - 1) t ops
  | r, t, .receive :: ops =>
    decide (0 < r) && within_capacity rx_capacity tx_capacity (r - 1) t ops
  | r, t, .send_char _ :: ops =>
    decide (t + 1 ≤ tx_capacity - 1) && within_capacity rx_capacity tx_capacity r (t + 1) ops
  | r, t, .deque_transmit_byte :: ops =>
    decide (0 < t) && within_capacity rx_capacity tx_capacity r (t - 1) ops

/-- Dequeue from the transmit buffer until it reports empty (at most
`fuel` bytes): the dequeue sequence. -/
def drain_transmit : Nat → uart_dpi → List Nat
  | 0, _ => []
  | fuel + 1, s =>
    if is_transmit_buffer_empty s then []
    else
      match deque_transmit_byte s with
      | (.error _, _) => []
      | (.ok b, s1) => b :: drain_transmit fuel s1

/-- Call `send_char` on each byte in turn. -/
def send_chars : List Nat → uart_dpi → Except Failure Unit × uart_dpi
  | [], s => (.ok (), s)
  | c :: cs, s =>
    match send_char s c with
    | (.error e, s1) => (.error e, s1)
    | (.ok _, s1) => send_chars cs s1

/-- The capacities of the receive and of the transmit buffer. -/
def capacities (s : uart_dpi) : Nat × Nat :=
  (s.m_receive_buffer_size, s.m_transmit_buffer_size)

/-! ## Outcomes of methods -/

/-- Calling `m` in `w` ends in a way, and leaves a world, that satisfy `Q`. -/
def wp {α : Type} (m : Method α) (Q : Except Failure α → World → Prop) (w : World) : Prop :=
  Q (m.run w).1 (m.run w).2

/-- The condition on the outcome of a statement under which the outcome
of the whole method satisfies `Q`: if the statement returned `a`, `k a`
must hold where it left off; if it failed, the method fails that way. -/
def on_ok {α β : Type} (k : α → World → Prop) (Q : Except Failure β → World → Prop) :
    Except Failure α → World → Prop
  | .ok a, w => k a w
  | .error e, w => Q (.error e) w

/-- The condition on the outcome of a `try` body under which the outcome
of the whole `try` / `catch` satisfies `Q`. -/
def on_caught {α : Type} (handler : What → World → Prop) (Q : Except Failure α → World → Prop) :
    Except Failure α → World → Prop
  | .error (.runtime_error what), w => handler what w
  | r, w => Q r w

/-- The call returned or raised an exception: it did not stop at an
assertion and its loops did not run out of fuel. -/
def returns_or_raises {α : Type} : Except Failure α → Prop
  | .ok _ => True
  | .error (.runtime_error _) => True
  | .error _ => False

/-- The object `d` as the constructor leaves it when it succeeds with the
given arguments. -/
def constructed_as (d : uart_dpi) (tcp_port : Int) (listen_on_local_addr_only : Nat)
    (transmit_buffer_size : Int) (receive_buffer_size : Int)
    (welcome_message : Option (List Nat)) (print_informational_messages : Nat)
    ( informational_message_prefix : Option String) : Prop :=
  d.m_listening_tcp_port = int_to_uint16 tcp_port ∧
  d.m_listen_on_local_addr_only = decide (listen_on_local_addr_only = 1) ∧
  d.m_receive_buffer_size = int_to_unsigned (receive_buffer_size + 1) ∧
  d.m_transmit_buffer_size = int_to_unsigned (transmit_buffer_size + 1) ∧
  d.m_receive_buffer.length = int_to_unsigned (receive_buffer_size + 1) ∧
  d.m_transmit_buffer.length = int_to_unsigned (transmit_buffer_size + 1) ∧
  d.m_receive_write_pointer = 0 ∧ d.m_receive_read_pointer = 0 ∧
  d.m_transmit_write_pointer = 0 ∧ d.m_transmit_read_pointer = 0 ∧
  d.m_print_informational_messages = decide (print_informational_messages = 1) ∧
  d.m_informational_message_prefix = informational_message_prefix.getD "" ∧
  d.m_listening_message_already_printed = true ∧
  d.m_welcome_message = welcome_message.getD [] ∧
  d.m_listening_socket ≠ -1 ∧
  d.m_connectionSocket = -1

/-- The arguments that the constructor accepts. -/
def valid_arguments (tcp_port : Int) (listen_on_local_addr_only : Nat)
    (transmit_buffer_size : Int) (receive_buffer_size : Int)
    (print_informational_messages : Nat) : Prop :=
  tcp_port ≠ 0 ∧
  (listen_on_local_addr_only = 0 ∨ listen_on_local_addr_only = 1) ∧
  (print_informational_messages = 0 ∨ print_informational_messages = 1) ∧
  16 ≤ transmit_buffer_size ∧ 16 ≤ receive_buffer_size

/-! ## Sample values -/

/-- An oracle under which every call succeeds: descriptor 3, a peer ready
on every `poll`, the byte 0x61 on every `recv`. -/
def obliging : Os := fun _ =>
  { errno := 0, fd := some 3, ok := true, poll := .one_ready, recv := .one_byte,
    recv_data := 0x61, addr_len := 16, peer_port := 40000, addr_text := some "127.0.0.1",
    memory := [] }

/-- Memory full of zeros. -/
def zeroed : uart_dpi :=
  { m_listening_tcp_port := 0, m_listening_socket := 0, m_listen_on_local_addr_only := false,
    m_receive_buffer_size := 0, m_transmit_buffer_size := 0, m_receive_buffer := [],
    m_transmit_buffer := [], m_receive_write_pointer := 0, m_receive_read_pointer := 0,
    m_transmit_write_pointer := 0, m_transmit_read_pointer := 0,
    m_print_informational_messages := false, m_informational_message_prefix := "",
    m_listening_message_already_printed := false, m_welcome_message := [],
    m_welcome_message_pos := 0, m_connectionSocket := 0 }

/-- The outcome of `uart_dpi( 5678, 1, 16, 16, "HI", 0, NULL )` under the
obliging oracle. -/
def sample_new : Except Failure Unit × World :=
  uart_dpi_new obliging zeroed 5678 1 16 16 (some [0x48, 0x49]) 0 none

/-- The sample engine after `send_char` of the bytes 1 to 16: its
transmit buffer is full. -/
def sample_full_transmit : uart_dpi :=
  (send_chars (List.range' 1 16) sample_new.2.dpi).2

/-- The sample engine with the bytes 7 and 8 in its receive buffer. -/
def sample_received : uart_dpi :=
  (run_ops [.enqueue_receive_byte 7, .enqueue_receive_byte 8] sample_new.2.dpi [] []).2

/-- The sample engine with a transmit buffer of 16 slots in place of its
own: a buffer with 15 usable slots, which the constructor never makes. -/
def sample_fifteen_slots : uart_dpi :=
  { sample_new.2.dpi with
    m_transmit_buffer_size := 16
    m_transmit_buffer := List.replicate 16 0 }

/-- Memory allocation and the setup of the listening socket succeed: no
call fails, `socket` yields a descriptor, `inet_ntop` yields a text. -/
def all_calls_succeed (os : Os) : Prop :=
  ∀ n, (os n).ok = true ∧ (os n).fd ≠ none ∧ (os n).addr_text ≠ none

/-- The messages of the configuration errors of the constructor. -/
def configuration_errors : List String :=
  ["Invalid TCP port.", "Invalid print_informational_messages parameter.",
    "Invalid listen_on_local_addr_only parameter.", "Invalid receive buffer size.",
    "Invalid transmit buffer size."]

/-- What one run of the receive step may do to the world `w` it starts
from: it returns or raises, the buffers stay in order, it changes nothing
in the object but the contents and the write pointer of the receive buffer
and the connection socket, the connection socket is as before unless the
step returned after closing it, and the bytes waiting in the receive buffer
are those that were waiting, followed by the bytes read. -/
def receive_data_post (w : World) (r : Except Failure Unit) (w1 : World) : Prop :=
  returns_or_raises r ∧ BuffersOk w1.dpi ∧
  (∃ buf p c, w1.dpi =
    { w.dpi with m_receive_buffer := buf, m_receive_write_pointer := p,
                 m_connectionSocket := c }) ∧
  (w1.dpi.m_connectionSocket = w.dpi.m_connectionSocket ∨
    (r = .ok () ∧ w1.dpi.m_connectionSocket = -1)) ∧
  (∃ more, receive_pending w1.dpi = receive_pending w.dpi ++ more)

/-- The welcome cursor is the sentinel or points into the welcome message. -/
def cursor_ok (d : uart_dpi) : Prop :=
  d.m_welcome_message_pos = -1 ∨
    (0 ≤ d.m_welcome_message_pos ∧ d.m_welcome_message_pos < d.m_welcome_message.length)

instance (d : uart_dpi) : Decidable (cursor_ok d) := by
  unfold cursor_ok; infer_instance

/-- The number of bytes the transmit step still has to send: what is left
of the welcome message and what waits in the transmit buffer. -/
def transmit_backlog (d : uart_dpi) : Nat :=
  (if d.m_welcome_message_pos = -1 then 0
    else d.m_welcome_message.length - d.m_welcome_message_pos.toNat) +
  (transmit_pending d).length

/-- What one run of the transmit step may do to the world `w` it starts
from: it returns or raises, the buffers stay in order and the cursor
stays valid, it changes nothing in the object but the read pointer of the
transmit buffer and the welcome cursor, and the bytes waiting in the
transmit buffer are the last of those that were waiting. -/
def transmit_data_post (w : World) (r : Except Failure Unit) (w1 : World) : Prop :=
  returns_or_raises r ∧ BuffersOk w1.dpi ∧ cursor_ok w1.dpi ∧
  (∃ p pos, w1.dpi =
    { w.dpi with m_transmit_read_pointer := p, m_welcome_message_pos := pos }) ∧
  (∃ sent, transmit_pending w.dpi = sent ++ transmit_pending w1.dpi)

/-- The object `d1` is the object `d` after it accepted a connection: it
has a connection socket, the welcome cursor is at the start of the welcome
message (the sentinel if there is none) and the listening socket is gone. -/
def accepted_from (d d1 : uart_dpi) : Prop :=
  ∃ c : Int, c ≠ -1 ∧
    d1 = { d with
      m_connectionSocket := c
      m_welcome_message_pos := if d.m_welcome_message.isEmpty then -1 else 0
      m_listening_socket := -1 }

/-- The prefixes of the exceptions that `create_listening_socket` raises
once the banner has been printed. -/
def listening_socket_errors : List String :=
  ["Error creating the listening socket: ", "Error setting the listen socket options: ",
    "Error binding the socket: ", "Error listening on the socket: "]

/-- The prefixes of the exceptions that can leave `tick`: those of
`create_listening_socket` and the one of the `poll` on the listening
socket. -/
def tick_errors : List String :=
  listening_socket_errors ++ ["Error polling the listening socket: "]

/-- The call raised an exception built by `get_error_message` with one of
the given prefixes. -/
def raised_with {α : Type} (prefixes : List String) (r : Except Failure α) : Prop :=
  ∃ pfx e, r = .error (.runtime_error (.os_error pfx e)) ∧ pfx ∈ prefixes

/-- The object is in order: both ring buffers are, the listening socket
and the connection socket are not both there, while there is a connection
the welcome cursor is valid, and the banner flag is set. -/
def engine_inv (d : uart_dpi) : Prop :=
  BuffersOk d ∧
  (d.m_listening_socket = -1 ∨ d.m_connectionSocket = -1) ∧
  (d.m_connectionSocket ≠ -1 → cursor_ok d) ∧
  d.m_listening_message_already_printed = true

instance (d : uart_dpi) : Decidable (engine_inv d) := by
  unfold engine_inv; infer_instance

/-- What the transfer of one tick may do to the object `d`: nothing but
advance the transmit read pointer and the welcome cursor, write into the
receive buffer and advance its write pointer, and close the connection. -/
def transferred_from (d d1 : uart_dpi) : Prop :=
  (∃ p pos buf q c, d1 =
    { d with m_transmit_read_pointer := p, m_welcome_message_pos := pos,
             m_receive_buffer := buf, m_receive_write_pointer := q,
             m_connectionSocket := c }) ∧
  (d1.m_connectionSocket = d.m_connectionSocket ∨ d1.m_connectionSocket = -1)

/-- What `tick` leaves and how it ends, from the world `w`: the object is
in order, and `tick` either returns the byte count, or, there being no
connection before or after, ends with an exception of
`create_listening_socket` or of the `poll` on the listening socket. -/
def tick_post (w : World) (r : Except Failure Int) (w1 : World) : Prop :=
  engine_inv w1.dpi ∧
  ((r = .ok ((receive_pending w1.dpi).length : Int)) ∨
   (raised_with tick_errors r ∧
      w.dpi.m_connectionSocket = -1 ∧ w1.dpi.m_connectionSocket = -1))

/-- The worlds an engine can be in at an operation boundary, under the
oracle `os`: the world a successful construction leaves (the two sizes
being `int`s), and from there the world any call of `tick`, `send_char` or
`receive` leaves, whatever way the call ended. -/
inductive Reachable (os : Os) : World → Prop where
  | constructed (garbage : uart_dpi) (tcp_port : Int) (listen_on_local_addr_only : Nat)
      (transmit_buffer_size : Int) (receive_buffer_size : Int)
      (welcome_message : Option (List Nat)) (print_informational_messages : Nat)
      ( informational_message_prefix : Option String) (w : World)
      (hnew : uart_dpi_new os garbage tcp_port listen_on_local_addr_only transmit_buffer_size
        receive_buffer_size welcome_message print_informational_messages
        informational_message_prefix = (.ok (), w))
      (htx : transmit_buffer_size < 2 ^ 31) (hrx : receive_buffer_size < 2 ^ 31) :
      Reachable os w
  | tick (w : World) (h : Reachable os w) : Reachable os ((tick os).run w).2
  | send_char (w : World) (c : Nat) (h : Reachable os w) :
      Reachable os { w with dpi := (send_char w.dpi c).2 }
  | receive (w : World) (h : Reachable os w) :
      Reachable os { w with dpi := (receive w.dpi).2 }

/-- An oracle under which construction succeeds (its six calls) and every
later call fails: `poll` yields -1 with errno 4. -/
def listening_poll_fails : Os := fun n =>
  if n < 6 then obliging n
  else { obliging n with ok := false, fd := none, poll := .failed, errno := 4 }

/-- An oracle for one short session: construction succeeds (calls 0 to 5),
a peer is accepted (6 to 8), the welcome message goes out (9 to 12), no
byte is there to read (13), on the next readiness check the peer has closed
(14 to 16), and from then on every call fails with errno 24. -/
def reopen_fails : Os := fun n =>
  if n = 13 then { obliging n with poll := .none_ready }
  else if n = 15 then { obliging n with recv := .peer_closed }
  else if 17 ≤ n then { obliging n with ok := false, fd := none, poll := .failed, errno := 24 }
  else obliging n

/-- The sample engine constructed under the oracle `listening_poll_fails`. -/
def deaf_new : Except Failure Unit × World :=
  uart_dpi_new listening_poll_fails zeroed 5678 1 16 16 (some [0x48, 0x49]) 0 none

/-- The sample engine constructed under the oracle `reopen_fails`. -/
def short_new : Except Failure Unit × World :=
  uart_dpi_new reopen_fails zeroed 5678 1 16 16 (some [0x48, 0x49]) 0 none

/-- The first tick of the short session, in its two parts: a peer is
accepted, then the welcome message is sent. -/
def short_accept : Except Failure Unit × World :=
  (accept_eventual_incoming_connection reopen_fails).run short_new.2

def short_welcome : Except Failure Unit × World :=
  (transfer_or_drop reopen_fails).run short_accept.2

/-- The second tick of the short session, in its two parts: nothing to
accept, then the peer is found to have closed. -/
def short_idle : Except Failure Unit × World :=
  (accept_eventual_incoming_connection reopen_fails).run short_welcome.2

def short_closed : Except Failure Unit × World :=
  (transfer_or_drop reopen_fails).run short_idle.2

/-- The sample engine, connected on descriptor 3, with the bytes 1 to 16 in
its receive buffer: the receive buffer is full. -/
def sample_full_receive : World :=
  { sample_new.2 with
    dpi :=
      { (run_ops ((List.range' 1 16).map .enqueue_receive_byte) sample_new.2.dpi [] []).2 with
        m_listening_socket := -1
        m_connectionSocket := 3
        m_welcome_message_pos := -1 } }

/-- The byte a call hands to `send`, if the call is a `send`. -/
def sent_byte : Syscall → Option Nat
  | .send _ data => some data
  | _ => none

/-- The bytes handed to `send` by the calls of a trace, oldest first. -/
def sent_bytes (trace : List Syscall) : List Nat :=
  trace.filterMap sent_byte

/-- What the transmit step has still to send on the connection: the
welcome message from the cursor on, then the bytes waiting in the transmit
buffer. -/
def outgoing (d : uart_dpi) : List Nat :=
  (if d.m_welcome_message_pos = -1 then []
    else d.m_welcome_message.drop d.m_welcome_message_pos.toNat) ++ transmit_pending d

/-- The socket is writable and `send` succeeds: each of the `count` calls
from the call number `first` on finds the descriptor ready if it is a
`poll` and succeeds if it is a `send`. -/
def writable_during (os : Os) (first count : Nat) : Prop :=
  ∀ n, first ≤ n → n < first + count → (os n).poll = .one_ready ∧ (os n).ok = true

/-- The method hands no byte to `send`. -/
def sends_nothing {α : Type} (m : Method α) : Prop :=
  ∀ w : World, sent_bytes (m.run w).2.trace = sent_bytes w.trace

/-- An oracle for two sessions: every call succeeds and every `poll`
finds its descriptor ready, but the first `recv` (call 16) finds that the
peer has closed. -/
def first_peer_leaves : Os := fun n =>
  if n = 16 then { obliging n with recv := .peer_closed } else obliging n

/-- The sample engine, welcome message "HI", constructed under the oracle
`first_peer_leaves`. -/
def hi_new : Except Failure Unit × World :=
  uart_dpi_new first_peer_leaves zeroed 5678 1 16 16 (some [0x48, 0x49]) 0 none

/-- The engine `hi_new` after `send_char( 0x41 )`: no peer has connected
yet. -/
def hi_queued : World :=
  { hi_new.2 with dpi := (send_char hi_new.2.dpi 0x41).2 }

/-- The first tick from `hi_queued`, in its two parts: a peer is accepted,
then the transfer runs, at the end of which the peer is found closed. -/
def hi_accept : Except Failure Unit × World :=
  (accept_eventual_incoming_connection first_peer_leaves).run hi_queued

def hi_dropped : Except Failure Unit × World :=
  (transfer_or_drop first_peer_leaves).run hi_accept.2

/-- The outcome of `uart_dpi( 65536, 1, 16, 16, "HI", 1, NULL )` under the
obliging oracle: a port that is not zero as an `int` and is zero as a
`uint16_t`. -/
def wide_port_new : Except Failure Unit × World :=
  uart_dpi_new obliging zeroed 65536 1 16 16 (some [0x48, 0x49]) 1 none

/-- An oracle under which every call succeeds but `accept4` (call 7), which
fails with errno 24. -/
def accept4_fails : Os := fun n =>
  if n = 7 then { obliging n with fd := none, errno := 24 } else obliging n

/-- The sample engine constructed under the oracle `accept4_fails`. -/
def unlucky_new : Except Failure Unit × World :=
  uart_dpi_new accept4_fails zeroed 5678 1 16 16 (some [0x48, 0x49]) 0 none

/-- The byte that the call number `n` of a run put into the engine's hands:
the byte stored by a `recv` that returned 1. -/
def received_byte (os : Os) (n : Nat) (c : Syscall) : Option Nat :=
  match c with
  | .recv _ => if (os n).recv = .one_byte then some (os n).recv_data else none
  | _ => none

/-- The bytes received by the calls of `trace`, the first of which is the
call number `first` of the run. -/
def received_from (os : Os) : Nat → List Syscall → List Nat
  | _, [] => []
  | first, c :: rest => (received_byte os first c).toList ++ received_from os (first + 1) rest

/-- The bytes received in a run, oldest first: each of them was enqueued
into the receive buffer by `receive_data` right after its `recv`. -/
def received_bytes (os : Os) (trace : List Syscall) : List Nat :=
  received_from os 0 trace

/-- The method receives no byte. -/
def receives_nothing {α : Type} (os : Os) (m : Method α) : Prop :=
  ∀ w : World, received_bytes os (m.run w).2.trace = received_bytes os w.trace

/-- The worlds an engine can be in at an operation boundary, with the
number of bytes that its calls of `receive` have handed out so far (a call
of `receive` on an empty buffer raises and hands out nothing). -/
inductive ReachableAfter (os : Os) : World → Nat → Prop where
  | constructed (garbage : uart_dpi) (tcp_port : Int) (listen_on_local_addr_only : Nat)
      (transmit_buffer_size : Int) (receive_buffer_size : Int)
      (welcome_message : Option (List Nat)) (print_informational_messages : Nat)
      ( informational_message_prefix : Option String) (w : World)
      (hnew : uart_dpi_new os garbage tcp_port listen_on_local_addr_only transmit_buffer_size
        receive_buffer_size welcome_message print_informational_messages
        informational_message_prefix = (.ok (), w))
      (htx : transmit_buffer_size < 2 ^ 31) (hrx : receive_buffer_size < 2 ^ 31) :
      ReachableAfter os w 0
  | tick (w : World) (n : Nat) (h : ReachableAfter os w n) :
      ReachableAfter os ((tick os).run w).2 n
  | send_char (w : World) (c : Nat) (n : Nat) (h : ReachableAfter os w n) :
      ReachableAfter os { w with dpi := (send_char w.dpi c).2 } n
  | receive (w : World) (n : Nat) (h : ReachableAfter os w n) :
      ReachableAfter os { w with dpi := (receive w.dpi).2 }
        (if is_receive_buffer_empty w.dpi then n else n + 1)

/-- The call returned. -/
def returned {α : Type} : Except Failure α → Bool
  | .ok _ => true
  | .error _ => false

/-- A run of the sample engine that takes the receive pointers round the
end of the buffer.  First tick, in its two parts: a peer is accepted, then
the welcome message is sent and 16 bytes are received, which fills the
receive buffer. -/
def wrap_accept : Except Failure Unit × World :=
  (accept_eventual_incoming_connection obliging).run sample_new.2

def wrap_filled : Except Failure Unit × World :=
  (transfer_or_drop obliging).run wrap_accept.2

/-- Then one byte is taken with `receive`. -/
def wrap_taken : World :=
  { wrap_filled.2 with dpi := (receive wrap_filled.2.dpi).2 }

/-- Second tick, in its two parts: nothing to accept, then one more byte
is received, into the last slot, and the write pointer goes back to 0. -/
def wrap_idle : Except Failure Unit × World :=
  (accept_eventual_incoming_connection obliging).run wrap_taken

def wrap_round : Except Failure Unit × World :=
  (transfer_or_drop obliging).run wrap_idle.2

/-- No peer ever asks for a connection: every `poll` finds nothing ready. -/
def no_peer_pending (os : Os) : Prop :=
  ∀ n, (os n).poll = .none_ready

/-- An oracle under which every call succeeds and no peer ever connects. -/
def lonely : Os := fun n => { obliging n with poll := .none_ready }

/-- The sample engine constructed under the oracle `lonely`. -/
def lonely_new : Except Failure Unit × World :=
  uart_dpi_new lonely zeroed 5678 1 16 16 (some [0x48, 0x49]) 0 none

/-- The reply to the call number `n` ends the session: a `poll` that
fails, a `send` that fails, a `recv` that returns 0 (the peer has closed)
or fails with an error other than `EAGAIN` / `EWOULDBLOCK`. -/
def ends_session (os : Os) (n : Nat) (c : Syscall) : Bool :=
  match c with
  | .poll _ _ => decide ((os n).poll = .failed)
  | .send _ _ => !(os n).ok
  | .recv _ =>
    decide ((os n).recv = .peer_closed) ||
      (decide ((os n).recv = .failed) &&
        !(decide ((os n).errno = EAGAIN) || decide ((os n).errno = EWOULDBLOCK)))
  | _ => false

/-- One of the calls of the list, the first of which is the call number
`first` of the run, got a reply that ends the session. -/
def session_ends_in (os : Os) : Nat → List Syscall → Bool
  | _, [] => false
  | first, c :: rest => ends_session os first c || session_ends_in os (first + 1) rest

/-- From the world `w` to the world `w1` calls were made, and one of them
got a reply that ends the session exactly when `dropped` holds. -/
def session_drop (os : Os) (w : World) (dropped : Prop) (w1 : World) : Prop :=
  ∃ calls, w1.trace = w.trace ++ calls ∧
    (session_ends_in os w.trace.length calls = true ↔ dropped)

/-- The calls succeed and a peer is pending: each of the `count` calls from
the call number `first` on succeeds, yields a descriptor if it is `socket`
or `accept4`, finds its descriptor ready if it is `poll`, leaves an address
that fits if it is `accept4`, and yields a text if it is `inet_ntop`. -/
def succeeds_during (os : Os) (first count : Nat) : Prop :=
  ∀ n, first ≤ n → n < first + count →
    (os n).ok = true ∧ (os n).fd ≠ none ∧ (os n).poll = .one_ready ∧
    (os n).addr_len ≤ SIZEOF_SOCKADDR_IN ∧ (os n).addr_text ≠ none

/-- The line is the banner "Listening on IP address ...". -/
def is_banner : LogEvent → Bool
  | .listening _ _ _ _ => true
  | _ => false

/-- How many times the banner was printed. -/
def banner_count (log : List LogEvent) : Nat :=
  (log.filter is_banner).length

/-- The method, called once the banner flag is set, leaves the flag set,
leaves the diagnostics setting as it is, and does not print the banner. -/
def keeps_banner {α : Type} (m : Method α) : Prop :=
  ∀ w : World, w.dpi.m_listening_message_already_printed = true →
    (m.run w).2.dpi.m_listening_message_already_printed = true ∧
    (m.run w).2.dpi.m_print_informational_messages = w.dpi.m_print_informational_messages ∧
    banner_count (m.run w).2.log = banner_count w.log

/-- The assignment leaves the banner flag set and the diagnostics setting
as it is. -/
def keeps_settings (f : uart_dpi → uart_dpi) : Prop :=
  ∀ d : uart_dpi, d.m_listening_message_already_printed = true →
    (f d).m_listening_message_already_printed = true ∧
    (f d).m_print_informational_messages = d.m_print_informational_messages

/-- An oracle under which every call succeeds, a peer is always pending,
and every peer closes the connection before sending a byte. -/
def all_peers_leave : Os := fun n => { obliging n with recv := .peer_closed }

/-- The outcome of `uart_dpi( 5678, 1, 16, 16, "HI", 1, "uart: " )`, an
engine with diagnostics enabled, under the oracle `all_peers_leave`. -/
def chatty_new : Except Failure Unit × World :=
  uart_dpi_new all_peers_leave zeroed 5678 1 16 16 (some [0x48, 0x49]) 1 (some "uart: ")

/-- Its first tick, in its two parts: a peer is accepted, then the welcome
message is sent and the peer is found closed. -/
def chatty_accept : Except Failure Unit × World :=
  (accept_eventual_incoming_connection all_peers_leave).run chatty_new.2

def chatty_first : Except Failure Unit × World :=
  (transfer_or_drop all_peers_leave).run chatty_accept.2

/-- Its second tick, in its two parts: the listening socket is created
again and a second peer is accepted, then that peer is found closed
too. -/
def chatty_again : Except Failure Unit × World :=
  (accept_eventual_incoming_connection all_peers_leave).run chatty_first.2

def chatty_second : Except Failure Unit × World :=
  (transfer_or_drop all_peers_leave).run chatty_again.2

/-- An oracle for a session that ends with bytes still to send: every call
succeeds and every `poll` finds its descriptor ready, but the calls 9 to 11,
three `poll`s of the connection that find it not ready, and call 13, a
`recv` that finds the peer closed. -/
def stalled : Os := fun n =>
  if n = 9 ∨ n = 10 ∨ n = 11 then { obliging n with poll := .none_ready }
  else if n = 13 then { obliging n with recv := .peer_closed }
  else obliging n

/-- The sample engine constructed under the oracle `stalled`. -/
def stalled_new : Except Failure Unit × World :=
  uart_dpi_new stalled zeroed 5678 1 16 16 (some [0x48, 0x49]) 0 none

/-- Then `send_char( 0x41 )`. -/
def stalled_queued : World :=
  { stalled_new.2 with dpi := (send_char stalled_new.2.dpi 0x41).2 }

/-- Its first tick, in its two parts: a peer is accepted, then the
connection is neither writable nor readable. -/
def stalled_accept : Except Failure Unit × World :=
  (accept_eventual_incoming_connection stalled).run stalled_queued

def stalled_idle : Except Failure Unit × World :=
  (transfer_or_drop stalled).run stalled_accept.2

/-- Its second tick, in its two parts: nothing to accept, then the
connection is not writable and the peer is found closed. -/
def stalled_pass : Except Failure Unit × World :=
  (accept_eventual_incoming_connection stalled).run stalled_idle.2

def stalled_lost : Except Failure Unit × World :=
  (transfer_or_drop stalled).run stalled_pass.2

/-! ## Lemmas on the ring buffers -/

theorem advance_eq (size p : Nat) (hp : p < size) (hs : size < UNSIGNED_RANGE) :
    ((p + 1) % UNSIGNED_RANGE) % size = if p + 1 = size then 0 else p + 1 := by
  have h1 : (p + 1) % UNSIGNED_RANGE = p + 1 := Nat.mod_eq_of_lt (by omega)
  rw [h1]
  split
  · next h => rw [h, Nat.mod_self]
  · next h => exact Nat.mod_eq_of_lt (by omega)

theorem ring_bytes_length (buf : List Nat) (size : Nat) (n rp : Nat) :
    (ring_bytes buf size rp n).length = n := by
  induction n generalizing rp with
  | zero => simp [ring_bytes]
  | succ n ih => simp [ring_bytes, ih]

/-- Writing at the write pointer of a ring that is not full appends the
byte to what the ring holds. -/
theorem ring_bytes_snoc (buf : List Nat) (size wp c : Nat) (hs : size < UNSIGNED_RANGE)
    (hlen : buf.length = size) (hwp : wp < size) (n rp : Nat) (hrp : rp < size)
    (hn : ring_count size rp wp = n) (hfull : n + 1 < size) :
    ring_bytes (buf.set wp c) size rp (n + 1) = ring_bytes buf size rp n ++ [c] := by
  induction n generalizing rp with
  | zero =>
    have : rp = wp := by unfold ring_count at hn; split at hn <;> omega
    subst this
    simp [ring_bytes, List.getD_eq_getElem?_getD, hlen, hrp]
  | succ n ih =>
    have hne : wp ≠ rp := by unfold ring_count at hn; split at hn <;> omega
    have hadv := advance_eq size rp hrp hs
    have hrp2 : ((rp + 1) % UNSIGNED_RANGE) % size < size := by
      rw [hadv]; split <;> omega
    have hn2 : ring_count size (((rp + 1) % UNSIGNED_RANGE) % size) wp = n := by
      rw [hadv]; unfold ring_count at hn ⊢
      split at hn <;> split <;> split <;> omega
    have := ih _ hrp2 hn2 (by omega)
    rw [ring_bytes, this]
    conv_rhs => rw [ring_bytes]
    simp [List.getD_eq_getElem?_getD, List.getElem?_set_ne hne]

theorem RingOk.unsigned {buf : List Nat} {size rp wp : Nat} (h : RingOk buf size rp wp) :
    size < UNSIGNED_RANGE := by
  have := h.2.1
  unfold UNSIGNED_RANGE; omega

theorem ring_count_lt (buf : List Nat) (size rp wp : Nat) (h : RingOk buf size rp wp) :
    ring_count size rp wp < size := by
  obtain ⟨h1, _, _, h4, h5⟩ := h
  unfold ring_count; split <;> omega

theorem ring_full_iff (buf : List Nat) (size rp wp : Nat) (h : RingOk buf size rp wp) :
    ((wp + 1) % UNSIGNED_RANGE) % size = rp ↔ ring_count size rp wp = size - 1 := by
  have h2 := h.unsigned
  obtain ⟨h1, _, _, h4, h5⟩ := h
  rw [advance_eq size wp h5 h2]
  unfold ring_count
  split <;> split <;> omega

theorem ring_empty_iff (buf : List Nat) (size rp wp : Nat) (h : RingOk buf size rp wp) :
    rp = wp ↔ ring_count size rp wp = 0 := by
  obtain ⟨h1, h2, _, h4, h5⟩ := h
  unfold ring_count
  split <;> omega

theorem ring_count_enqueue (buf : List Nat) (size rp wp : Nat) (h : RingOk buf size rp wp)
    (hnf : ((wp + 1) % UNSIGNED_RANGE) % size ≠ rp) :
    ring_count size rp (((wp + 1) % UNSIGNED_RANGE) % size) = ring_count size rp wp + 1 := by
  have h2 := h.unsigned
  obtain ⟨h1, _, _, h4, h5⟩ := h
  rw [advance_eq size wp h5 h2] at hnf ⊢
  unfold ring_count
  split_ifs at hnf ⊢ <;> omega

theorem ring_count_dequeue (buf : List Nat) (size rp wp : Nat) (h : RingOk buf size rp wp)
    (hne : rp ≠ wp) :
    ring_count size (((rp + 1) % UNSIGNED_RANGE) % size) wp + 1 = ring_count size rp wp := by
  have h2 := h.unsigned
  obtain ⟨h1, _, _, h4, h5⟩ := h
  rw [advance_eq size rp h4 h2]
  unfold ring_count
  split_ifs <;> omega

theorem advance_lt (size p : Nat) (hp : p < size) (hs : size < UNSIGNED_RANGE) :
    ((p + 1) % UNSIGNED_RANGE) % size < size := by
  rw [advance_eq size p hp hs]; split <;> omega

/-- Enqueueing into a ring that is not full: the ring stays in order and
holds one more byte, at the end. -/
theorem ring_enqueue (buf : List Nat) (size rp wp c : Nat) (h : RingOk buf size rp wp)
    (hnf : ((wp + 1) % UNSIGNED_RANGE) % size ≠ rp) :
    RingOk (buf.set wp c) size rp (((wp + 1) % UNSIGNED_RANGE) % size) ∧
    ring_bytes (buf.set wp c) size rp
        (ring_count size rp (((wp + 1) % UNSIGNED_RANGE) % size)) =
      ring_bytes buf size rp (ring_count size rp wp) ++ [c] := by
  have hc := ring_count_enqueue buf size rp wp h hnf
  have hlt := ring_count_lt buf size rp wp h
  have hfull := ring_full_iff buf size rp wp h
  have hu := h.unsigned
  obtain ⟨h1, h2, h3, h4, h5⟩ := h
  refine ⟨⟨h1, h2, by simp [h3], h4, advance_lt size wp h5 hu⟩, ?_⟩
  rw [hc]
  have hn : ring_count size rp wp + 1 < size := by
    have : ring_count size rp wp ≠ size - 1 := fun e => hnf (hfull.2 e)
    omega
  exact ring_bytes_snoc buf size wp c hu h3 h5 _ rp h4 rfl hn

/-- Dequeueing from a ring that is not empty: the ring stays in order, the
byte read is the oldest, the others stay behind it. -/
theorem ring_dequeue (buf : List Nat) (size rp wp : Nat) (h : RingOk buf size rp wp)
    (hne : rp ≠ wp) :
    RingOk buf size (((rp + 1) % UNSIGNED_RANGE) % size) wp ∧
    ring_bytes buf size rp (ring_count size rp wp) =
      buf.getD rp 0 ::
        ring_bytes buf size (((rp + 1) % UNSIGNED_RANGE) % size)
          (ring_count size (((rp + 1) % UNSIGNED_RANGE) % size) wp) := by
  have hc := ring_count_dequeue buf size rp wp h hne
  have hu := h.unsigned
  obtain ⟨h1, h2, h3, h4, h5⟩ := h
  refine ⟨⟨h1, h2, h3, advance_lt size rp h4 hu, h5⟩, ?_⟩
  rw [← hc, ring_bytes]

/-! ## Lemmas on the buffer operations -/

theorem rx_full_iff (s : uart_dpi) (h : BuffersOk s) :
    is_receive_buffer_full s = true ↔
      (receive_pending s).length = s.m_receive_buffer_size - 1 := by
  simp only [is_receive_buffer_full, receive_pending, ring_bytes_length, beq_iff_eq]
  exact ring_full_iff _ _ _ _ h.1

theorem rx_empty_iff (s : uart_dpi) (h : BuffersOk s) :
    is_receive_buffer_empty s = true ↔ (receive_pending s).length = 0 := by
  simp only [is_receive_buffer_empty, receive_pending, ring_bytes_length, beq_iff_eq]
  exact ring_empty_iff _ _ _ _ h.1

theorem tx_full_iff (s : uart_dpi) (h : BuffersOk s) :
    is_transmit_buffer_full s = true ↔
      (transmit_pending s).length = s.m_transmit_buffer_size - 1 := by
  simp only [is_transmit_buffer_full, transmit_pending, ring_bytes_length, beq_iff_eq]
  exact ring_full_iff _ _ _ _ h.2

theorem tx_empty_iff (s : uart_dpi) (h : BuffersOk s) :
    is_transmit_buffer_empty s = true ↔ (transmit_pending s).length = 0 := by
  simp only [is_transmit_buffer_empty, transmit_pending, ring_bytes_length, beq_iff_eq]
  exact ring_empty_iff _ _ _ _ h.2

theorem rx_pending_lt (s : uart_dpi) (h : BuffersOk s) :
    (receive_pending s).length < s.m_receive_buffer_size := by
  simp only [receive_pending, ring_bytes_length]
  exact ring_count_lt _ _ _ _ h.1

theorem tx_pending_lt (s : uart_dpi) (h : BuffersOk s) :
    (transmit_pending s).length < s.m_transmit_buffer_size := by
  simp only [transmit_pending, ring_bytes_length]
  exact ring_count_lt _ _ _ _ h.2

/-- The state `enqueue_receive_byte` leaves when the buffer is not full. -/
theorem enqueue_receive_byte_ok (s : uart_dpi) (c : Nat) (h : BuffersOk s)
    (hnf : is_receive_buffer_full s = false) :
    (enqueue_receive_byte s c).1 = .ok () ∧
    BuffersOk (enqueue_receive_byte s c).2 ∧
    receive_pending (enqueue_receive_byte s c).2 = receive_pending s ++ [c] ∧
    transmit_pending (enqueue_receive_byte s c).2 = transmit_pending s := by
  have hnf2 : ((s.m_receive_write_pointer + 1) % UNSIGNED_RANGE) % s.m_receive_buffer_size
      ≠ s.m_receive_read_pointer := by
    simpa [is_receive_buffer_full] using hnf
  have := ring_enqueue _ _ _ _ c h.1 hnf2
  simp only [enqueue_receive_byte, hnf, Bool.false_eq_true, if_false]
  exact ⟨trivial, ⟨this.1, h.2⟩, this.2, rfl⟩

/-- The state `deque_receive_byte` leaves when the buffer is not empty. -/
theorem deque_receive_byte_ok (s : uart_dpi) (h : BuffersOk s)
    (hne : is_receive_buffer_empty s = false) :
    BuffersOk (deque_receive_byte s).2 ∧
    (∃ b, (deque_receive_byte s).1 = .ok b ∧
      receive_pending s = b :: receive_pending (deque_receive_byte s).2) ∧
    transmit_pending (deque_receive_byte s).2 = transmit_pending s := by
  have hne2 : s.m_receive_read_pointer ≠ s.m_receive_write_pointer := by
    simpa [is_receive_buffer_empty] using hne
  have := ring_dequeue _ _ _ _ h.1 hne2
  simp only [deque_receive_byte, hne, Bool.false_eq_true, if_false]
  exact ⟨⟨this.1, h.2⟩, ⟨_, rfl, this.2⟩, rfl⟩

/-- The state `deque_transmit_byte` leaves when the buffer is not empty. -/
theorem deque_transmit_byte_ok (s : uart_dpi) (h : BuffersOk s)
    (hne : is_transmit_buffer_empty s = false) :
    BuffersOk (deque_transmit_byte s).2 ∧
    (∃ b, (deque_transmit_byte s).1 = .ok b ∧
      transmit_pending s = b :: transmit_pending (deque_transmit_byte s).2) ∧
    receive_pending (deque_transmit_byte s).2 = receive_pending s := by
  have hne2 : s.m_transmit_read_pointer ≠ s.m_transmit_write_pointer := by
    simpa [is_transmit_buffer_empty] using hne
  have := ring_dequeue _ _ _ _ h.2 hne2
  simp only [deque_transmit_byte, hne, Bool.false_eq_true, if_false]
  exact ⟨⟨h.1, this.1⟩, ⟨_, rfl, this.2⟩, rfl⟩

/-- The state `store_transmit_byte` leaves when the buffer is not full. -/
theorem store_transmit_byte_ok (s : uart_dpi) (c : Nat) (h : BuffersOk s)
    (hnf : is_transmit_buffer_full s = false) :
    BuffersOk (store_transmit_byte s c) ∧
    transmit_pending (store_transmit_byte s c) = transmit_pending s ++ [c] ∧
    receive_pending (store_transmit_byte s c) = receive_pending s := by
  have hnf2 : ((s.m_transmit_write_pointer + 1) % UNSIGNED_RANGE) % s.m_transmit_buffer_size
      ≠ s.m_transmit_read_pointer := by
    simpa [is_transmit_buffer_full] using hnf
  have := ring_enqueue _ _ _ _ c h.2 hnf2
  exact ⟨⟨h.1, this.1⟩, this.2, rfl⟩

theorem enqueue_receive_byte_capacities (s : uart_dpi) (c : Nat) :
    capacities (enqueue_receive_byte s c).2 = capacities s := by
  unfold enqueue_receive_byte; split <;> rfl

theorem deque_receive_byte_capacities (s : uart_dpi) :
    capacities (deque_receive_byte s).2 = capacities s := by
  unfold deque_receive_byte; split <;> rfl

theorem deque_transmit_byte_capacities (s : uart_dpi) :
    capacities (deque_transmit_byte s).2 = capacities s := by
  unfold deque_transmit_byte; split <;> rfl

theorem receive_capacities (s : uart_dpi) : capacities (receive s).2 = capacities s := by
  unfold receive; split
  · rfl
  · exact deque_receive_byte_capacities s

theorem send_char_capacities (s : uart_dpi) (c : Nat) :
    capacities (send_char s c).2 = capacities s := by
  have h := deque_transmit_byte_capacities s
  unfold send_char
  split
  · split
    · next heq => rw [heq] at h; exact h
    · next heq =>
      rw [heq] at h
      split
      · exact h
      · exact h
  · rfl

/-- What `send_char` does to buffers that are in order: it returns, and
the transmit buffer holds what it held, without its oldest byte if it was
full, followed by the new byte. -/
theorem send_char_spec (s : uart_dpi) (c : Nat) (h : BuffersOk s) :
    (send_char s c).1 = .ok () ∧
    BuffersOk (send_char s c).2 ∧
    transmit_pending (send_char s c).2 =
      (if is_transmit_buffer_full s then (transmit_pending s).tail else transmit_pending s)
        ++ [c] ∧
    receive_pending (send_char s c).2 = receive_pending s := by
  by_cases hfull : is_transmit_buffer_full s = true
  · have hlen := (tx_full_iff s h).1 hfull
    have hsz : 1 < s.m_transmit_buffer_size := h.2.1
    have hne : is_transmit_buffer_empty s = false := by
      cases he : is_transmit_buffer_empty s
      · rfl
      · have := (tx_empty_iff s h).1 he; omega
    obtain ⟨hok, ⟨b, hb, hpend⟩, hrx⟩ := deque_transmit_byte_ok s h hne
    have hcap := deque_transmit_byte_capacities s
    have hnf : is_transmit_buffer_full (deque_transmit_byte s).2 = false := by
      cases hf : is_transmit_buffer_full (deque_transmit_byte s).2
      · rfl
      · have h1 := (tx_full_iff _ hok).1 hf
        have h2 : (deque_transmit_byte s).2.m_transmit_buffer_size = s.m_transmit_buffer_size :=
          congrArg Prod.snd hcap
        rw [hpend] at hlen
        simp only [List.length_cons] at hlen
        omega
    obtain ⟨h1, h2, h3⟩ := store_transmit_byte_ok (deque_transmit_byte s).2 c hok hnf
    have hd : deque_transmit_byte s = (.ok b, (deque_transmit_byte s).2) := by
      rw [← hb]
    unfold send_char
    rw [if_pos hfull, hd]
    simp only [hnf, Bool.false_eq_true, if_false]
    refine ⟨trivial, h1, ?_, ?_⟩
    · rw [h2, if_pos hfull]; rw [hpend]; rfl
    · rw [h3, hrx]
  · have hnf : is_transmit_buffer_full s = false := by simpa using hfull
    obtain ⟨h1, h2, h3⟩ := store_transmit_byte_ok s c h hnf
    unfold send_char
    simp only [hnf, Bool.false_eq_true, if_false]
    exact ⟨trivial, h1, h2, h3⟩

/-- What `receive` does to buffers that are in order and a receive buffer
that is not empty. -/
theorem receive_ok (s : uart_dpi) (h : BuffersOk s)
    (hne : is_receive_buffer_empty s = false) :
    BuffersOk (receive s).2 ∧
    (∃ b, (receive s).1 = .ok b ∧ receive_pending s = b :: receive_pending (receive s).2) ∧
    transmit_pending (receive s).2 = transmit_pending s := by
  have := deque_receive_byte_ok s h hne
  unfold receive
  simpa only [hne, Bool.false_eq_true, if_false] using this

theorem not_full_of_room_rx (s : uart_dpi) (h : BuffersOk s)
    (hroom : (receive_pending s).length + 1 ≤ s.m_receive_buffer_size - 1) :
    is_receive_buffer_full s = false := by
  cases hf : is_receive_buffer_full s
  · rfl
  · have := (rx_full_iff s h).1 hf; omega

theorem not_full_of_room_tx (s : uart_dpi) (h : BuffersOk s)
    (hroom : (transmit_pending s).length + 1 ≤ s.m_transmit_buffer_size - 1) :
    is_transmit_buffer_full s = false := by
  cases hf : is_transmit_buffer_full s
  · rfl
  · have := (tx_full_iff s h).1 hf; omega

theorem not_empty_of_pending_rx (s : uart_dpi) (h : BuffersOk s)
    (hpos : 0 < (receive_pending s).length) : is_receive_buffer_empty s = false := by
  cases he : is_receive_buffer_empty s
  · rfl
  · have := (rx_empty_iff s h).1 he; omega

theorem not_empty_of_pending_tx (s : uart_dpi) (h : BuffersOk s)
    (hpos : 0 < (transmit_pending s).length) : is_transmit_buffer_empty s = false := by
  cases he : is_transmit_buffer_empty s
  · rfl
  · have := (tx_empty_iff s h).1 he; omega

/-- A run that keeps within the buffers returns, and what it dequeued
followed by what is still pending is what was pending followed by what it
enqueued, for each buffer. -/
theorem run_ops_spec (rc tc : Nat) (ops : List BufferOp) :
    ∀ (s : uart_dpi) (rx tx : List Nat), BuffersOk s → capacities s = (rc, tc) →
      within_capacity rc tc (receive_pending s).length (transmit_pending s).length ops = true →
      ∃ rx_out tx_out,
        (run_ops ops s rx tx).1 = .ok (rx ++ rx_out, tx ++ tx_out) ∧
        BuffersOk (run_ops ops s rx tx).2 ∧
        capacities (run_ops ops s rx tx).2 = (rc, tc) ∧
        rx_out ++ receive_pending (run_ops ops s rx tx).2 =
          receive_pending s ++ enqueued_receive ops ∧
        tx_out ++ transmit_pending (run_ops ops s rx tx).2 =
          transmit_pending s ++ enqueued_transmit ops ∧
        rx_out.length = dequeues_receive ops ∧ tx_out.length = dequeues_transmit ops := by
  induction ops with
  | nil =>
    intro s rx tx hs hcap _
    exact ⟨[], [], by simp [run_ops], hs, hcap, by simp [run_ops, enqueued_receive],
      by simp [run_ops, enqueued_transmit], rfl, rfl⟩
  | cons op ops ih =>
    intro s rx tx hs hcap hadm
    have hrc : s.m_receive_buffer_size = rc := congrArg Prod.fst hcap
    have htc : s.m_transmit_buffer_size = tc := congrArg Prod.snd hcap
    cases op with
    | enqueue_receive_byte c =>
      simp only [within_capacity, Bool.and_eq_true, decide_eq_true_eq] at hadm
      obtain ⟨hroom, hrest⟩ := hadm
      obtain ⟨h1, h2, h3, h4⟩ :=
        enqueue_receive_byte_ok s c hs (not_full_of_room_rx s hs (by omega))
      have h5 := enqueue_receive_byte_capacities s c
      simp only [run_ops]
      generalize enqueue_receive_byte s c = res at h1 h2 h3 h4 h5 ⊢
      obtain ⟨r, s1⟩ := res
      simp only at h1 h2 h3 h4 h5
      subst h1
      have hrest2 : within_capacity rc tc (receive_pending s1).length
          (transmit_pending s1).length ops = true := by
        rw [h3, h4]; simpa using hrest
      obtain ⟨ro, tq, g1, g2, g3, g4, g5, g6, g7⟩ := ih s1 rx tx h2 (h5.trans hcap) hrest2
      refine ⟨ro, tq, ?_, ?_, ?_, ?_, ?_, ?_, ?_⟩
      · exact g1
      · exact g2
      · exact g3
      · rw [g4, h3]; simp [enqueued_receive]
      · rw [g5, h4]; simp [enqueued_transmit]
      · simp [dequeues_receive, g6]
      · simp [dequeues_transmit, g7]
    | deque_receive_byte =>
      simp only [within_capacity, Bool.and_eq_true, decide_eq_true_eq] at hadm
      obtain ⟨hroom, hrest⟩ := hadm
      obtain ⟨h2, ⟨b, h1, h3⟩, h4⟩ :=
        deque_receive_byte_ok s hs (not_empty_of_pending_rx s hs hroom)
      have h5 := deque_receive_byte_capacities s
      simp only [run_ops]
      generalize deque_receive_byte s = res at h1 h2 h3 h4 h5 ⊢
      obtain ⟨r, s1⟩ := res
      simp only at h1 h2 h3 h4 h5
      subst h1
      have hrest2 : within_capacity rc tc (receive_pending s1).length
          (transmit_pending s1).length ops = true := by
        rw [h4]; rw [h3] at hrest; simpa using hrest
      obtain ⟨ro, tq, g1, g2, g3, g4, g5, g6, g7⟩ := ih s1 (rx ++ [b]) tx h2 (h5.trans hcap) hrest2
      refine ⟨b :: ro, tq, ?_, ?_, ?_, ?_, ?_, ?_, ?_⟩
      · rw [g1]; simp
      · exact g2
      · exact g3
      · rw [List.cons_append, g4, h3]; simp [enqueued_receive]
      · rw [g5, h4]; simp [enqueued_transmit]
      · simp [dequeues_receive, g6]
      · simp [dequeues_transmit, g7]
    | receive =>
      simp only [within_capacity, Bool.and_eq_true, decide_eq_true_eq] at hadm
      obtain ⟨hroom, hrest⟩ := hadm
      obtain ⟨h2, ⟨b, h1, h3⟩, h4⟩ :=
        receive_ok s hs (not_empty_of_pending_rx s hs hroom)
      have h5 := receive_capacities s
      simp only [run_ops]
      generalize receive s = res at h1 h2 h3 h4 h5 ⊢
      obtain ⟨r, s1⟩ := res
      simp only at h1 h2 h3 h4 h5
      subst h1
      have hrest2 : within_capacity rc tc (receive_pending s1).length
          (transmit_pending s1).length ops = true := by
        rw [h4]; rw [h3] at hrest; simpa using hrest
      obtain ⟨ro, tq, g1, g2, g3, g4, g5, g6, g7⟩ := ih s1 (rx ++ [b]) tx h2 (h5.trans hcap) hrest2
      refine ⟨b :: ro, tq, ?_, ?_, ?_, ?_, ?_, ?_, ?_⟩
      · rw [g1]; simp
      · exact g2
      · exact g3
      · rw [List.cons_append, g4, h3]; simp [enqueued_receive]
      · rw [g5, h4]; simp [enqueued_transmit]
      · simp [dequeues_receive, g6]
      · simp [dequeues_transmit, g7]
    | send_char c =>
      simp only [within_capacity, Bool.and_eq_true, decide_eq_true_eq] at hadm
      obtain ⟨hroom, hrest⟩ := hadm
      have hnf := not_full_of_room_tx s hs (by omega)
      obtain ⟨h1, h2, h3, h4⟩ := send_char_spec s c hs
      rw [hnf] at h3
      simp only [Bool.false_eq_true, if_false] at h3
      have h5 := send_char_capacities s c
      simp only [run_ops]
      generalize send_char s c = res at h1 h2 h3 h4 h5 ⊢
      obtain ⟨r, s1⟩ := res
      simp only at h1 h2 h3 h4 h5
      subst h1
      have hrest2 : within_capacity rc tc (receive_pending s1).length
          (transmit_pending s1).length ops = true := by
        rw [h3, h4]; simpa using hrest
      obtain ⟨ro, tq, g1, g2, g3, g4, g5, g6, g7⟩ := ih s1 rx tx h2 (h5.trans hcap) hrest2
      refine ⟨ro, tq, ?_, ?_, ?_, ?_, ?_, ?_, ?_⟩
      · exact g1
      · exact g2
      · exact g3
      · rw [g4, h4]; simp [enqueued_receive]
      · rw [g5, h3]; simp [enqueued_transmit]
      · simp [dequeues_receive, g6]
      · simp [dequeues_transmit, g7]
    | deque_transmit_byte =>
      simp only [within_capacity, Bool.and_eq_true, decide_eq_true_eq] at hadm
      obtain ⟨hroom, hrest⟩ := hadm
      obtain ⟨h2, ⟨b, h1, h3⟩, h4⟩ :=
        deque_transmit_byte_ok s hs (not_empty_of_pending_tx s hs hroom)
      have h5 := deque_transmit_byte_capacities s
      simp only [run_ops]
      generalize deque_transmit_byte s = res at h1 h2 h3 h4 h5 ⊢
      obtain ⟨r, s1⟩ := res
      simp only at h1 h2 h3 h4 h5
      subst h1
      have hrest2 : within_capacity rc tc (receive_pending s1).length
          (transmit_pending s1).length ops = true := by
        rw [h4]; rw [h3] at hrest; simpa using hrest
      obtain ⟨ro, tq, g1, g2, g3, g4, g5, g6, g7⟩ := ih s1 rx (tx ++ [b]) h2 (h5.trans hcap) hrest2
      refine ⟨ro, b :: tq, ?_, ?_, ?_, ?_, ?_, ?_, ?_⟩
      · rw [g1]; simp
      · exact g2
      · exact g3
      · rw [g4, h4]; simp [enqueued_receive]
      · rw [List.cons_append, g5, h3]; simp [enqueued_transmit]
      · simp [dequeues_receive, g6]
      · simp [dequeues_transmit, g7]

/-! ## Rules for the outcomes of methods -/

theorem wp_mono {α : Type} (m : Method α) (Q Q2 : Except Failure α → World → Prop) (w : World)
    (h : wp m Q w) (himp : ∀ r w1, Q r w1 → Q2 r w1) : wp m Q2 w :=
  himp _ _ h

@[simp] theorem on_ok_ok {α β : Type} (k : α → World → Prop)
    (Q : Except Failure β → World → Prop) (a : α) (w : World) :
    on_ok k Q (.ok a) w = k a w := rfl

@[simp] theorem on_ok_error {α β : Type} (k : α → World → Prop)
    (Q : Except Failure β → World → Prop) (e : Failure) (w : World) :
    on_ok (α := α) k Q (.error e) w = Q (.error e) w := rfl

@[simp] theorem on_caught_runtime_error {α : Type} (handler : What → World → Prop)
    (Q : Except Failure α → World → Prop) (what : What) (w : World) :
    on_caught handler Q (.error (.runtime_error what)) w = handler what w := rfl

@[simp] theorem on_caught_ok {α : Type} (handler : What → World → Prop)
    (Q : Except Failure α → World → Prop) (a : α) (w : World) :
    on_caught handler Q (.ok a) w = Q (.ok a) w := rfl

@[simp] theorem on_caught_assertion_failed {α : Type} (handler : What → World → Prop)
    (Q : Except Failure α → World → Prop) (x : String) (w : World) :
    on_caught handler Q (.error (.assertion_failed x)) w = Q (.error (.assertion_failed x)) w :=
  rfl

@[simp] theorem on_caught_out_of_fuel {α : Type} (handler : What → World → Prop)
    (Q : Except Failure α → World → Prop) (w : World) :
    on_caught handler Q (.error .out_of_fuel) w = Q (.error .out_of_fuel) w := rfl

@[simp] theorem wp_pure {α : Type} (a : α) (Q : Except Failure α → World → Prop) (w : World) :
    wp (pure a) Q w = Q (.ok a) w := rfl

@[simp] theorem wp_bind {α β : Type} (m : Method α) (f : α → Method β)
    (Q : Except Failure β → World → Prop) (w : World) :
    wp (m >>= f) Q w = wp m (on_ok (fun a w1 => wp (f a) Q w1) Q) w := by
  show Q ((m >>= f).run w).1 ((m >>= f).run w).2 =
    on_ok (fun a w1 => wp (f a) Q w1) Q (m.run w).1 (m.run w).2
  have hb : (m >>= f).run w =
      match m.run w with
      | (.ok a, w1) => (f a).run w1
      | (.error e, w1) => (.error e, w1) := rfl
  rw [hb]
  rcases m.run w with ⟨r, w1⟩
  cases r <;> rfl

@[simp] theorem wp_the_object (Q : Except Failure uart_dpi → World → Prop) (w : World) :
    wp the_object Q w = Q (.ok w.dpi) w := rfl

@[simp] theorem wp_assign (f : uart_dpi → uart_dpi) (Q : Except Failure Unit → World → Prop)
    (w : World) : wp (assign f) Q w = Q (.ok ()) { w with dpi := f w.dpi } := rfl

@[simp] theorem wp_on_object {α : Type} (f : uart_dpi → Except Failure α × uart_dpi)
    (Q : Except Failure α → World → Prop) (w : World) :
    wp (on_object f) Q w = Q (f w.dpi).1 { w with dpi := (f w.dpi).2 } := rfl

@[simp] theorem wp_syscall (os : Os) (c : Syscall) (Q : Except Failure OsReply → World → Prop)
    (w : World) :
    wp (syscall os c) Q w = Q (.ok (os w.trace.length)) { w with trace := w.trace ++ [c] } := rfl

@[simp] theorem wp_print_line (e : LogEvent) (Q : Except Failure Unit → World → Prop)
    (w : World) : wp (print_line e) Q w = Q (.ok ()) { w with log := w.log ++ [e] } := rfl

@[simp] theorem wp_throw_runtime_error {α : Type} (what : What)
    (Q : Except Failure α → World → Prop) (w : World) :
    wp (throw_runtime_error what) Q w = Q (.error (.runtime_error what)) w := rfl

@[simp] theorem wp_fuel_exhausted {α : Type} (Q : Except Failure α → World → Prop) (w : World) :
    wp fuel_exhausted Q w = Q (.error .out_of_fuel) w := rfl

@[simp] theorem wp_c_assert (cond : Bool) (expr : String) (Q : Except Failure Unit → World → Prop)
    (w : World) :
    wp (c_assert cond expr) Q w =
      if cond then Q (.ok ()) w else Q (.error (.assertion_failed expr)) w := by
  unfold wp c_assert Method.run
  cases cond <;> rfl

@[simp] theorem wp_ite {α : Type} (c : Prop) [Decidable c] (a b : Method α)
    (Q : Except Failure α → World → Prop) (w : World) :
    wp (if c then a else b) Q w = if c then wp a Q w else wp b Q w := by
  split <;> rfl

@[simp] theorem wp_try_catch {α : Type} (body : Method α) (handler : What → Method α)
    (Q : Except Failure α → World → Prop) (w : World) :
    wp (try_catch body handler) Q w =
      wp body (on_caught (fun what w1 => wp (handler what) Q w1) Q) w := by
  show Q ((try_catch body handler).run w).1 ((try_catch body handler).run w).2 =
    on_caught (fun what w1 => wp (handler what) Q w1) Q (body.run w).1 (body.run w).2
  have hb : (try_catch body handler).run w =
      match body.run w with
      | (.error (.runtime_error what), w1) => (handler what).run w1
      | (r, w1) => (r, w1) := rfl
  rw [hb]
  rcases body.run w with ⟨r, w1⟩
  rcases r with e | a
  · cases e <;> rfl
  · rfl

/-! ## Lemmas on the sockets -/

theorem wp_ip_address_to_text (os : Os) (Q : Except Failure String → World → Prop) (w : World) :
    wp (ip_address_to_text os) Q w =
      match (os w.trace.length).addr_text with
      | none => Q (.error (.runtime_error (get_error_message
          (some "Error formatting the IP address: ") (os w.trace.length).errno)))
          { w with trace := w.trace ++ [.inet_ntop] }
      | some str => Q (.ok str) { w with trace := w.trace ++ [.inet_ntop] } := by
  simp only [ip_address_to_text, wp_bind, wp_syscall, on_ok_ok]
  split <;> simp [*]

theorem wp_close_listening_socket (os : Os) (Q : Except Failure Unit → World → Prop)
    (w : World) (h : w.dpi.m_listening_socket ≠ -1) :
    wp (close_listening_socket os) Q w =
      Q (.ok ())
        { w with
          dpi := { w.dpi with m_listening_socket := -1 }
          trace := w.trace ++ [.close w.dpi.m_listening_socket] } := by
  simp [close_listening_socket, h]

theorem wp_of_close_listening_socket (os : Os) (Q : Except Failure Unit → World → Prop)
    (w : World) (h : w.dpi.m_listening_socket ≠ -1)
    (hq : Q (.ok ())
      { w with
        dpi := { w.dpi with m_listening_socket := -1 }
        trace := w.trace ++ [.close w.dpi.m_listening_socket] }) :
    wp (close_listening_socket os) Q w := by
  rw [wp_close_listening_socket os Q w h]; exact hq

theorem wp_close_current_connection (os : Os) (Q : Except Failure Unit → World → Prop)
    (w : World) (h : w.dpi.m_connectionSocket ≠ -1) :
    wp (close_current_connection os) Q w =
      Q (.ok ())
        { w with
          dpi := { w.dpi with m_connectionSocket := -1 }
          trace := w.trace ++ [.close w.dpi.m_connectionSocket] } := by
  simp [close_current_connection, h]

theorem print_listening_message_once_spec (os : Os) (w : World) :
    wp (print_listening_message_once os) (fun r w1 =>
      w1.dpi = { w.dpi with m_listening_message_already_printed := true } ∧
      returns_or_raises r ∧
      (w.dpi.m_listening_message_already_printed = true → r = .ok ())) w := by
  simp only [print_listening_message_once, wp_bind, wp_the_object, wp_assign, on_ok_ok,
    wp_ite, wp_pure, wp_ip_address_to_text, wp_print_line]
  repeat' split
  all_goals first
    | (simp_all [returns_or_raises]; done)
    | (obtain ⟨d, t, l⟩ := w; cases d; simp_all [returns_or_raises])

theorem create_listening_socket_try_spec (os : Os) (w : World) :
    wp (create_listening_socket_try os) (fun r w1 =>
      ∃ p, w1.dpi = { w.dpi with m_listening_message_already_printed := p } ∧
      returns_or_raises r ∧ (r = .ok () → p = true) ∧
      (w.dpi.m_listening_message_already_printed = true →
        p = true ∧ (r = .ok () ∨ raised_with listening_socket_errors r))) w := by
  simp only [create_listening_socket_try, wp_bind, wp_the_object, wp_syscall, on_ok_ok,
    wp_ite, wp_throw_runtime_error, wp_pure]
  split
  · exact ⟨_, rfl, trivial, by simp, fun h => ⟨h, Or.inr ⟨_, _, rfl,
      by simp [listening_socket_errors]⟩⟩⟩
  · split
    · exact ⟨_, rfl, trivial, by simp, fun h => ⟨h, Or.inr ⟨_, _, rfl,
        by simp [listening_socket_errors]⟩⟩⟩
    · apply wp_mono _ _ _ _ (print_listening_message_once_spec os _)
      rintro r w1 ⟨h1, h2, h3⟩
      cases r with
      | error e =>
        simp only [on_ok_error]
        exact ⟨_, h1, h2, by simp, fun h => absurd (h3 h) (by simp)⟩
      | ok a =>
        simp only [on_ok_ok, wp_bind, wp_syscall, wp_ite, wp_throw_runtime_error, wp_pure]
        split
        · exact ⟨_, h1, trivial, by simp, fun _ => ⟨rfl, Or.inr ⟨_, _, rfl,
            by simp [listening_socket_errors]⟩⟩⟩
        · exact ⟨_, h1, trivial, by simp, fun _ => ⟨rfl, Or.inl (by first | rfl | trivial)⟩⟩

/-- What `create_listening_socket` leaves: only the listening socket and
the banner flag may change; on success the socket is there and the flag
set, on failure there is no socket; and once the banner flag is set it
stays set and the exceptions are those of `socket`, `setsockopt`, `bind`
and `listen`. -/
theorem create_listening_socket_spec (os : Os) (w : World)
    (hl : w.dpi.m_listening_socket = -1) :
    wp (create_listening_socket os) (fun r w1 =>
      ∃ l p, w1.dpi =
        { w.dpi with m_listening_socket := l, m_listening_message_already_printed := p } ∧
        ((r = .ok () ∧ l ≠ -1 ∧ p = true) ∨
         (∃ what, r = .error (.runtime_error what) ∧ l = -1 ∧
            (w.dpi.m_listening_message_already_printed = true →
              p = true ∧ raised_with listening_socket_errors r)))) w := by
  simp only [create_listening_socket, wp_bind, wp_the_object, wp_syscall, wp_assign, on_ok_ok,
    wp_c_assert, wp_ite, wp_try_catch, wp_throw_runtime_error, hl, beq_self_eq_true, if_true]
  split
  · next h =>
    exact ⟨_, _, rfl, Or.inr ⟨_, rfl, h, fun hp => ⟨hp, _, _, rfl,
      by simp [listening_socket_errors]⟩⟩⟩
  · next h =>
    apply wp_mono _ _ _ _ (create_listening_socket_try_spec os _)
    rintro r w1 ⟨p, h1, h2, h3, h4⟩
    rcases r with e | a
    · cases e with
      | runtime_error what =>
        have hl1 : w1.dpi.m_listening_socket ≠ -1 := by rw [h1]; exact h
        simp only [on_caught_runtime_error, wp_bind, on_ok_ok, wp_throw_runtime_error]
        rw [wp_close_listening_socket os _ w1 hl1]
        simp only [on_ok_ok]
        refine ⟨-1, p, ?_, Or.inr ⟨_, rfl, rfl, fun hp => ?_⟩⟩
        · simp only [h1]
        · obtain ⟨g1, g2⟩ := h4 hp
          rcases g2 with g2 | g2
          · cases g2
          · exact ⟨g1, g2⟩
      | assertion_failed x => exact absurd h2 (by simp [returns_or_raises])
      | out_of_fuel => exact absurd h2 (by simp [returns_or_raises])
    · simp only [on_caught_ok]
      exact ⟨_, p, h1, Or.inl ⟨trivial, h, h3 rfl⟩⟩

/-! ## Lemmas on construction -/

theorem allocated_length (size : Nat) (memory : List Nat) :
    (allocated size memory).length = size := by
  simp [allocated]

/-- What the constructor leaves when it succeeds, and that it only
succeeds on valid arguments. -/
theorem uart_dpi_body_spec (os : Os) (tcp_port : Int) (listen_on_local_addr_only : Nat)
    (transmit_buffer_size : Int) (receive_buffer_size : Int)
    (welcome_message : Option (List Nat)) (print_informational_messages : Nat)
    ( informational_message_prefix : Option String) (w : World) :
    wp (uart_dpi_body os tcp_port listen_on_local_addr_only transmit_buffer_size
        receive_buffer_size welcome_message print_informational_messages
        informational_message_prefix)
      (fun r w1 =>
        returns_or_raises r ∧
        (r = .ok () →
          valid_arguments tcp_port listen_on_local_addr_only transmit_buffer_size
            receive_buffer_size print_informational_messages ∧
          constructed_as w1.dpi tcp_port listen_on_local_addr_only transmit_buffer_size
            receive_buffer_size welcome_message print_informational_messages
            informational_message_prefix)) w := by
  simp only [uart_dpi_body, wp_bind, wp_the_object, wp_syscall, wp_assign, on_ok_ok,
    wp_ite, wp_throw_runtime_error]
  split
  · simp [returns_or_raises]
  split
  · simp [returns_or_raises]
  split
  · simp [returns_or_raises]
  split
  · simp [returns_or_raises]
  split
  · simp [returns_or_raises]
  split
  · simp [returns_or_raises]
  split
  · simp [returns_or_raises]
  next h1 h2 h3 h4 h5 h6 h7 =>
  apply wp_mono _ _ _ _ (create_listening_socket_spec os _ rfl)
  rintro r w1 ⟨l, p, hd, hr⟩
  rcases hr with ⟨hr, hl, hp⟩ | ⟨what, hr, _⟩
  · subst hr
    refine ⟨trivial, fun _ => ⟨⟨h1, by omega, by omega,
      by simpa [MIN_BUFFER_SIZE] using h5, by simpa [MIN_BUFFER_SIZE] using h4⟩, ?_⟩⟩
    rw [hd]
    simp [constructed_as, allocated_length, hl, hp]
  · subst hr
    exact ⟨trivial, by simp⟩

theorem int_to_unsigned_succ (x : Int) (h0 : 16 ≤ x) (h1 : x < 2 ^ 31) :
    int_to_unsigned (x + 1) = (x + 1).toNat ∧ 1 < (x + 1).toNat ∧ (x + 1).toNat ≤ 2 ^ 31 := by
  unfold int_to_unsigned UNSIGNED_RANGE
  have : (x + 1) % ((2 ^ 32 : Nat) : Int) = x + 1 := by
    apply Int.emod_eq_of_lt <;> omega
  rw [this]
  omega

/-- A constructed object has its two ring buffers in order and empty. -/
theorem constructed_buffers (d : uart_dpi) (tcp_port : Int) (listen_on_local_addr_only : Nat)
    (transmit_buffer_size : Int) (receive_buffer_size : Int)
    (welcome_message : Option (List Nat)) (print_informational_messages : Nat)
    ( informational_message_prefix : Option String)
    (hv : valid_arguments tcp_port listen_on_local_addr_only transmit_buffer_size
      receive_buffer_size print_informational_messages)
    (hc : constructed_as d tcp_port listen_on_local_addr_only transmit_buffer_size
      receive_buffer_size welcome_message print_informational_messages
      informational_message_prefix)
    (htx : transmit_buffer_size < 2 ^ 31) (hrx : receive_buffer_size < 2 ^ 31) :
    BuffersOk d ∧ receive_pending d = [] ∧ transmit_pending d = [] ∧
    d.m_receive_buffer_size = (receive_buffer_size + 1).toNat ∧
    d.m_transmit_buffer_size = (transmit_buffer_size + 1).toNat := by
  obtain ⟨_, _, _, hv4, hv5⟩ := hv
  obtain ⟨_, _, c3, c4, c5, c6, c7, c8, c9, c10, _⟩ := hc
  obtain ⟨r1, r2, r3⟩ := int_to_unsigned_succ receive_buffer_size hv5 hrx
  obtain ⟨t1, t2, t3⟩ := int_to_unsigned_succ transmit_buffer_size hv4 htx
  refine ⟨⟨⟨?_, ?_, ?_, ?_, ?_⟩, ⟨?_, ?_, ?_, ?_, ?_⟩⟩, ?_, ?_, ?_, ?_⟩
  all_goals
    first
    | (simp only [receive_pending, transmit_pending, ring_count, c7, c8, c9, c10]; rfl)
    | omega

/-- From a successful construction to the state of the buffers. -/
theorem uart_dpi_new_buffers (os : Os) (garbage : uart_dpi) (tcp_port : Int)
    (listen_on_local_addr_only : Nat) (transmit_buffer_size : Int) (receive_buffer_size : Int)
    (welcome_message : Option (List Nat)) (print_informational_messages : Nat)
    ( informational_message_prefix : Option String) (w : World)
    (hnew : uart_dpi_new os garbage tcp_port listen_on_local_addr_only transmit_buffer_size
      receive_buffer_size welcome_message print_informational_messages
      informational_message_prefix = (.ok (), w))
    (htx : transmit_buffer_size < 2 ^ 31) (hrx : receive_buffer_size < 2 ^ 31) :
    BuffersOk w.dpi ∧ receive_pending w.dpi = [] ∧ transmit_pending w.dpi = [] ∧
    w.dpi.m_receive_buffer_size = (receive_buffer_size + 1).toNat ∧
    w.dpi.m_transmit_buffer_size = (transmit_buffer_size + 1).toNat := by
  have h := uart_dpi_body_spec os tcp_port listen_on_local_addr_only transmit_buffer_size
    receive_buffer_size welcome_message print_informational_messages
    informational_message_prefix { dpi := unassigned garbage, trace := [], log := [] }
  unfold wp at h
  unfold uart_dpi_new at hnew
  rw [hnew] at h
  obtain ⟨hv, hc⟩ := h.2 rfl
  exact constructed_buffers _ _ _ _ _ _ _ _ hv hc htx hrx

/-- On buffers in order, `get_received_byte_count` returns the number of
bytes waiting in the receive buffer. -/
theorem get_received_byte_count_eq (s : uart_dpi) (h : BuffersOk s) :
    get_received_byte_count s = .ok ((receive_pending s).length : Int) := by
  obtain ⟨h1, h2, _, h4, h5⟩ := h.1
  simp only [receive_pending, ring_bytes_length]
  unfold get_received_byte_count ring_count unsigned_to_int unsigned_sub UNSIGNED_RANGE
  by_cases hle : s.m_receive_read_pointer ≤ s.m_receive_write_pointer
  · simp only [hle, if_true]
    have e : (s.m_receive_write_pointer + 2 ^ 32 - s.m_receive_read_pointer % 2 ^ 32) % 2 ^ 32
        % 2 ^ 32 = s.m_receive_write_pointer - s.m_receive_read_pointer := by omega
    rw [e]
    rw [if_pos (by omega)]
  · simp only [hle, if_false]
    have e : (s.m_receive_buffer_size + 2 ^ 32 -
        (s.m_receive_read_pointer + 2 ^ 32 - s.m_receive_write_pointer % 2 ^ 32) % 2 ^ 32
          % 2 ^ 32) % 2 ^ 32 % 2 ^ 32 =
        s.m_receive_buffer_size - (s.m_receive_read_pointer - s.m_receive_write_pointer) := by
      omega
    rw [e]
    rw [if_pos (by omega)]
    rw [if_pos (by omega)]

theorem drop_after_eviction (b c k : Nat) (rest cs : List Nat) (hk : rest.length + 1 = k) :
    ((rest ++ [c]) ++ cs).drop (((rest ++ [c]) ++ cs).length - k) =
      ((b :: rest) ++ c :: cs).drop (((b :: rest) ++ c :: cs).length - k) := by
  have e1 : ((rest ++ [c]) ++ cs).length - k = cs.length := by
    simp only [List.length_append, List.length_cons, List.length_nil]; omega
  have e2 : ((b :: rest) ++ c :: cs).length - k = cs.length + 1 := by
    simp only [List.length_append, List.length_cons]; omega
  rw [e1, e2]
  simp

/-- `send_chars` returns, and the transmit buffer then holds the last
capacity - 1 bytes of what it held followed by the bytes sent. -/
theorem send_chars_spec (bs : List Nat) : ∀ (s : uart_dpi), BuffersOk s →
    (send_chars bs s).1 = .ok () ∧ BuffersOk (send_chars bs s).2 ∧
    capacities (send_chars bs s).2 = capacities s ∧
    transmit_pending (send_chars bs s).2 =
      (transmit_pending s ++ bs).drop
        ((transmit_pending s ++ bs).length - (s.m_transmit_buffer_size - 1)) ∧
    receive_pending (send_chars bs s).2 = receive_pending s := by
  induction bs with
  | nil =>
    intro s h
    have := tx_pending_lt s h
    refine ⟨rfl, h, rfl, ?_, rfl⟩
    simp only [send_chars, List.append_nil]
    rw [show (transmit_pending s).length - (s.m_transmit_buffer_size - 1) = 0 by omega]
    rfl
  | cons c cs ih =>
    intro s h
    obtain ⟨h1, h2, h3, h4⟩ := send_char_spec s c h
    have h5 := send_char_capacities s c
    have hlt := tx_pending_lt s h
    have hfull := tx_full_iff s h
    simp only [send_chars]
    generalize send_char s c = res at h1 h2 h3 h4 h5
    obtain ⟨r, s1⟩ := res
    simp only at h1 h2 h3 h4 h5
    subst h1
    obtain ⟨g1, g2, g3, g4, g5⟩ := ih s1 h2
    have hsz : s1.m_transmit_buffer_size = s.m_transmit_buffer_size := congrArg Prod.snd h5
    refine ⟨g1, g2, g3.trans h5, ?_, g5.trans h4⟩
    simp only
    rw [g4, h3, hsz]
    by_cases hf : is_transmit_buffer_full s = true
    · have hlen := hfull.1 hf
      rw [if_pos hf]
      have hsz1 : 1 < s.m_transmit_buffer_size := h.2.1
      cases hp : transmit_pending s with
      | nil => rw [hp] at hlen; simp only [List.length_nil] at hlen; omega
      | cons b rest =>
        rw [hp] at hlen
        simp only [List.length_cons] at hlen
        exact drop_after_eviction b c _ rest cs hlen
    · rw [if_neg hf]
      simp

/-- Dequeueing until the transmit buffer reports empty yields the bytes
that were waiting, in order. -/
theorem drain_transmit_eq (fuel : Nat) : ∀ (s : uart_dpi), BuffersOk s →
    (transmit_pending s).length ≤ fuel → drain_transmit fuel s = transmit_pending s := by
  induction fuel with
  | zero =>
    intro s _ hlen
    have : transmit_pending s = [] := List.length_eq_zero.1 (by omega)
    rw [this]; rfl
  | succ n ih =>
    intro s h hlen
    cases he : is_transmit_buffer_empty s
    · obtain ⟨h1, ⟨b, h2, h3⟩, _⟩ := deque_transmit_byte_ok s h he
      simp only [drain_transmit, he, Bool.false_eq_true, if_false]
      generalize deque_transmit_byte s = res at h1 h2 h3
      obtain ⟨r, s1⟩ := res
      simp only at h1 h2 h3
      subst h2
      simp only
      rw [h3] at hlen ⊢
      simp only [List.length_cons] at hlen
      rw [ih s1 h1 (by omega)]
    · have := (tx_empty_iff s h).1 he
      simp only [drain_transmit, he, if_true]
      exact (List.length_eq_zero.1 this).symm

theorem enqueued_receive_append (a b : List BufferOp) :
    enqueued_receive (a ++ b) = enqueued_receive a ++ enqueued_receive b := by
  induction a with
  | nil => rfl
  | cons op a ih => cases op <;> simp [enqueued_receive, ih]

theorem enqueued_transmit_append (a b : List BufferOp) :
    enqueued_transmit (a ++ b) = enqueued_transmit a ++ enqueued_transmit b := by
  induction a with
  | nil => rfl
  | cons op a ih => cases op <;> simp [enqueued_transmit, ih]

theorem dequeues_receive_append (a b : List BufferOp) :
    dequeues_receive (a ++ b) = dequeues_receive a + dequeues_receive b := by
  induction a with
  | nil => simp [dequeues_receive]
  | cons op a ih =>
    cases op <;> simp [dequeues_receive, ih]
    all_goals omega

theorem dequeues_transmit_append (a b : List BufferOp) :
    dequeues_transmit (a ++ b) = dequeues_transmit a + dequeues_transmit b := by
  induction a with
  | nil => simp [dequeues_transmit]
  | cons op a ih =>
    cases op <;> simp [dequeues_transmit, ih]
    all_goals omega

theorem ops_of_enqueue_receive (cs : List Nat) :
    enqueued_receive (cs.map .enqueue_receive_byte) = cs ∧
    enqueued_transmit (cs.map .enqueue_receive_byte) = [] ∧
    dequeues_receive (cs.map .enqueue_receive_byte) = 0 ∧
    dequeues_transmit (cs.map .enqueue_receive_byte) = 0 := by
  induction cs with
  | nil => exact ⟨rfl, rfl, rfl, rfl⟩
  | cons c cs ih =>
    simp [enqueued_receive, enqueued_transmit, dequeues_receive, dequeues_transmit, ih]

theorem ops_of_send_char (cs : List Nat) :
    enqueued_receive (cs.map .send_char) = [] ∧
    enqueued_transmit (cs.map .send_char) = cs ∧
    dequeues_receive (cs.map .send_char) = 0 ∧
    dequeues_transmit (cs.map .send_char) = 0 := by
  induction cs with
  | nil => exact ⟨rfl, rfl, rfl, rfl⟩
  | cons c cs ih =>
    simp [enqueued_receive, enqueued_transmit, dequeues_receive, dequeues_transmit, ih]

theorem ops_of_deque_receive (j : Nat) :
    enqueued_receive (List.replicate j .deque_receive_byte) = [] ∧
    enqueued_transmit (List.replicate j .deque_receive_byte) = [] ∧
    dequeues_receive (List.replicate j .deque_receive_byte) = j ∧
    dequeues_transmit (List.replicate j .deque_receive_byte) = 0 := by
  induction j with
  | zero => exact ⟨rfl, rfl, rfl, rfl⟩
  | succ j ih =>
    simp [List.replicate_succ, enqueued_receive, enqueued_transmit, dequeues_receive,
      dequeues_transmit, ih]

theorem ops_of_deque_transmit (j : Nat) :
    enqueued_receive (List.replicate j .deque_transmit_byte) = [] ∧
    enqueued_transmit (List.replicate j .deque_transmit_byte) = [] ∧
    dequeues_receive (List.replicate j .deque_transmit_byte) = 0 ∧
    dequeues_transmit (List.replicate j .deque_transmit_byte) = j := by
  induction j with
  | zero => exact ⟨rfl, rfl, rfl, rfl⟩
  | succ j ih =>
    simp [List.replicate_succ, enqueued_receive, enqueued_transmit, dequeues_receive,
      dequeues_transmit, ih]

theorem within_capacity_fill_drain_receive (rc tc : Nat) (cs : List Nat) :
    ∀ (j r t : Nat), r + cs.length ≤ rc - 1 → j ≤ r + cs.length →
      within_capacity rc tc r t
        (cs.map .enqueue_receive_byte ++ List.replicate j .deque_receive_byte) = true := by
  induction cs with
  | nil =>
    intro j
    induction j with
    | zero => intro r t _ _; rfl
    | succ j ih =>
      intro r t h1 h2
      simp only [List.length_nil, Nat.add_zero] at h1 h2
      simp only [List.map_nil, List.nil_append, List.replicate_succ, within_capacity,
        Bool.and_eq_true, decide_eq_true_eq]
      exact ⟨by omega, by simpa using ih (r - 1) t (by simp; omega) (by simp; omega)⟩
  | cons c cs ih =>
    intro j r t h1 h2
    simp only [List.length_cons] at h1 h2
    simp only [List.map_cons, List.cons_append, within_capacity, Bool.and_eq_true,
      decide_eq_true_eq]
    exact ⟨by omega, ih j (r + 1) t (by omega) (by omega)⟩

theorem within_capacity_fill_drain_transmit (rc tc : Nat) (cs : List Nat) :
    ∀ (j r t : Nat), t + cs.length ≤ tc - 1 → j ≤ t + cs.length →
      within_capacity rc tc r t
        (cs.map .send_char ++ List.replicate j .deque_transmit_byte) = true := by
  induction cs with
  | nil =>
    intro j
    induction j with
    | zero => intro r t _ _; rfl
    | succ j ih =>
      intro r t h1 h2
      simp only [List.length_nil, Nat.add_zero] at h1 h2
      simp only [List.map_nil, List.nil_append, List.replicate_succ, within_capacity,
        Bool.and_eq_true, decide_eq_true_eq]
      exact ⟨by omega, by simpa using ih r (t - 1) (by simp; omega) (by simp; omega)⟩
  | cons c cs ih =>
    intro j r t h1 h2
    simp only [List.length_cons] at h1 h2
    simp only [List.map_cons, List.cons_append, within_capacity, Bool.and_eq_true,
      decide_eq_true_eq]
    exact ⟨by omega, ih j r (t + 1) (by omega) (by omega)⟩

/-- Enqueue the bytes `cs` into an empty receive buffer that can hold them,
then dequeue `j` of them: the run returns the first `j` bytes and leaves
the others waiting. -/
theorem fill_drain_receive (s : uart_dpi) (h : BuffersOk s) (hempty : receive_pending s = [])
    (cs : List Nat) (j : Nat) (hcs : cs.length ≤ s.m_receive_buffer_size - 1)
    (hj : j ≤ cs.length) :
    (run_ops (cs.map .enqueue_receive_byte ++ List.replicate j .deque_receive_byte) s [] []).1
        = .ok (cs.take j, []) ∧
    BuffersOk
      (run_ops (cs.map .enqueue_receive_byte ++ List.replicate j .deque_receive_byte)
        s [] []).2 ∧
    capacities
      (run_ops (cs.map .enqueue_receive_byte ++ List.replicate j .deque_receive_byte)
        s [] []).2 = capacities s ∧
    (receive_pending
      (run_ops (cs.map .enqueue_receive_byte ++ List.replicate j .deque_receive_byte)
        s [] []).2).length = cs.length - j := by
  have hwc := within_capacity_fill_drain_receive s.m_receive_buffer_size
    s.m_transmit_buffer_size cs j (receive_pending s).length (transmit_pending s).length
    (by rw [hempty]; simpa using hcs) (by rw [hempty]; simpa using hj)
  obtain ⟨ro, tq, g1, g2, g3, g4, g5, g6, g7⟩ := run_ops_spec _ _ _ s [] [] h rfl hwc
  obtain ⟨a1, a2, a3, a4⟩ := ops_of_enqueue_receive cs
  obtain ⟨b1, b2, b3, b4⟩ := ops_of_deque_receive j
  rw [enqueued_receive_append, a1, b1, hempty] at g4
  rw [dequeues_receive_append, a3, b3] at g6
  rw [dequeues_transmit_append, a4, b4] at g7
  simp only [List.nil_append, List.append_nil, Nat.zero_add] at g1 g4 g6 g7
  have htq : tq = [] := List.length_eq_zero.1 g7
  have hro : ro = cs.take j := by rw [← g4, ← g6, List.take_left']; rfl
  refine ⟨by rw [g1, htq, hro], g2, g3, ?_⟩
  have := congrArg List.length g4
  simp only [List.length_append] at this
  omega

/-- Send the bytes `cs` into an empty transmit buffer that can hold them,
then dequeue `j` of them: the run returns the first `j` bytes and leaves
the others waiting. -/
theorem fill_drain_transmit (s : uart_dpi) (h : BuffersOk s) (hempty : transmit_pending s = [])
    (cs : List Nat) (j : Nat) (hcs : cs.length ≤ s.m_transmit_buffer_size - 1)
    (hj : j ≤ cs.length) :
    (run_ops (cs.map .send_char ++ List.replicate j .deque_transmit_byte) s [] []).1
        = .ok ([], cs.take j) ∧
    BuffersOk
      (run_ops (cs.map .send_char ++ List.replicate j .deque_transmit_byte) s [] []).2 ∧
    capacities
      (run_ops (cs.map .send_char ++ List.replicate j .deque_transmit_byte) s [] []).2
        = capacities s ∧
    (transmit_pending
      (run_ops (cs.map .send_char ++ List.replicate j .deque_transmit_byte)
        s [] []).2).length = cs.length - j := by
  have hwc := within_capacity_fill_drain_transmit s.m_receive_buffer_size
    s.m_transmit_buffer_size cs j (receive_pending s).length (transmit_pending s).length
    (by rw [hempty]; simpa using hcs) (by rw [hempty]; simpa using hj)
  obtain ⟨ro, tq, g1, g2, g3, g4, g5, g6, g7⟩ := run_ops_spec _ _ _ s [] [] h rfl hwc
  obtain ⟨a1, a2, a3, a4⟩ := ops_of_send_char cs
  obtain ⟨b1, b2, b3, b4⟩ := ops_of_deque_transmit j
  rw [enqueued_transmit_append, a2, b2, hempty] at g5
  rw [dequeues_receive_append, a3, b3] at g6
  rw [dequeues_transmit_append, a4, b4] at g7
  simp only [List.nil_append, List.append_nil, Nat.zero_add] at g1 g5 g6 g7
  have hro : ro = [] := List.length_eq_zero.1 g6
  have htq : tq = cs.take j := by rw [← g5, ← g7, List.take_left']; rfl
  refine ⟨by rw [g1, htq, hro], g2, g3, ?_⟩
  have := congrArg List.length g5
  simp only [List.length_append] at this
  omega

theorem fd_to_int_eq_neg_one (fd : Option Nat) : fd_to_int fd = -1 ↔ fd = none := by
  cases fd with
  | none => simp [fd_to_int]
  | some n => simp only [fd_to_int]; constructor <;> intro h <;> [omega; cases h]

/-- When no call fails `create_listening_socket` returns. -/
theorem create_listening_socket_succeeds (os : Os) (w : World) (hos : all_calls_succeed os)
    (hl : w.dpi.m_listening_socket = -1) :
    wp (create_listening_socket os) (fun r _ => r = .ok ()) w := by
  have hok : ∀ n, (os n).ok = true := fun n => (hos n).1
  have hfd : ∀ n, ¬ (fd_to_int (os n).fd = -1) := fun n h =>
    (hos n).2.1 ((fd_to_int_eq_neg_one _).1 h)
  have htx : ∀ n, ∃ str, (os n).addr_text = some str := fun n => by
    cases h : (os n).addr_text with
    | none => exact absurd h (hos n).2.2
    | some str => exact ⟨str, rfl⟩
  simp only [create_listening_socket, create_listening_socket_try,
    print_listening_message_once, wp_bind, wp_the_object, wp_syscall, wp_assign, on_ok_ok,
    wp_c_assert, wp_ite, wp_try_catch, wp_throw_runtime_error, hl, beq_self_eq_true, if_true,
    hok, hfd, if_false, Bool.not_true, Bool.false_eq_true, wp_pure, on_caught_ok,
    wp_ip_address_to_text, wp_print_line]
  split
  · split
    · obtain ⟨str, hs⟩ := htx (w.trace ++ [Syscall.socket] ++
        [Syscall.setsockopt (fd_to_int (os w.trace.length).fd)] ++
        [Syscall.bind (fd_to_int (os w.trace.length).fd) w.dpi.m_listening_tcp_port
          w.dpi.m_listen_on_local_addr_only]).length
      split
      · next h => rw [hs] at h; cases h
      · simp [hok]
    · simp [hok]
  · simp [hok]


/-- When no call fails the constructor returns on valid arguments and
raises a configuration error on the others. -/
theorem uart_dpi_body_validates (os : Os) (tcp_port : Int) (listen_on_local_addr_only : Nat)
    (transmit_buffer_size : Int) (receive_buffer_size : Int)
    (welcome_message : Option (List Nat)) (print_informational_messages : Nat)
    ( informational_message_prefix : Option String) (w : World) (hos : all_calls_succeed os) :
    wp (uart_dpi_body os tcp_port listen_on_local_addr_only transmit_buffer_size
        receive_buffer_size welcome_message print_informational_messages
        informational_message_prefix)
      (fun r _ =>
        (valid_arguments tcp_port listen_on_local_addr_only transmit_buffer_size
            receive_buffer_size print_informational_messages → r = .ok ()) ∧
        (¬ valid_arguments tcp_port listen_on_local_addr_only transmit_buffer_size
            receive_buffer_size print_informational_messages →
          ∃ msg, msg ∈ configuration_errors ∧ r = .error (.runtime_error (.text msg)))) w := by
  have hok : ∀ n, (os n).ok = true := fun n => (hos n).1
  simp only [uart_dpi_body, wp_bind, wp_the_object, wp_syscall, wp_assign, on_ok_ok,
    wp_ite, wp_throw_runtime_error, hok, Bool.not_true, Bool.false_eq_true, if_false]
  unfold valid_arguments MIN_BUFFER_SIZE configuration_errors
  split
  · next h => exact ⟨fun hv => absurd h hv.1, fun _ => ⟨_, by simp, rfl⟩⟩
  split
  · next h => exact ⟨fun hv => by omega, fun _ => ⟨_, by simp, rfl⟩⟩
  split
  · next h => exact ⟨fun hv => by omega, fun _ => ⟨_, by simp, rfl⟩⟩
  split
  · next h => exact ⟨fun hv => by omega, fun _ => ⟨_, by simp, rfl⟩⟩
  split
  · next h => exact ⟨fun hv => by omega, fun _ => ⟨_, by simp, rfl⟩⟩
  next h1 h2 h3 h4 h5 =>
  apply wp_mono _ _ _ _ (create_listening_socket_succeeds os _ hos rfl)
  intro r w1 hr
  exact ⟨fun _ => hr, fun hv => absurd ⟨h1, by omega, by omega, by omega, by omega⟩ hv⟩

/-! ## Lemmas on the receive step -/

theorem receive_data_post_of_eq (w w1 : World) (r : Except Failure Unit)
    (hd : w1.dpi = w.dpi) (hr : returns_or_raises r) (hok : BuffersOk w.dpi) :
    receive_data_post w r w1 := by
  refine ⟨hr, by rw [hd]; exact hok, ⟨_, _, _, by rw [hd]⟩, Or.inl (by rw [hd]), [],
    by rw [hd]; simp⟩

theorem receive_data_post_closed (w w1 : World)
    (hd : w1.dpi = { w.dpi with m_connectionSocket := -1 }) (hok : BuffersOk w.dpi) :
    receive_data_post w (.ok ()) w1 := by
  refine ⟨trivial, by rw [hd]; exact hok, ⟨_, _, _, by rw [hd]⟩, Or.inr ⟨rfl, by rw [hd]⟩, [],
    by rw [hd]; simp [receive_pending]⟩

theorem receive_data_post_trans (w w1 w2 : World) (r : Except Failure Unit) (c : Nat)
    (hnf : is_receive_buffer_full w.dpi = false) (hok : BuffersOk w.dpi)
    (h1 : w1.dpi = (enqueue_receive_byte w.dpi c).2)
    (h2 : receive_data_post w1 r w2) : receive_data_post w r w2 := by
  obtain ⟨a1, a2, a3, a4⟩ := enqueue_receive_byte_ok w.dpi c hok hnf
  obtain ⟨b1, b2, ⟨buf, p, cs, b3⟩, b4, ⟨more, b5⟩⟩ := h2
  have hw1 : w1.dpi = { w.dpi with
      m_receive_buffer := w.dpi.m_receive_buffer.set w.dpi.m_receive_write_pointer c
      m_receive_write_pointer :=
        ((w.dpi.m_receive_write_pointer + 1) % UNSIGNED_RANGE) % w.dpi.m_receive_buffer_size } := by
    rw [h1]; simp [enqueue_receive_byte, hnf]
  refine ⟨b1, b2, ⟨buf, p, cs, ?_⟩, ?_, c :: more, ?_⟩
  · rw [b3, hw1]
  · rw [hw1] at b4; exact b4
  · rw [b5, h1, a3]; simp

theorem wp_of_close_current_connection (os : Os) (Q : Except Failure Unit → World → Prop)
    (w : World) (h : w.dpi.m_connectionSocket ≠ -1)
    (hq : Q (.ok ())
      { w with
        dpi := { w.dpi with m_connectionSocket := -1 }
        trace := w.trace ++ [.close w.dpi.m_connectionSocket] }) :
    wp (close_current_connection os) Q w := by
  rw [wp_close_current_connection os Q w h]; exact hq

/-- The receive loop, on buffers in order, with a connection, and with
fuel for every free slot of the receive buffer and one more. -/
theorem receive_data_loop_spec (os : Os) (fuel : Nat) : ∀ (w : World), BuffersOk w.dpi →
    w.dpi.m_connectionSocket ≠ -1 →
    w.dpi.m_receive_buffer_size ≤ (receive_pending w.dpi).length + fuel →
    wp (receive_data_loop os fuel) (receive_data_post w) w := by
  induction fuel with
  | zero =>
    intro w hok _ hfuel
    have := rx_pending_lt w.dpi hok
    omega
  | succ fuel ih =>
    intro w hok hconn hfuel
    simp only [receive_data_loop, wp_bind, wp_the_object, on_ok_ok, wp_ite, wp_pure,
      wp_syscall, wp_throw_runtime_error, wp_c_assert, wp_print_line, wp_on_object]
    cases hfull : is_receive_buffer_full w.dpi
    · simp only [Bool.not_false, if_true]
      cases hpoll : (os w.trace.length).poll
      · simp only [PollResult.toInt, if_true]
        exact receive_data_post_of_eq _ _ _ rfl trivial hok
      · simp only [PollResult.toInt]
        exact receive_data_post_of_eq _ _ _ rfl trivial hok
      · simp only [PollResult.toInt, show ¬ ((1 : Int) = -1) by decide,
          show ¬ ((1 : Int) = 0) by decide, beq_self_eq_true, if_true, if_false, on_ok_ok]
        cases hrecv : (os (w.trace ++ [Syscall.poll w.dpi.m_connectionSocket
            PollEvents.pollin]).length).recv
        · simp only [RecvResult.toInt, show ¬ ((-1 : Int) = 0) by decide, if_true, if_false]
          split
          · exact receive_data_post_of_eq _ _ _ rfl trivial hok
          · exact receive_data_post_of_eq _ _ _ rfl trivial hok
        · simp only [RecvResult.toInt, if_true]
          split
          · refine wp_of_close_current_connection _ _ _ hconn ?_
            exact receive_data_post_closed _ _ rfl hok
          · refine wp_of_close_current_connection _ _ _ hconn ?_
            exact receive_data_post_closed _ _ rfl hok
        · simp only [RecvResult.toInt, show ¬ ((1 : Int) = -1) by decide,
            show ¬ ((1 : Int) = 0) by decide, beq_self_eq_true, if_true, if_false]
          generalize (os (w.trace ++ [Syscall.poll w.dpi.m_connectionSocket
            PollEvents.pollin]).length).recv_data = b
          obtain ⟨a1, a2, a3, a4⟩ := enqueue_receive_byte_ok w.dpi b hok hfull
          rw [a1]
          simp only [on_ok_ok]
          have hc : (enqueue_receive_byte w.dpi b).2.m_connectionSocket
              = w.dpi.m_connectionSocket := by
            simp [enqueue_receive_byte, hfull]
          have hsz : (enqueue_receive_byte w.dpi b).2.m_receive_buffer_size
              = w.dpi.m_receive_buffer_size :=
            congrArg Prod.fst (enqueue_receive_byte_capacities w.dpi b)
          have hlen : (receive_pending (enqueue_receive_byte w.dpi b).2).length
              = (receive_pending w.dpi).length + 1 := by rw [a3]; simp
          apply wp_mono _ _ _ _ (ih _ a2 (by rw [hc]; exact hconn)
            (by show (enqueue_receive_byte w.dpi b).2.m_receive_buffer_size ≤
                  (receive_pending (enqueue_receive_byte w.dpi b).2).length + fuel
                rw [hsz, hlen]; omega))
          intro r w2 hpost
          exact receive_data_post_trans w _ w2 r _ hfull hok rfl hpost
    · simp only [Bool.not_true, Bool.false_eq_true, if_false]
      exact receive_data_post_of_eq _ _ _ rfl trivial hok

/-- The receive step, on buffers in order and with a connection. -/
theorem receive_data_spec (os : Os) (w : World) (hok : BuffersOk w.dpi)
    (hconn : w.dpi.m_connectionSocket ≠ -1) :
    wp (receive_data os) (receive_data_post w) w := by
  simp only [receive_data, wp_bind, wp_the_object, on_ok_ok]
  exact receive_data_loop_spec os _ w hok hconn (by omega)

/-! ## Lemmas on the transmit step -/

theorem getD_ne_zero_lt (l : List Nat) (i : Nat) (h : l.getD i 0 ≠ 0) : i < l.length := by
  by_contra hn
  exact h (List.getD_eq_default _ _ (by omega))

/-- The choice of the byte to send, when there is one to send. -/
theorem next_byte_to_send_spec (w : World) (hok : BuffersOk w.dpi) (hcur : cursor_ok w.dpi)
    (hsome : is_transmit_buffer_empty w.dpi = false ∨ w.dpi.m_welcome_message_pos ≠ -1) :
    wp next_byte_to_send (fun r w1 =>
      (∃ b, r = .ok b) ∧ w1.trace = w.trace ∧ w1.log = w.log ∧
      BuffersOk w1.dpi ∧ cursor_ok w1.dpi ∧
      (∃ p pos, w1.dpi =
        { w.dpi with m_transmit_read_pointer := p, m_welcome_message_pos := pos }) ∧
      (∃ sent, transmit_pending w.dpi = sent ++ transmit_pending w1.dpi) ∧
      transmit_backlog w1.dpi < transmit_backlog w.dpi) w := by
  simp only [next_byte_to_send, wp_bind, wp_the_object, on_ok_ok, wp_ite, wp_assign, wp_pure,
    wp_on_object]
  by_cases hpos : w.dpi.m_welcome_message_pos = -1
  · simp only [hpos, ne_eq, not_true_eq_false, if_false]
    have hne : is_transmit_buffer_empty w.dpi = false := by
      rcases hsome with h | h
      · exact h
      · exact absurd hpos h
    obtain ⟨h1, ⟨b, h2, h3⟩, h4⟩ := deque_transmit_byte_ok w.dpi hok hne
    have hd : (deque_transmit_byte w.dpi).2 = { w.dpi with
        m_transmit_read_pointer :=
          ((w.dpi.m_transmit_read_pointer + 1) % UNSIGNED_RANGE) % w.dpi.m_transmit_buffer_size } := by
      simp [deque_transmit_byte, hne]
    refine ⟨⟨b, h2⟩, by first | rfl | trivial, by first | rfl | trivial, h1, ?_,
      ⟨_, _, hd⟩, ⟨[b], ?_⟩, ?_⟩
    · show cursor_ok (deque_transmit_byte w.dpi).2
      rw [hd]; exact Or.inl hpos
    · rw [h3]; rfl
    · show transmit_backlog (deque_transmit_byte w.dpi).2 < _
      unfold transmit_backlog
      rw [h3]
      have : (deque_transmit_byte w.dpi).2.m_welcome_message_pos = -1 := by rw [hd]; exact hpos
      rw [this, hpos]
      simp
  · simp only [hpos, ne_eq, not_false_eq_true, if_true]
    have hcur2 : 0 ≤ w.dpi.m_welcome_message_pos ∧
        w.dpi.m_welcome_message_pos < w.dpi.m_welcome_message.length := by
      rcases hcur with h | h
      · exact absurd h hpos
      · exact h
    split
    · next hz =>
      refine ⟨⟨_, rfl⟩, by first | rfl | trivial, by first | rfl | trivial, hok, Or.inl rfl,
        ⟨_, _, rfl⟩, ⟨[], rfl⟩, ?_⟩
      unfold transmit_backlog
      simp only [if_true, hpos, if_false]
      show 0 + (transmit_pending w.dpi).length < _
      omega
    · next hz =>
      have hlt := getD_ne_zero_lt _ _ hz
      refine ⟨⟨_, rfl⟩, by first | rfl | trivial, by first | rfl | trivial, hok, Or.inr
          ⟨by show (0 : Int) ≤ w.dpi.m_welcome_message_pos + 1; omega,
           by show w.dpi.m_welcome_message_pos + 1 < (w.dpi.m_welcome_message.length : Int)
              omega⟩, ⟨_, _, rfl⟩, ⟨[], rfl⟩, ?_⟩
      unfold transmit_backlog
      have hne : ¬ (w.dpi.m_welcome_message_pos + 1 = -1) := by omega
      simp only [hpos, if_false]
      show (if w.dpi.m_welcome_message_pos + 1 = -1 then 0
        else w.dpi.m_welcome_message.length - (w.dpi.m_welcome_message_pos + 1).toNat) +
          (transmit_pending w.dpi).length < _
      rw [if_neg hne]
      omega


theorem transmit_data_post_of_eq (w w1 : World) (r : Except Failure Unit)
    (hd : w1.dpi = w.dpi) (hr : returns_or_raises r) (hok : BuffersOk w.dpi)
    (hcur : cursor_ok w.dpi) : transmit_data_post w r w1 := by
  refine ⟨hr, by rw [hd]; exact hok, by rw [hd]; exact hcur, ⟨_, _, by rw [hd]⟩, [],
    by rw [hd]; rfl⟩

theorem transmit_data_post_step (w w1 w2 : World) (r : Except Failure Unit)
    (h1 : ∃ p pos, w1.dpi =
      { w.dpi with m_transmit_read_pointer := p, m_welcome_message_pos := pos })
    (h1s : ∃ sent, transmit_pending w.dpi = sent ++ transmit_pending w1.dpi)
    (h2 : transmit_data_post w1 r w2) : transmit_data_post w r w2 := by
  obtain ⟨p, pos, hd⟩ := h1
  obtain ⟨sent, hs⟩ := h1s
  obtain ⟨b1, b2, b3, ⟨p2, pos2, hd2⟩, ⟨sent2, hs2⟩⟩ := h2
  refine ⟨b1, b2, b3, ⟨p2, pos2, by rw [hd2, hd]⟩, sent ++ sent2, ?_⟩
  rw [hs, hs2, List.append_assoc]

/-- The transmit loop, on buffers in order, with a valid cursor, and with
more fuel than there are bytes to send. -/
theorem transmit_data_loop_spec (os : Os) (fuel : Nat) : ∀ (w : World), BuffersOk w.dpi →
    cursor_ok w.dpi → transmit_backlog w.dpi < fuel →
    wp (transmit_data_loop os fuel) (transmit_data_post w) w := by
  induction fuel with
  | zero => intro w _ _ h; omega
  | succ fuel ih =>
    intro w hok hcur hfuel
    simp only [transmit_data_loop, wp_bind, wp_the_object, on_ok_ok, wp_ite, wp_pure,
      wp_syscall, wp_throw_runtime_error, wp_c_assert]
    by_cases hcond : (!is_transmit_buffer_empty w.dpi || w.dpi.m_welcome_message_pos != -1) = true
    · rw [if_pos hcond]
      have hsome : is_transmit_buffer_empty w.dpi = false ∨ w.dpi.m_welcome_message_pos ≠ -1 := by
        simpa using hcond
      cases hpoll : (os w.trace.length).poll
      · simp only [PollResult.toInt, if_true]
        exact transmit_data_post_of_eq _ _ _ rfl trivial hok hcur
      · simp only [PollResult.toInt, show ¬ ((0 : Int) = -1) by decide, if_true, if_false]
        exact transmit_data_post_of_eq _ _ _ rfl trivial hok hcur
      · simp only [PollResult.toInt, show ¬ ((1 : Int) = -1) by decide,
          show ¬ ((1 : Int) = 0) by decide, beq_self_eq_true, if_true, if_false, on_ok_ok]
        apply wp_mono _ _ _ _ (next_byte_to_send_spec
          { w with trace := w.trace ++ [Syscall.poll w.dpi.m_connectionSocket PollEvents.pollout] }
          hok hcur hsome)
        rintro r w1 ⟨⟨b, hb⟩, _, _, h1, h2, h3, h4, h5⟩
        subst hb
        simp only [on_ok_ok, send_byte, wp_bind, wp_the_object, wp_syscall, wp_ite,
          wp_throw_runtime_error, wp_pure]
        split
        · exact transmit_data_post_step w w1 _ _ h3 h4
            (transmit_data_post_of_eq _ _ _ rfl trivial h1 h2)
        · apply wp_mono _ _ _ _ (ih
            { w1 with trace := w1.trace ++ [Syscall.send w1.dpi.m_connectionSocket b] }
            h1 h2 (by
            show transmit_backlog w1.dpi < fuel
            have : transmit_backlog w1.dpi < transmit_backlog w.dpi := h5
            omega))
          intro r2 w2 hpost
          exact transmit_data_post_step w w1 w2 r2 h3 h4
            (by
              obtain ⟨c1, c2, c3, ⟨p, pos, c4⟩, c5⟩ := hpost
              exact ⟨c1, c2, c3, ⟨p, pos, c4⟩, c5⟩)
    · rw [if_neg hcond]
      exact transmit_data_post_of_eq _ _ _ rfl trivial hok hcur

theorem transmit_backlog_le (d : uart_dpi) (hok : BuffersOk d) :
    transmit_backlog d < d.m_welcome_message.length + d.m_transmit_buffer_size := by
  have := tx_pending_lt d hok
  unfold transmit_backlog
  split
  · omega
  · omega

/-- The transmit step, on buffers in order and with a valid cursor. -/
theorem transmit_data_spec (os : Os) (w : World) (hok : BuffersOk w.dpi)
    (hcur : cursor_ok w.dpi) : wp (transmit_data os) (transmit_data_post w) w := by
  simp only [transmit_data, wp_bind, wp_the_object, on_ok_ok]
  have := transmit_backlog_le w.dpi hok
  exact transmit_data_loop_spec os _ w hok hcur (by omega)

/-! ## Lemmas on accepting a connection -/

theorem fd_to_int_some_ne (n : Nat) : fd_to_int (some n) ≠ -1 := by
  simp only [fd_to_int]; omega

/-- Accepting a pending peer returns; either the object is as before, or
it accepted the connection. -/
theorem accept_pending_connection_spec (os : Os) (w : World)
    (hl : w.dpi.m_listening_socket ≠ -1) :
    wp (accept_pending_connection os) (fun r w1 =>
      r = .ok () ∧ (w1.dpi = w.dpi ∨ accepted_from w.dpi w1.dpi)) w := by
  simp only [accept_pending_connection, accept_connection_try, wp_bind, wp_the_object,
    wp_syscall, on_ok_ok, wp_try_catch, wp_ite, wp_throw_runtime_error, wp_pure,
    wp_ip_address_to_text, wp_print_line, on_caught_runtime_error, on_ok_error, on_caught_ok,
    wp_assign]
  cases hfd : (os w.trace.length).fd with
  | none =>
    simp only [fd_to_int, if_true, ne_eq, not_true_eq_false, if_false]
    simp
  | some n =>
    have hn := fd_to_int_some_ne n
    simp only [hn, ne_eq, not_false_eq_true, if_true, if_false, Bool.false_eq_true]
    repeat' split
    all_goals first
      | (refine wp_of_close_listening_socket _ _ _ hl ?_
         refine ⟨rfl, Or.inr ⟨_, hn, ?_⟩⟩
         first | rfl | simp [*])
      | simp [hn]


/-- What `accept_connection` leaves: either the object is as before, or
the call returned and the object accepted a connection; the only exception
is the one of the `poll` on the listening socket. -/
theorem accept_connection_spec (os : Os) (w : World) (hl : w.dpi.m_listening_socket ≠ -1) :
    wp (accept_connection os) (fun r w1 =>
      (r = .ok () ∨ raised_with ["Error polling the listening socket: "] r) ∧
      (w1.dpi = w.dpi ∨ (r = .ok () ∧ accepted_from w.dpi w1.dpi))) w := by
  simp only [accept_connection, wp_bind, wp_the_object, on_ok_ok, wp_c_assert, wp_syscall,
    wp_ite, wp_pure, wp_throw_runtime_error, bne_iff_ne, ne_eq, hl, not_false_eq_true, if_true]
  cases hpoll : (os w.trace.length).poll
  · simp only [PollResult.toInt, show ¬ ((-1 : Int) = 0) by decide, if_true, if_false]
    exact ⟨Or.inr ⟨_, _, rfl, by simp⟩, Or.inl (by first | rfl | trivial)⟩
  · simp only [PollResult.toInt, if_true]
    exact ⟨Or.inl (by first | rfl | trivial), Or.inl (by first | rfl | trivial)⟩
  · simp only [PollResult.toInt, show ¬ ((1 : Int) = -1) by decide,
      show ¬ ((1 : Int) = 0) by decide, beq_self_eq_true, if_true, if_false, on_ok_ok]
    apply wp_mono _ _ _ _ (accept_pending_connection_spec os
      { w with trace := w.trace ++ [Syscall.poll w.dpi.m_listening_socket PollEvents.pollin] }
      hl)
    rintro r w1 ⟨hr, hd⟩
    subst hr
    refine ⟨Or.inl rfl, ?_⟩
    rcases hd with hd | hd
    · exact Or.inl hd
    · exact Or.inr ⟨rfl, hd⟩

theorem accepted_from_inv (d d1 : uart_dpi) (h : accepted_from d d1) (hok : BuffersOk d)
    (hp : d.m_listening_message_already_printed = true) :
    engine_inv d1 ∧ d1.m_connectionSocket ≠ -1 ∧
    ∃ l p c pos, d1 =
      { d with m_listening_socket := l, m_listening_message_already_printed := p,
               m_connectionSocket := c, m_welcome_message_pos := pos } := by
  obtain ⟨c, hc, hd⟩ := h
  subst hd
  refine ⟨⟨hok, Or.inl rfl, fun _ => ?_, hp⟩, hc, ⟨_, _, _, _, rfl⟩⟩
  unfold cursor_ok
  cases hw : d.m_welcome_message with
  | nil => left; simp [hw]
  | cons b rest => right; simp [hw]

theorem raised_with_mono {α : Type} (a b : List String) (r : Except Failure α)
    (hab : ∀ x, x ∈ a → x ∈ b) (h : raised_with a r) : raised_with b r := by
  obtain ⟨pfx, e, h1, h2⟩ := h
  exact ⟨pfx, e, h1, hab _ h2⟩

theorem tick_errors_of_listening (x : String) (h : x ∈ listening_socket_errors) :
    x ∈ tick_errors := by
  unfold tick_errors; exact List.mem_append_left _ h

theorem tick_errors_of_poll (x : String) (h : x ∈ ["Error polling the listening socket: "]) :
    x ∈ tick_errors := by
  unfold tick_errors; exact List.mem_append_right _ h

/-- What `accept_eventual_incoming_connection` leaves, from an object in
order: an object in order that differs at most in the two sockets, the
banner flag and the welcome cursor; if it does not return, there was no
connection, there is none, and it raised an exception of
`create_listening_socket` or of the `poll` on the listening socket. -/
theorem accept_eventual_incoming_connection_spec (os : Os) (w : World)
    (hinv : engine_inv w.dpi) :
    wp (accept_eventual_incoming_connection os) (fun r w1 =>
      engine_inv w1.dpi ∧
      (∃ l p c pos, w1.dpi =
        { w.dpi with m_listening_socket := l, m_listening_message_already_printed := p,
                     m_connectionSocket := c, m_welcome_message_pos := pos }) ∧
      (r = .ok () ∨
        (raised_with tick_errors r ∧
          w.dpi.m_connectionSocket = -1 ∧ w1.dpi.m_connectionSocket = -1))) w := by
  obtain ⟨hok, hex, hcur, hpr⟩ := hinv
  simp only [accept_eventual_incoming_connection, wp_bind, wp_the_object, on_ok_ok, wp_ite,
    wp_pure]
  by_cases hc : w.dpi.m_connectionSocket = -1
  · rw [if_pos hc]
    have key : ∀ (w0 : World), w0.dpi.m_listening_socket ≠ -1 →
        w0.dpi.m_connectionSocket = -1 → BuffersOk w0.dpi →
        w0.dpi.m_listening_message_already_printed = true →
        (∃ l p c pos, w0.dpi =
          { w.dpi with m_listening_socket := l, m_listening_message_already_printed := p,
                       m_connectionSocket := c, m_welcome_message_pos := pos }) →
        wp (accept_connection os) (fun r w1 =>
          engine_inv w1.dpi ∧
          (∃ l p c pos, w1.dpi =
            { w.dpi with m_listening_socket := l, m_listening_message_already_printed := p,
                         m_connectionSocket := c, m_welcome_message_pos := pos }) ∧
          (r = .ok () ∨
            (raised_with tick_errors r ∧
              w.dpi.m_connectionSocket = -1 ∧ w1.dpi.m_connectionSocket = -1)))
          w0 := by
      intro w0 hl0 hc0 hok0 hp0 ⟨l0, p0, c0, pos0, hd0⟩
      apply wp_mono _ _ _ _ (accept_connection_spec os w0 hl0)
      rintro r w1 ⟨hr, hd⟩
      rcases hd with hd | ⟨hr2, hd⟩
      · refine ⟨?_, ⟨l0, p0, c0, pos0, by rw [hd, hd0]⟩, ?_⟩
        · rw [hd]
          exact ⟨hok0, Or.inr hc0, fun h => absurd hc0 h, hp0⟩
        · rcases hr with hr | hr
          · exact Or.inl hr
          · exact Or.inr ⟨raised_with_mono _ _ _ tick_errors_of_poll hr, hc,
              by rw [hd]; exact hc0⟩
      · obtain ⟨g1, _, ⟨l, p, c, pos, g3⟩⟩ := accepted_from_inv _ _ hd hok0 hp0
        exact ⟨g1, ⟨l, p, c, pos, by rw [g3, hd0]⟩, Or.inl hr2⟩
    by_cases hl : w.dpi.m_listening_socket = -1
    · rw [if_pos hl]
      apply wp_mono _ _ _ _ (create_listening_socket_spec os w hl)
      rintro r w1 ⟨l, p, hd, hr⟩
      rcases hr with ⟨hr, hl1, hp⟩ | ⟨what, hr, hl1, hp⟩
      · subst hr
        simp only [on_ok_ok]
        refine key w1 (by rw [hd]; exact hl1) (by rw [hd]; exact hc) (by rw [hd]; exact hok)
          (by rw [hd]; exact hp)
          ⟨l, p, w.dpi.m_connectionSocket, w.dpi.m_welcome_message_pos, by rw [hd]⟩
      · obtain ⟨hp1, hp2⟩ := hp hpr
        subst hr
        simp only [on_ok_error]
        refine ⟨?_, ⟨l, p, w.dpi.m_connectionSocket, w.dpi.m_welcome_message_pos,
          by rw [hd]⟩, Or.inr ⟨raised_with_mono _ _ _ tick_errors_of_listening hp2, hc,
            by rw [hd]; exact hc⟩⟩
        rw [hd]
        exact ⟨hok, Or.inr hc, fun h => absurd hc h, hp1⟩
    · rw [if_neg hl]
      exact key w hl hc hok hpr ⟨_, _, _, _, rfl⟩
  · rw [if_neg hc]
    exact ⟨⟨hok, hex, hcur, hpr⟩, ⟨_, _, _, _, rfl⟩, Or.inl (by first | rfl | trivial)⟩

/-! ## Lemmas on the tick -/

/-- The transfer of one tick, from an object in order with a connection:
it returns, whatever happens on the socket, and leaves the object in
order. -/
theorem transfer_or_drop_spec (os : Os) (w : World) (hinv : engine_inv w.dpi)
    (hconn : w.dpi.m_connectionSocket ≠ -1) :
    wp (transfer_or_drop os) (fun r w1 =>
      r = .ok () ∧ engine_inv w1.dpi ∧ transferred_from w.dpi w1.dpi) w := by
  obtain ⟨hok, hex, hcur, hpr⟩ := hinv
  have hl : w.dpi.m_listening_socket = -1 := by
    rcases hex with h | h
    · exact h
    · exact absurd h hconn
  simp only [transfer_or_drop, wp_try_catch, wp_bind]
  apply wp_mono _ _ _ _ (transmit_data_spec os w hok (hcur hconn))
  rintro r w1 ⟨a1, a2, a3, ⟨p, pos, a4⟩, _⟩
  have hc1 : w1.dpi.m_connectionSocket = w.dpi.m_connectionSocket := by rw [a4]
  have hl1 : w1.dpi.m_listening_socket = -1 := by rw [a4]; exact hl
  have hp1 : w1.dpi.m_listening_message_already_printed = true := by rw [a4]; exact hpr
  rcases r with e | u
  · cases e with
    | runtime_error what =>
      simp only [on_ok_error, on_caught_runtime_error, wp_bind, wp_print_line, on_ok_ok]
      refine wp_of_close_current_connection _ _ _ (by rw [← hc1] at hconn; exact hconn) ?_
      refine ⟨rfl, ⟨a2, Or.inr rfl, fun h => absurd rfl h, hp1⟩,
        ⟨p, pos, w.dpi.m_receive_buffer, w.dpi.m_receive_write_pointer, -1, ?_⟩, Or.inr rfl⟩
      show ({ w1.dpi with m_connectionSocket := -1 } : uart_dpi) = _
      rw [a4]
    | assertion_failed x => exact absurd a1 (by simp [returns_or_raises])
    | out_of_fuel => exact absurd a1 (by simp [returns_or_raises])
  · simp only [on_ok_ok]
    apply wp_mono _ _ _ _ (receive_data_spec os w1 a2 (by rw [hc1]; exact hconn))
    rintro r2 w2 ⟨b1, b2, ⟨buf, q, c, b3⟩, b4, _⟩
    have hl2 : w2.dpi.m_listening_socket = -1 := by rw [b3]; exact hl1
    have hp2 : w2.dpi.m_listening_message_already_printed = true := by rw [b3]; exact hp1
    have hcur2 : cursor_ok w2.dpi := by
      rw [b3]; exact a3
    rcases r2 with e | u
    · cases e with
      | runtime_error what =>
        have hc2 : w2.dpi.m_connectionSocket = w1.dpi.m_connectionSocket := by
          rcases b4 with h | ⟨h, _⟩
          · exact h
          · cases h
        simp only [on_caught_runtime_error, wp_bind, wp_print_line, on_ok_ok]
        refine wp_of_close_current_connection _ _ _
          (by rw [← hc1, ← hc2] at hconn; exact hconn) ?_
        refine ⟨rfl, ⟨b2, Or.inr rfl, fun h => absurd rfl h, hp2⟩,
          ⟨p, pos, buf, q, -1, ?_⟩, Or.inr rfl⟩
        show ({ w2.dpi with m_connectionSocket := -1 } : uart_dpi) = _
        rw [b3, a4]
      | assertion_failed x => exact absurd b1 (by simp [returns_or_raises])
      | out_of_fuel => exact absurd b1 (by simp [returns_or_raises])
    · simp only [on_caught_ok]
      refine ⟨by first | rfl | trivial, ⟨b2, Or.inl hl2, fun _ => hcur2, hp2⟩,
        ⟨p, pos, buf, q, c, ?_⟩, ?_⟩
      · rw [b3, a4]
      · rcases b4 with h | ⟨_, h⟩
        · exact Or.inl (by rw [h, hc1])
        · exact Or.inr h

/-- What `tick` leaves and how it ends, from an object in order. -/
theorem tick_spec (os : Os) (w : World) (hinv : engine_inv w.dpi) :
    wp (tick os) (tick_post w) w := by
  apply wp_mono _ _ _ _ (show wp (tick os) (fun r w1 => tick_post w r w1) w from ?_)
  · intro r w1 h; exact h
  simp only [tick, wp_bind, wp_the_object, on_ok_ok, wp_ite, wp_pure, wp_on_object]
  apply wp_mono _ _ _ _ (accept_eventual_incoming_connection_spec os w hinv)
  rintro r w1 ⟨c2, _, c4⟩
  have fin : ∀ w2 : World, engine_inv w2.dpi →
      tick_post w (get_received_byte_count w2.dpi) { w2 with dpi := w2.dpi } :=
    fun w2 h2 => ⟨h2, Or.inl (get_received_byte_count_eq w2.dpi h2.1)⟩
  rcases c4 with hr | ⟨⟨pfx, e, hr, hpfx⟩, g1, g2⟩
  · subst hr
    simp only [on_ok_ok]
    split
    · next hc =>
      apply wp_mono _ _ _ _ (transfer_or_drop_spec os w1 c2 hc)
      rintro r2 w2 ⟨d1, d2, _⟩
      subst d1
      simp only [on_ok_ok]
      exact fin w2 d2
    · exact fin w1 c2
  · subst hr
    simp only [on_ok_error]
    exact ⟨c2, Or.inr ⟨⟨pfx, e, rfl, hpfx⟩, g1, g2⟩⟩

/-! ## Lemmas on the reachable worlds -/

theorem send_char_frame (s : uart_dpi) (c : Nat) :
    ∃ buf p q, (send_char s c).2 =
      { s with m_transmit_buffer := buf, m_transmit_read_pointer := p,
               m_transmit_write_pointer := q } := by
  unfold send_char
  cases hf : is_transmit_buffer_full s
  · exact ⟨_, _, _, rfl⟩
  · cases he : is_transmit_buffer_empty s
    · simp only [deque_transmit_byte, he, if_true, Bool.false_eq_true, if_false]
      split
      · exact ⟨s.m_transmit_buffer, _, s.m_transmit_write_pointer, rfl⟩
      · exact ⟨_, _, _, rfl⟩
    · simp only [deque_transmit_byte, he, if_true]
      exact ⟨s.m_transmit_buffer, s.m_transmit_read_pointer, s.m_transmit_write_pointer, rfl⟩

theorem receive_frame (s : uart_dpi) :
    ∃ p, (receive s).2 = { s with m_receive_read_pointer := p } := by
  unfold receive deque_receive_byte
  cases he : is_receive_buffer_empty s
  · exact ⟨_, rfl⟩
  · exact ⟨s.m_receive_read_pointer, rfl⟩

theorem send_char_inv (s : uart_dpi) (c : Nat) (h : engine_inv s) :
    engine_inv (send_char s c).2 := by
  obtain ⟨h1, h2, h3, h4⟩ := h
  obtain ⟨g1, g2, _⟩ := send_char_spec s c h1
  obtain ⟨buf, p, q, hd⟩ := send_char_frame s c
  refine ⟨g2, ?_, ?_, ?_⟩
  · rw [hd]; exact h2
  · rw [hd]; exact h3
  · rw [hd]; exact h4

theorem receive_inv (s : uart_dpi) (h : engine_inv s) : engine_inv (receive s).2 := by
  obtain ⟨h1, h2, h3, h4⟩ := h
  obtain ⟨p, hd⟩ := receive_frame s
  have hb : BuffersOk (receive s).2 := by
    cases he : is_receive_buffer_empty s
    · exact (receive_ok s h1 he).1
    · simp only [receive, he, if_true]; exact h1
  refine ⟨hb, ?_, ?_, ?_⟩
  · rw [hd]; exact h2
  · rw [hd]; exact h3
  · rw [hd]; exact h4

/-- A successful construction leaves an object in order, with a listening
socket and no connection. -/
theorem uart_dpi_new_inv (os : Os) (garbage : uart_dpi) (tcp_port : Int)
    (listen_on_local_addr_only : Nat) (transmit_buffer_size : Int) (receive_buffer_size : Int)
    (welcome_message : Option (List Nat)) (print_informational_messages : Nat)
    ( informational_message_prefix : Option String) (w : World)
    (hnew : uart_dpi_new os garbage tcp_port listen_on_local_addr_only transmit_buffer_size
      receive_buffer_size welcome_message print_informational_messages
      informational_message_prefix = (.ok (), w))
    (htx : transmit_buffer_size < 2 ^ 31) (hrx : receive_buffer_size < 2 ^ 31) :
    engine_inv w.dpi ∧ w.dpi.m_listening_socket ≠ -1 ∧ w.dpi.m_connectionSocket = -1 := by
  have hb := uart_dpi_new_buffers os garbage tcp_port listen_on_local_addr_only
    transmit_buffer_size receive_buffer_size welcome_message print_informational_messages
    informational_message_prefix w hnew htx hrx
  have h := uart_dpi_body_spec os tcp_port listen_on_local_addr_only transmit_buffer_size
    receive_buffer_size welcome_message print_informational_messages
    informational_message_prefix { dpi := unassigned garbage, trace := [], log := [] }
  unfold wp at h
  unfold uart_dpi_new at hnew
  rw [hnew] at h
  obtain ⟨_, hc⟩ := h.2 rfl
  obtain ⟨_, _, _, _, _, _, _, _, _, _, _, _, c13, _, c15, c16⟩ := hc
  exact ⟨⟨hb.1, Or.inr c16, fun hne => absurd c16 hne, c13⟩, c15, c16⟩

/-- Every reachable world holds an object in order. -/
theorem reachable_inv (os : Os) (w : World) (h : Reachable os w) : engine_inv w.dpi := by
  induction h with
  | constructed garbage tcp_port listen_on_local_addr_only transmit_buffer_size
      receive_buffer_size welcome_message print_informational_messages
      informational_message_prefix w hnew htx hrx =>
    exact (uart_dpi_new_inv os garbage tcp_port listen_on_local_addr_only
      transmit_buffer_size receive_buffer_size welcome_message print_informational_messages
      informational_message_prefix w hnew htx hrx).1
  | tick w _ ih => exact (tick_spec os w ih).1
  | send_char w c _ ih => exact send_char_inv w.dpi c ih
  | receive w _ ih => exact receive_inv w.dpi ih

/-! ## Lemmas on the parts of a tick -/

/-- An exception of `accept_eventual_incoming_connection` leaves `tick`. -/
theorem tick_raises_of_accept (os : Os) (w : World) (e : Failure)
    (h : ((accept_eventual_incoming_connection os).run w).1 = .error e) :
    ((tick os).run w).1 = .error e := by
  have hw : wp (tick os) (fun r _ => r = .error e) w := by
    simp only [tick, wp_bind]
    unfold wp
    rw [h]
    rfl
  exact hw

/-- The world a `tick` leaves when it has a connection after its first
step and the transfer returns: the one the transfer leaves. -/
theorem tick_world_of_parts (os : Os) (w w1 w2 : World)
    (ha : (accept_eventual_incoming_connection os).run w = (.ok (), w1))
    (hc : w1.dpi.m_connectionSocket ≠ -1)
    (ht : (transfer_or_drop os).run w1 = (.ok (), w2)) :
    ((tick os).run w).2 = w2 := by
  have hw : wp (tick os) (fun _ w3 => w3 = w2) w := by
    simp only [tick, wp_bind, wp_the_object, on_ok_ok, wp_ite, wp_on_object]
    unfold wp
    rw [ha]
    simp only [on_ok_ok, hc, ne_eq, not_false_eq_true, if_true]
    rw [ht]
    simp only [on_ok_ok]
  exact hw

/-- The receive loop stops at no assertion when there is a connection, and
never at the assertion of `enqueue_receive_byte`. -/
theorem receive_data_loop_asserts (os : Os) (x : String) (fuel : Nat) : ∀ (w : World),
    (x = "!is_receive_buffer_full()" ∨ w.dpi.m_connectionSocket ≠ -1) →
    wp (receive_data_loop os fuel) (fun r _ => r ≠ .error (.assertion_failed x)) w := by
  induction fuel with
  | zero => intro w _; simp [receive_data_loop]
  | succ fuel ih =>
    intro w hx
    simp only [receive_data_loop, wp_bind, wp_the_object, on_ok_ok, wp_ite, wp_pure,
      wp_syscall, wp_throw_runtime_error, wp_c_assert, wp_print_line, wp_on_object]
    cases hfull : is_receive_buffer_full w.dpi
    · simp only [Bool.not_false, if_true]
      cases hpoll : (os w.trace.length).poll
      · simp [PollResult.toInt]
      · simp [PollResult.toInt]
      · simp only [PollResult.toInt, show ¬ ((1 : Int) = -1) by decide,
          show ¬ ((1 : Int) = 0) by decide, beq_self_eq_true, if_true, if_false, on_ok_ok]
        cases hrecv : (os (w.trace ++ [Syscall.poll w.dpi.m_connectionSocket
            PollEvents.pollin]).length).recv
        · simp only [RecvResult.toInt, show ¬ ((-1 : Int) = 0) by decide, if_true, if_false]
          split <;> simp
        · simp only [RecvResult.toInt, if_true, close_current_connection, wp_bind,
            wp_the_object, on_ok_ok, wp_c_assert, wp_syscall, wp_assign, wp_print_line]
          rcases hx with hx | hx
          · subst hx
            repeat' split
            all_goals simp
          · repeat' split
            all_goals simp_all
        · simp only [RecvResult.toInt, show ¬ ((1 : Int) = -1) by decide,
            show ¬ ((1 : Int) = 0) by decide, beq_self_eq_true, if_true, if_false]
          generalize (os (w.trace ++ [Syscall.poll w.dpi.m_connectionSocket
            PollEvents.pollin]).length).recv_data = b
          have h1 : (enqueue_receive_byte w.dpi b).1 = .ok () := by
            simp [enqueue_receive_byte, hfull]
          have h2 : (enqueue_receive_byte w.dpi b).2.m_connectionSocket =
              w.dpi.m_connectionSocket := by
            simp [enqueue_receive_byte, hfull]
          rw [h1]
          simp only [on_ok_ok]
          exact ih _ (by rw [h2]; exact hx)
    · simp

/-! ## Lemmas on the bytes sent -/

theorem wp_and {α : Type} (m : Method α) (Q Q2 : Except Failure α → World → Prop) (w : World)
    (h : wp m Q w) (h2 : wp m Q2 w) : wp m (fun r w1 => Q r w1 ∧ Q2 r w1) w :=
  ⟨h, h2⟩

theorem sent_bytes_append (a b : List Syscall) :
    sent_bytes (a ++ b) = sent_bytes a ++ sent_bytes b := by
  simp [sent_bytes, List.filterMap_append]

theorem outgoing_length (d : uart_dpi) : (outgoing d).length = transmit_backlog d := by
  unfold outgoing transmit_backlog
  split <;> simp

theorem outgoing_eq_nil_iff (d : uart_dpi) (hok : BuffersOk d) (hcur : cursor_ok d) :
    outgoing d = [] ↔ (is_transmit_buffer_empty d = true ∧ d.m_welcome_message_pos = -1) := by
  rw [tx_empty_iff d hok]
  unfold outgoing
  by_cases hpos : d.m_welcome_message_pos = -1
  · simp [hpos]
  · rcases hcur with h | ⟨h1, h2⟩
    · exact absurd h hpos
    · simp only [hpos, if_false, List.append_eq_nil, List.drop_eq_nil_iff, and_false,
        iff_false, not_and]
      intro h
      omega

/-- The byte chosen is the first that is still to be sent. -/
theorem next_byte_to_send_outgoing (w : World) (hok : BuffersOk w.dpi)
    (hcur : cursor_ok w.dpi) (hz : 0 ∉ w.dpi.m_welcome_message)
    (hsome : is_transmit_buffer_empty w.dpi = false ∨ w.dpi.m_welcome_message_pos ≠ -1) :
    wp next_byte_to_send (fun r w1 =>
      ∃ b, r = .ok b ∧ outgoing w.dpi = b :: outgoing w1.dpi) w := by
  simp only [next_byte_to_send, wp_bind, wp_the_object, on_ok_ok, wp_ite, wp_assign, wp_pure,
    wp_on_object]
  by_cases hpos : w.dpi.m_welcome_message_pos = -1
  · simp only [hpos, ne_eq, not_true_eq_false, if_false]
    have hne : is_transmit_buffer_empty w.dpi = false := by
      rcases hsome with h | h
      · exact h
      · exact absurd hpos h
    obtain ⟨_, ⟨b, h2, h3⟩, _⟩ := deque_transmit_byte_ok w.dpi hok hne
    have hd : (deque_transmit_byte w.dpi).2.m_welcome_message_pos = -1 := by
      simp [deque_transmit_byte, hne, hpos]
    refine ⟨b, h2, ?_⟩
    show outgoing w.dpi = b :: outgoing (deque_transmit_byte w.dpi).2
    unfold outgoing
    rw [if_pos hpos, if_pos hd, h3]
    rfl
  · simp only [hpos, ne_eq, not_false_eq_true, if_true]
    have hcur2 : 0 ≤ w.dpi.m_welcome_message_pos ∧
        w.dpi.m_welcome_message_pos < w.dpi.m_welcome_message.length := by
      rcases hcur with h | h
      · exact absurd h hpos
      · exact h
    obtain ⟨i, hi⟩ : ∃ i : Nat, w.dpi.m_welcome_message_pos = (i : Int) :=
      ⟨w.dpi.m_welcome_message_pos.toNat, by omega⟩
    have hil : i < w.dpi.m_welcome_message.length := by omega
    have hi1 : (w.dpi.m_welcome_message_pos + 1).toNat = i + 1 := by omega
    have hi0 : w.dpi.m_welcome_message_pos.toNat = i := by omega
    have hdrop : w.dpi.m_welcome_message.drop i =
        w.dpi.m_welcome_message.getD i 0 :: w.dpi.m_welcome_message.drop (i + 1) := by
      rw [List.getD_eq_getElem _ _ hil]
      exact List.drop_eq_getElem_cons hil
    rw [hi1, hi0]
    split
    · next hzero =>
      have hend : w.dpi.m_welcome_message.length ≤ i + 1 := by
        by_contra hlt
        have hlt2 : i + 1 < w.dpi.m_welcome_message.length := by omega
        rw [List.getD_eq_getElem _ _ hlt2] at hzero
        exact hz (hzero ▸ List.getElem_mem hlt2)
      refine ⟨_, rfl, ?_⟩
      unfold outgoing
      simp only [hpos, if_false, if_true, hi0]
      rw [hdrop, List.drop_eq_nil_of_le hend]
      rfl
    · next hnz =>
      refine ⟨_, rfl, ?_⟩
      unfold outgoing
      have hne : ¬ (w.dpi.m_welcome_message_pos + 1 = -1) := by omega
      simp only [hpos, if_false, hi0, hne, hi1]
      rw [hdrop]
      rfl

/-- The transmit loop on a socket that stays writable: it returns after
sending all there is to send, in order. -/
theorem transmit_data_loop_sends (os : Os) (fuel : Nat) : ∀ (w : World), BuffersOk w.dpi →
    cursor_ok w.dpi → 0 ∉ w.dpi.m_welcome_message → (outgoing w.dpi).length < fuel →
    writable_during os w.trace.length (2 * (outgoing w.dpi).length) →
    wp (transmit_data_loop os fuel) (fun r w1 =>
      r = .ok () ∧ sent_bytes w1.trace = sent_bytes w.trace ++ outgoing w.dpi ∧
      outgoing w1.dpi = [] ∧ w1.dpi.m_welcome_message_pos = -1 ∧ BuffersOk w1.dpi ∧
      (∃ p pos, w1.dpi =
        { w.dpi with m_transmit_read_pointer := p, m_welcome_message_pos := pos })) w := by
  induction fuel with
  | zero => intro w _ _ _ h; omega
  | succ fuel ih =>
    intro w hok hcur hz hfuel hwr
    simp only [transmit_data_loop, wp_bind, wp_the_object, on_ok_ok, wp_ite, wp_pure,
      wp_syscall, wp_throw_runtime_error, wp_c_assert]
    by_cases hcond : (!is_transmit_buffer_empty w.dpi || w.dpi.m_welcome_message_pos != -1) = true
    · rw [if_pos hcond]
      have hsome : is_transmit_buffer_empty w.dpi = false ∨ w.dpi.m_welcome_message_pos ≠ -1 := by
        simpa using hcond
      have hne : outgoing w.dpi ≠ [] := by
        rw [Ne, outgoing_eq_nil_iff w.dpi hok hcur]
        rintro ⟨h1, h2⟩
        rcases hsome with h | h
        · rw [h1] at h; cases h
        · exact h h2
      have hlen : 0 < (outgoing w.dpi).length := List.length_pos.mpr hne
      have hpoll : (os w.trace.length).poll = .one_ready :=
        (hwr w.trace.length (Nat.le_refl _) (by omega)).1
      simp only [hpoll, PollResult.toInt, show ¬ ((1 : Int) = -1) by decide,
        show ¬ ((1 : Int) = 0) by decide, beq_self_eq_true, if_true, if_false, on_ok_ok]
      apply wp_mono _ _ _ _ (wp_and _ _ _ _
        (next_byte_to_send_spec
          { w with trace := w.trace ++ [Syscall.poll w.dpi.m_connectionSocket PollEvents.pollout] }
          hok hcur hsome)
        (next_byte_to_send_outgoing
          { w with trace := w.trace ++ [Syscall.poll w.dpi.m_connectionSocket PollEvents.pollout] }
          hok hcur hz hsome))
      rintro r w1 ⟨⟨_, ht, _, h1, h2, h3, _, _⟩, ⟨b, hb, hout⟩⟩
      subst hb
      have ht1 : w1.trace = w.trace ++ [Syscall.poll w.dpi.m_connectionSocket
          PollEvents.pollout] := ht
      have hout1 : outgoing w.dpi = b :: outgoing w1.dpi := hout
      have hwel : w1.dpi.m_welcome_message = w.dpi.m_welcome_message := by
        obtain ⟨p, pos, hd⟩ := h3
        rw [hd]
      have hsend : (os w1.trace.length).ok = true := by
        refine (hwr w1.trace.length ?_ ?_).2
        · rw [ht1]; simp
        · rw [ht1, hout1]; simp; omega
      simp only [on_ok_ok, send_byte, wp_bind, wp_the_object, wp_syscall, wp_ite,
        wp_throw_runtime_error, wp_pure, hsend, Bool.not_true, Bool.false_eq_true, if_false]
      apply wp_mono _ _ _ _ (ih
        { w1 with trace := w1.trace ++ [Syscall.send w1.dpi.m_connectionSocket b] }
        h1 h2 (by rw [hwel]; exact hz) (by
          show (outgoing w1.dpi).length < fuel
          rw [hout1] at hfuel
          simp at hfuel
          omega) (by
          intro n hn1 hn2
          refine hwr n ?_ ?_
          · have : (w1.trace ++ [Syscall.send w1.dpi.m_connectionSocket b]).length ≤ n := hn1
            rw [ht1] at this
            simp at this
            omega
          · have : n < (w1.trace ++ [Syscall.send w1.dpi.m_connectionSocket b]).length +
                2 * (outgoing w1.dpi).length := hn2
            rw [ht1] at this
            rw [hout1]
            simp at this ⊢
            omega))
      rintro r2 w2 ⟨c1, c2, c3, c4, c5, ⟨p2, pos2, c6⟩⟩
      refine ⟨c1, ?_, c3, c4, c5, ?_⟩
      · rw [c2]
        show sent_bytes (w1.trace ++ [Syscall.send w1.dpi.m_connectionSocket b]) ++ _ = _
        rw [ht1, hout1, sent_bytes_append, sent_bytes_append]
        simp [sent_bytes, sent_byte]
      · obtain ⟨p, pos, hd⟩ := h3
        refine ⟨p2, pos2, ?_⟩
        rw [c6]
        show ({ w1.dpi with m_transmit_read_pointer := p2, m_welcome_message_pos := pos2 }
          : uart_dpi) = _
        rw [hd]
    · rw [if_neg hcond]
      have hnil : outgoing w.dpi = [] := by
        rw [outgoing_eq_nil_iff w.dpi hok hcur]
        simpa using hcond
      have hpos : w.dpi.m_welcome_message_pos = -1 :=
        ((outgoing_eq_nil_iff w.dpi hok hcur).mp hnil).2
      refine ⟨by first | rfl | trivial, by rw [hnil]; simp, hnil, hpos, hok, ⟨_, _, rfl⟩⟩

/-- The transmit step on a socket that stays writable. -/
theorem transmit_data_sends (os : Os) (w : World) (hok : BuffersOk w.dpi)
    (hcur : cursor_ok w.dpi) (hz : 0 ∉ w.dpi.m_welcome_message)
    (hwr : writable_during os w.trace.length (2 * (outgoing w.dpi).length)) :
    wp (transmit_data os) (fun r w1 =>
      r = .ok () ∧ sent_bytes w1.trace = sent_bytes w.trace ++ outgoing w.dpi ∧
      outgoing w1.dpi = [] ∧ w1.dpi.m_welcome_message_pos = -1 ∧ BuffersOk w1.dpi ∧
      (∃ p pos, w1.dpi =
        { w.dpi with m_transmit_read_pointer := p, m_welcome_message_pos := pos })) w := by
  simp only [transmit_data, wp_bind, wp_the_object, on_ok_ok]
  have := transmit_backlog_le w.dpi hok
  exact transmit_data_loop_sends os _ w hok hcur hz
    (by rw [outgoing_length]; omega) hwr

/-- The receive loop sends nothing. -/
theorem receive_data_loop_sends_nothing (os : Os) (fuel : Nat) : ∀ (w : World),
    wp (receive_data_loop os fuel) (fun _ w1 => sent_bytes w1.trace = sent_bytes w.trace) w := by
  induction fuel with
  | zero => intro w; simp [receive_data_loop]
  | succ fuel ih =>
    intro w
    simp only [receive_data_loop, wp_bind, wp_the_object, on_ok_ok, wp_ite, wp_pure,
      wp_syscall, wp_throw_runtime_error, wp_c_assert, wp_print_line, wp_on_object]
    cases hfull : is_receive_buffer_full w.dpi
    · simp only [Bool.not_false, if_true]
      cases hpoll : (os w.trace.length).poll
      · simp [PollResult.toInt, sent_bytes, sent_byte]
      · simp [PollResult.toInt, sent_bytes, sent_byte]
      · simp only [PollResult.toInt, show ¬ ((1 : Int) = -1) by decide,
          show ¬ ((1 : Int) = 0) by decide, beq_self_eq_true, if_true, if_false, on_ok_ok]
        cases hrecv : (os (w.trace ++ [Syscall.poll w.dpi.m_connectionSocket
            PollEvents.pollin]).length).recv
        · simp only [RecvResult.toInt, show ¬ ((-1 : Int) = 0) by decide, if_true, if_false]
          split <;> simp [sent_bytes, sent_byte]
        · simp only [RecvResult.toInt, if_true, close_current_connection, wp_bind,
            wp_the_object, on_ok_ok, wp_c_assert, wp_syscall, wp_assign, wp_print_line]
          repeat' split
          all_goals simp [sent_bytes, sent_byte]
        · simp only [RecvResult.toInt, show ¬ ((1 : Int) = -1) by decide,
            show ¬ ((1 : Int) = 0) by decide, beq_self_eq_true, if_true, if_false]
          generalize (os (w.trace ++ [Syscall.poll w.dpi.m_connectionSocket
            PollEvents.pollin]).length).recv_data = b
          have h1 : (enqueue_receive_byte w.dpi b).1 = .ok () := by
            simp [enqueue_receive_byte, hfull]
          rw [h1]
          simp only [on_ok_ok]
          apply wp_mono _ _ _ _ (ih _)
          intro r2 w2 h2
          rw [h2]
          simp [sent_bytes, sent_byte]
    · simp

/-- The receive step sends nothing. -/
theorem receive_data_sends_nothing (os : Os) (w : World) :
    wp (receive_data os) (fun _ w1 => sent_bytes w1.trace = sent_bytes w.trace) w := by
  simp only [receive_data, wp_bind, wp_the_object, on_ok_ok]
  exact receive_data_loop_sends_nothing os _ w

theorem sends_nothing_bind {α β : Type} (m : Method α) (f : α → Method β)
    (hm : sends_nothing m) (hf : ∀ a, sends_nothing (f a)) : sends_nothing (m >>= f) := by
  intro w
  have hb : (m >>= f).run w =
      match m.run w with
      | (.ok a, w1) => (f a).run w1
      | (.error e, w1) => (.error e, w1) := rfl
  rw [hb]
  have h1 := hm w
  rcases hrun : m.run w with ⟨r, w1⟩
  rw [hrun] at h1
  cases r with
  | ok a => exact (hf a w1).trans h1
  | error e => exact h1

theorem sends_nothing_try_catch {α : Type} (body : Method α) (handler : What → Method α)
    (hm : sends_nothing body) (hf : ∀ what, sends_nothing (handler what)) :
    sends_nothing (try_catch body handler) := by
  intro w
  have hb : (try_catch body handler).run w =
      match body.run w with
      | (.error (.runtime_error what), w1) => (handler what).run w1
      | (r, w1) => (r, w1) := rfl
  rw [hb]
  have h1 := hm w
  rcases hrun : body.run w with ⟨r, w1⟩
  rw [hrun] at h1
  rcases r with e | a
  · cases e with
    | runtime_error what => exact (hf what w1).trans h1
    | assertion_failed x => exact h1
    | out_of_fuel => exact h1
  · exact h1

theorem sends_nothing_ite {α : Type} (c : Prop) [Decidable c] (a b : Method α)
    (ha : sends_nothing a) (hb : sends_nothing b) : sends_nothing (if c then a else b) := by
  split
  · exact ha
  · exact hb

theorem sends_nothing_pure {α : Type} (a : α) : sends_nothing (pure a : Method α) :=
  fun _ => rfl

theorem sends_nothing_the_object : sends_nothing the_object := fun _ => rfl

theorem sends_nothing_assign (f : uart_dpi → uart_dpi) : sends_nothing (assign f) :=
  fun _ => rfl

theorem sends_nothing_on_object {α : Type} (f : uart_dpi → Except Failure α × uart_dpi) :
    sends_nothing (on_object f) := fun _ => rfl

theorem sends_nothing_print_line (e : LogEvent) : sends_nothing (print_line e) :=
  fun _ => rfl

theorem sends_nothing_throw_runtime_error {α : Type} (what : What) :
    sends_nothing (throw_runtime_error what : Method α) := fun _ => rfl

theorem sends_nothing_c_assert (cond : Bool) (expr : String) :
    sends_nothing (c_assert cond expr) := by
  intro w
  unfold c_assert Method.run
  cases cond <;> rfl

theorem sends_nothing_syscall (os : Os) (c : Syscall) (h : sent_byte c = none) :
    sends_nothing (syscall os c) := by
  intro w
  show sent_bytes (w.trace ++ [c]) = sent_bytes w.trace
  rw [sent_bytes_append]
  simp [sent_bytes, h]

theorem close_current_connection_sends_nothing (os : Os) :
    sends_nothing (close_current_connection os) := by
  unfold close_current_connection
  repeat' first
    | exact sends_nothing_pure _
    | exact sends_nothing_the_object
    | exact sends_nothing_assign _
    | exact sends_nothing_c_assert _ _
    | exact sends_nothing_syscall _ _ rfl
    | apply sends_nothing_bind
    | intro _

theorem close_listening_socket_sends_nothing (os : Os) :
    sends_nothing (close_listening_socket os) := by
  unfold close_listening_socket
  repeat' first
    | exact sends_nothing_pure _
    | exact sends_nothing_the_object
    | exact sends_nothing_assign _
    | exact sends_nothing_c_assert _ _
    | exact sends_nothing_syscall _ _ rfl
    | apply sends_nothing_bind
    | intro _

theorem ip_address_to_text_sends_nothing (os : Os) :
    sends_nothing (ip_address_to_text os) := by
  unfold ip_address_to_text
  repeat' first
    | exact sends_nothing_pure _
    | exact sends_nothing_throw_runtime_error _
    | exact sends_nothing_syscall _ _ rfl
    | apply sends_nothing_bind
    | split
    | intro _

theorem print_listening_message_once_sends_nothing (os : Os) :
    sends_nothing (print_listening_message_once os) := by
  unfold print_listening_message_once
  repeat' first
    | exact sends_nothing_pure _
    | exact sends_nothing_the_object
    | exact sends_nothing_assign _
    | exact sends_nothing_print_line _
    | exact ip_address_to_text_sends_nothing os
    | apply sends_nothing_bind
    | apply sends_nothing_ite
    | intro _

theorem create_listening_socket_try_sends_nothing (os : Os) :
    sends_nothing (create_listening_socket_try os) := by
  unfold create_listening_socket_try
  repeat' first
    | exact sends_nothing_pure _
    | exact sends_nothing_the_object
    | exact sends_nothing_throw_runtime_error _
    | exact sends_nothing_syscall _ _ rfl
    | exact print_listening_message_once_sends_nothing os
    | apply sends_nothing_bind
    | apply sends_nothing_ite
    | intro _

theorem create_listening_socket_sends_nothing (os : Os) :
    sends_nothing (create_listening_socket os) := by
  unfold create_listening_socket
  repeat' first
    | exact sends_nothing_pure _
    | exact sends_nothing_the_object
    | exact sends_nothing_assign _
    | exact sends_nothing_c_assert _ _
    | exact sends_nothing_throw_runtime_error _
    | exact sends_nothing_syscall _ _ rfl
    | exact create_listening_socket_try_sends_nothing os
    | exact close_listening_socket_sends_nothing os
    | apply sends_nothing_bind
    | apply sends_nothing_ite
    | apply sends_nothing_try_catch
    | intro _

theorem accept_connection_try_sends_nothing (os : Os) (connectionSocket : Int) (ra : OsReply) :
    sends_nothing (accept_connection_try os connectionSocket ra) := by
  unfold accept_connection_try
  repeat' first
    | exact sends_nothing_pure _
    | exact sends_nothing_the_object
    | exact sends_nothing_print_line _
    | exact sends_nothing_throw_runtime_error _
    | exact ip_address_to_text_sends_nothing os
    | apply sends_nothing_bind
    | apply sends_nothing_ite
    | intro _

theorem accept_pending_connection_sends_nothing (os : Os) :
    sends_nothing (accept_pending_connection os) := by
  unfold accept_pending_connection
  repeat' first
    | exact sends_nothing_pure _
    | exact sends_nothing_the_object
    | exact sends_nothing_assign _
    | exact sends_nothing_print_line _
    | exact sends_nothing_syscall _ _ rfl
    | exact accept_connection_try_sends_nothing os _ _
    | exact close_listening_socket_sends_nothing os
    | apply sends_nothing_bind
    | apply sends_nothing_ite
    | apply sends_nothing_try_catch
    | intro _

theorem accept_connection_sends_nothing (os : Os) :
    sends_nothing (accept_connection os) := by
  unfold accept_connection
  repeat' first
    | exact sends_nothing_pure _
    | exact sends_nothing_the_object
    | exact sends_nothing_c_assert _ _
    | exact sends_nothing_throw_runtime_error _
    | exact sends_nothing_syscall _ _ rfl
    | exact accept_pending_connection_sends_nothing os
    | apply sends_nothing_bind
    | apply sends_nothing_ite
    | intro _

theorem accept_eventual_incoming_connection_sends_nothing (os : Os) :
    sends_nothing (accept_eventual_incoming_connection os) := by
  unfold accept_eventual_incoming_connection
  repeat' first
    | exact sends_nothing_pure _
    | exact sends_nothing_the_object
    | exact create_listening_socket_sends_nothing os
    | exact accept_connection_sends_nothing os
    | apply sends_nothing_bind
    | apply sends_nothing_ite
    | intro _

theorem wp_self {α : Type} (m : Method α) (w : World) :
    wp m (fun r w1 => r = (m.run w).1 ∧ w1 = (m.run w).2) w :=
  ⟨rfl, rfl⟩

theorem wp_of_sends_nothing {α : Type} (m : Method α) (h : sends_nothing m) (w : World) :
    wp m (fun _ w1 => sent_bytes w1.trace = sent_bytes w.trace) w :=
  h w

/-- A connection accepted by `accept_eventual_incoming_connection` starts
with the welcome cursor at the start of the welcome message. -/
theorem accept_eventual_incoming_connection_cursor (os : Os) (w : World)
    (hc : w.dpi.m_connectionSocket = -1) :
    wp (accept_eventual_incoming_connection os) (fun _ w1 =>
      w1.dpi.m_connectionSocket ≠ -1 →
        w1.dpi.m_welcome_message_pos =
          if w.dpi.m_welcome_message.isEmpty then -1 else 0) w := by
  simp only [accept_eventual_incoming_connection, wp_bind, wp_the_object, on_ok_ok, wp_ite,
    wp_pure]
  rw [if_pos hc]
  have key : ∀ (w0 : World), w0.dpi.m_listening_socket ≠ -1 →
      w0.dpi.m_connectionSocket = -1 →
      w0.dpi.m_welcome_message = w.dpi.m_welcome_message →
      wp (accept_connection os) (fun _ w1 =>
        w1.dpi.m_connectionSocket ≠ -1 →
          w1.dpi.m_welcome_message_pos =
            if w.dpi.m_welcome_message.isEmpty then -1 else 0) w0 := by
    intro w0 hl0 hc0 hw0
    apply wp_mono _ _ _ _ (accept_connection_spec os w0 hl0)
    rintro r w1 ⟨_, hd⟩ hne
    rcases hd with hd | ⟨_, c, _, hd⟩
    · rw [hd] at hne
      exact absurd hc0 hne
    · rw [hd, ← hw0]
  by_cases hl : w.dpi.m_listening_socket = -1
  · rw [if_pos hl]
    apply wp_mono _ _ _ _ (create_listening_socket_spec os w hl)
    rintro r w1 ⟨l, p, hd, hr⟩
    rcases hr with ⟨hr, hl1, _⟩ | ⟨what, hr, _, _⟩
    · subst hr
      simp only [on_ok_ok]
      exact key w1 (by rw [hd]; exact hl1) (by rw [hd]; exact hc) (by rw [hd])
    · subst hr
      simp only [on_ok_error]
      intro hne
      rw [hd] at hne
      exact absurd hc hne
  · rw [if_neg hl]
    exact key w hl hc rfl

/-- The transfer of one tick on a socket that stays writable: all there is
to send is sent, in order, and nothing else. -/
theorem transfer_or_drop_sends (os : Os) (w : World) (hinv : engine_inv w.dpi)
    (hconn : w.dpi.m_connectionSocket ≠ -1) (hz : 0 ∉ w.dpi.m_welcome_message)
    (hwr : writable_during os w.trace.length (2 * (outgoing w.dpi).length)) :
    wp (transfer_or_drop os) (fun _ w1 =>
      sent_bytes w1.trace = sent_bytes w.trace ++ outgoing w.dpi ∧
      w1.dpi.m_welcome_message_pos = -1 ∧ transmit_pending w1.dpi = []) w := by
  obtain ⟨hok, _, hcur, _⟩ := hinv
  simp only [transfer_or_drop, wp_try_catch, wp_bind]
  apply wp_mono _ _ _ _ (transmit_data_sends os w hok (hcur hconn) hz hwr)
  rintro r w1 ⟨a1, a2, a3, a4, a5, ⟨p, pos, a6⟩⟩
  subst a1
  have hc1 : w1.dpi.m_connectionSocket ≠ -1 := by rw [a6]; exact hconn
  have hp1 : transmit_pending w1.dpi = [] := by
    unfold outgoing at a3
    exact (List.append_eq_nil.mp a3).2
  simp only [on_ok_ok]
  apply wp_mono _ _ _ _ (wp_and _ _ _ _ (receive_data_spec os w1 a5 hc1)
    (receive_data_sends_nothing os w1))
  rintro r2 w2 ⟨⟨b1, _, ⟨buf, q, c, b3⟩, b4, _⟩, hs⟩
  have hpos2 : w2.dpi.m_welcome_message_pos = -1 := by rw [b3]; exact a4
  have hp2 : transmit_pending w2.dpi = [] := by rw [b3]; exact hp1
  have hs2 : sent_bytes w2.trace = sent_bytes w.trace ++ outgoing w.dpi := by
    rw [← a2]; exact hs
  rcases r2 with e | u
  · cases e with
    | runtime_error what =>
      have hc2 : w2.dpi.m_connectionSocket ≠ -1 := by
        rcases b4 with h | ⟨h, _⟩
        · rw [h]; exact hc1
        · cases h
      simp only [on_caught_runtime_error, wp_bind, wp_print_line, on_ok_ok]
      refine wp_of_close_current_connection _ _ _ hc2 ?_
      refine ⟨?_, hpos2, hp2⟩
      show sent_bytes (w2.trace ++ [Syscall.close w2.dpi.m_connectionSocket]) = _
      rw [sent_bytes_append, hs2]
      simp [sent_bytes, sent_byte]
    | assertion_failed x => exact absurd b1 (by simp [returns_or_raises])
    | out_of_fuel => exact absurd b1 (by simp [returns_or_raises])
  · simp only [on_caught_ok]
    exact ⟨hs2, hpos2, hp2⟩

/-! ## Theorems on the ring buffers -/

/-- C1. FIFO round trip for both ring buffers.  On an engine constructed
with valid sizes, every interleaving of enqueues (`enqueue_receive_byte`,
`send_char`) and dequeues (`deque_receive_byte`, `receive`,
`deque_transmit_byte`) that never has more than capacity - 1 bytes in
flight and never dequeues with nothing in flight runs to its end, and for
each buffer the bytes dequeued are a prefix of the bytes enqueued, in the same
order: they are the first bytes enqueued, as many as there were dequeues,
and the bytes enqueued after them are those still in the buffer. -/
theorem fifo_round_trip (os : Os) (garbage : uart_dpi) (tcp_port : Int)
    (listen_on_local_addr_only : Nat) (transmit_buffer_size : Int) (receive_buffer_size : Int)
    (welcome_message : Option (List Nat)) (print_informational_messages : Nat)
    ( informational_message_prefix : Option String) (w : World) (ops : List BufferOp)
    (hnew : uart_dpi_new os garbage tcp_port listen_on_local_addr_only transmit_buffer_size
      receive_buffer_size welcome_message print_informational_messages
      informational_message_prefix = (.ok (), w))
    (htx : transmit_buffer_size < 2 ^ 31) (hrx : receive_buffer_size < 2 ^ 31)
    (hops : within_capacity w.dpi.m_receive_buffer_size w.dpi.m_transmit_buffer_size 0 0 ops
      = true) :
    ∃ rx_out tx_out,
      (run_ops ops w.dpi [] []).1 = .ok (rx_out, tx_out) ∧
      rx_out <+: enqueued_receive ops ∧ tx_out <+: enqueued_transmit ops ∧
      rx_out = (enqueued_receive ops).take (dequeues_receive ops) ∧
      tx_out = (enqueued_transmit ops).take (dequeues_transmit ops) ∧
      rx_out ++ receive_pending (run_ops ops w.dpi [] []).2 = enqueued_receive ops ∧
      tx_out ++ transmit_pending (run_ops ops w.dpi [] []).2 = enqueued_transmit ops := by
  obtain ⟨hok, hr, ht, _, _⟩ := uart_dpi_new_buffers os garbage tcp_port
    listen_on_local_addr_only transmit_buffer_size receive_buffer_size welcome_message
    print_informational_messages informational_message_prefix w hnew htx hrx
  have hops2 : within_capacity w.dpi.m_receive_buffer_size w.dpi.m_transmit_buffer_size
      (receive_pending w.dpi).length (transmit_pending w.dpi).length ops = true := by
    rw [hr, ht]; exact hops
  obtain ⟨ro, tq, g1, _, _, g4, g5, g6, g7⟩ :=
    run_ops_spec _ _ ops w.dpi [] [] hok rfl hops2
  rw [hr] at g4
  rw [ht] at g5
  simp only [List.nil_append] at g1 g4 g5
  refine ⟨ro, tq, g1, ⟨_, g4⟩, ⟨_, g5⟩, ?_, ?_, g4, g5⟩
  · rw [← g4, ← g6, List.take_left']
    rfl
  · rw [← g5, ← g7, List.take_left']
    rfl

/-- Witness for C1: the sample engine, with a run that fills the receive
buffer, empties it and goes round the end of both buffers. -/
theorem fifo_round_trip_witness :
    ∃ rx_out tx_out,
      (run_ops
        ((List.range 16).map BufferOp.enqueue_receive_byte ++
          List.replicate 16 BufferOp.receive ++
          [.send_char 1, .send_char 2, .deque_transmit_byte, .enqueue_receive_byte 7,
            .enqueue_receive_byte 8, .deque_receive_byte])
        sample_new.2.dpi [] []).1 = .ok (rx_out, tx_out) ∧
      rx_out <+: enqueued_receive
        ((List.range 16).map BufferOp.enqueue_receive_byte ++
          List.replicate 16 BufferOp.receive ++
          [.send_char 1, .send_char 2, .deque_transmit_byte, .enqueue_receive_byte 7,
            .enqueue_receive_byte 8, .deque_receive_byte]) ∧
      tx_out <+: enqueued_transmit
        ((List.range 16).map BufferOp.enqueue_receive_byte ++
          List.replicate 16 BufferOp.receive ++
          [.send_char 1, .send_char 2, .deque_transmit_byte, .enqueue_receive_byte 7,
            .enqueue_receive_byte 8, .deque_receive_byte]) :=
  have h := fifo_round_trip obliging zeroed 5678 1 16 16 (some [0x48, 0x49]) 0 none
    sample_new.2
    ((List.range 16).map BufferOp.enqueue_receive_byte ++
      List.replicate 16 BufferOp.receive ++
      [.send_char 1, .send_char 2, .deque_transmit_byte, .enqueue_receive_byte 7,
        .enqueue_receive_byte 8, .deque_receive_byte])
    (by rfl) (by decide) (by decide) (by decide)
  let ⟨ro, tq, h1, h2, h3, _⟩ := h
  ⟨ro, tq, h1, h2, h3⟩

/-- C2. `send_char` on a full transmit buffer evicts exactly the oldest
pending byte and appends the new one.  On buffers in order `send_char`
returns (no exception, and the assertion after the eviction holds); if the
transmit buffer holds b1, rest with capacity - 1 bytes in all, it was full,
it then holds rest followed by the new byte, and it is full again; if it
holds fewer than capacity - 1 bytes bs, it was not full and then holds bs
followed by the new byte. -/
theorem send_char_evicts_oldest (s : uart_dpi) (c : Nat) (h : BuffersOk s) :
    (send_char s c).1 = .ok () ∧
    (∀ b1 rest, transmit_pending s = b1 :: rest →
      (b1 :: rest).length = s.m_transmit_buffer_size - 1 →
        is_transmit_buffer_full s = true ∧
        transmit_pending (send_char s c).2 = rest ++ [c] ∧
        is_transmit_buffer_full (send_char s c).2 = true) ∧
    (∀ bs, transmit_pending s = bs → bs.length < s.m_transmit_buffer_size - 1 →
        is_transmit_buffer_full s = false ∧
        transmit_pending (send_char s c).2 = bs ++ [c]) := by
  obtain ⟨h1, h2, h3, _⟩ := send_char_spec s c h
  have hcap : (send_char s c).2.m_transmit_buffer_size = s.m_transmit_buffer_size :=
    congrArg Prod.snd (send_char_capacities s c)
  refine ⟨h1, ?_, ?_⟩
  · intro b1 rest hp hlen
    have hfull : is_transmit_buffer_full s = true := (tx_full_iff s h).2 (by rw [hp]; exact hlen)
    rw [hfull, if_pos rfl, hp] at h3
    refine ⟨hfull, h3, (tx_full_iff _ h2).2 ?_⟩
    rw [h3, hcap, ← hlen]; simp
  · intro bs hp hlen
    have hnf : is_transmit_buffer_full s = false := by
      cases hf : is_transmit_buffer_full s
      · rfl
      · have := (tx_full_iff s h).1 hf; rw [hp] at this; omega
    rw [hnf, hp] at h3
    exact ⟨hnf, by simpa using h3⟩


/-- Witness for C2: the sample engine with a full transmit buffer. -/
theorem send_char_evicts_oldest_witness :
    BuffersOk sample_full_transmit ∧
    is_transmit_buffer_full sample_full_transmit = true ∧
    (send_char sample_full_transmit 0x42).1 = .ok () ∧
    transmit_pending (send_char sample_full_transmit 0x42).2 =
      [2, 3, 4, 5, 6, 7, 8, 9, 10, 11, 12, 13, 14, 15, 16, 0x42] :=
  ⟨by decide, by decide, (send_char_evicts_oldest sample_full_transmit 0x42 (by decide)).1,
    by decide⟩

/-- C4. Consumer-side dequeue.  In every state `receive` raises if and
only if the receive buffer is empty, the exception is "The receive buffer
is empty." and the state is left as it was.  On buffers in order the
receive buffer is empty exactly when no byte is waiting, and when bytes
b, rest are waiting `receive` returns b, leaves rest waiting in the same
order, the byte count goes from the length of rest plus one to the
length of rest, and the transmit buffer is untouched. -/
theorem receive_raises_iff_empty (s : uart_dpi) :
    ((∃ e, (receive s).1 = .error e) ↔ is_receive_buffer_empty s = true) ∧
    (is_receive_buffer_empty s = true →
      (receive s).1 = .error (.runtime_error (.text "The receive buffer is empty.")) ∧
      (receive s).2 = s) ∧
    (BuffersOk s →
      (is_receive_buffer_empty s = true ↔ receive_pending s = []) ∧
      (∀ b rest, receive_pending s = b :: rest →
        (receive s).1 = .ok b ∧
        receive_pending (receive s).2 = rest ∧
        get_received_byte_count s = .ok ((rest.length : Int) + 1) ∧
        get_received_byte_count (receive s).2 = .ok (rest.length : Int) ∧
        transmit_pending (receive s).2 = transmit_pending s)) := by
  refine ⟨?_, ?_, ?_⟩
  · constructor
    · rintro ⟨e, he⟩
      cases hb : is_receive_buffer_empty s
      · simp [receive, deque_receive_byte, hb] at he
      · rfl
    · intro hb
      exact ⟨.runtime_error (.text "The receive buffer is empty."), by simp [receive, hb]⟩
  · intro hb
    simp [receive, hb]
  · intro h
    have hemp := rx_empty_iff s h
    have hnil : is_receive_buffer_empty s = true ↔ receive_pending s = [] := by
      rw [hemp]; exact List.length_eq_zero
    refine ⟨hnil, ?_⟩
    intro b rest hp
    have hb : is_receive_buffer_empty s = false := by
      cases hb : is_receive_buffer_empty s
      · rfl
      · have := hnil.1 hb; rw [hp] at this; cases this
    obtain ⟨hok, ⟨b2, hb1, hb2⟩, htx⟩ := receive_ok s h hb
    rw [hp] at hb2
    injection hb2 with e1 e2
    subst e1
    refine ⟨hb1, e2.symm, ?_, ?_, htx⟩
    · rw [get_received_byte_count_eq s h, hp]; simp
    · rw [get_received_byte_count_eq _ hok, ← e2]

/-- Witness for C4: the sample engine with the bytes 7 and 8 received. -/
theorem receive_raises_iff_empty_witness :
    BuffersOk sample_received ∧ receive_pending sample_received = [7, 8] ∧
    (receive sample_received).1 = .ok 7 ∧
    receive_pending (receive sample_received).2 = [8] ∧
    get_received_byte_count sample_received = .ok 2 ∧
    get_received_byte_count (receive sample_received).2 = .ok 1 :=
  have h := ((receive_raises_iff_empty sample_received).2.2 (by decide)).2 7 [8] (by decide)
  ⟨by decide, by decide, h.1, h.2.1, h.2.2.1, h.2.2.2.1⟩

/-- C3, as stated, fails.  A transmit buffer with 15 usable slots (16
slots) that is sent the bytes 1 to 17 hands out 3 to 17, not 2 to 17: two
bytes were evicted.  The engine configured with transmit buffer size 16
has 17 slots, 16 of them usable: it holds the bytes 1 to 16 without
evicting any.  And the constructor rejects the size 15 that would give 16
slots. -/
theorem transmit_overflow_counterexample :
    ¬ (∀ s : uart_dpi, BuffersOk s → transmit_pending s = [] →
        s.m_transmit_buffer_size - 1 = 15 →
        ∀ bs : List Nat, bs.length = 17 →
          drain_transmit s.m_transmit_buffer_size (send_chars bs s).2 = bs.tail) ∧
    (sample_new.1 = .ok () ∧ sample_new.2.dpi.m_transmit_buffer_size - 1 = 16 ∧
      transmit_pending (send_chars (List.range' 1 16) sample_new.2.dpi).2 = List.range' 1 16) ∧
    (uart_dpi_new obliging zeroed 5678 1 15 16 (some [0x48, 0x49]) 0 none).1 =
      .error (.runtime_error (.text "Invalid transmit buffer size.")) := by
  refine ⟨?_, ⟨by rfl, by decide, by decide⟩, by rfl⟩
  intro hclaim
  have h := hclaim sample_fifteen_slots (by decide) (by decide) (by decide)
    (List.range' 1 17) (by decide)
  revert h
  decide

/-- C3, amended.  On an engine constructed with transmit buffer size 16
the transmit buffer has 17 slots, 16 of them usable.  Sending 17 bytes
b1..b17 with `send_char` and no drain in between never fails, evicts b1
only, and the dequeue sequence is then b2..b17 in order. -/
theorem transmit_overflow_sixteen (os : Os) (garbage : uart_dpi) (tcp_port : Int)
    (listen_on_local_addr_only : Nat) (receive_buffer_size : Int)
    (welcome_message : Option (List Nat)) (print_informational_messages : Nat)
    ( informational_message_prefix : Option String) (w : World) (bs : List Nat)
    (hnew : uart_dpi_new os garbage tcp_port listen_on_local_addr_only 16
      receive_buffer_size welcome_message print_informational_messages
      informational_message_prefix = (.ok (), w))
    (hrx : receive_buffer_size < 2 ^ 31) (hbs : bs.length = 17) :
    w.dpi.m_transmit_buffer_size = 17 ∧
    (send_chars bs w.dpi).1 = .ok () ∧
    transmit_pending (send_chars (bs.take 16) w.dpi).2 = bs.take 16 ∧
    drain_transmit 17 (send_chars bs w.dpi).2 = bs.tail := by
  obtain ⟨hok, _, ht, _, hsz⟩ := uart_dpi_new_buffers os garbage tcp_port
    listen_on_local_addr_only 16 receive_buffer_size welcome_message
    print_informational_messages informational_message_prefix w hnew (by decide) hrx
  have hsz17 : w.dpi.m_transmit_buffer_size = 17 := by rw [hsz]; rfl
  obtain ⟨g1, g2, _, g4, _⟩ := send_chars_spec bs w.dpi hok
  obtain ⟨_, _, _, f4, _⟩ := send_chars_spec (bs.take 16) w.dpi hok
  rw [ht, hsz17] at g4 f4
  simp only [List.nil_append, hbs] at g4
  have f5 : ((bs.take 16).length - (17 - 1)) = 0 := by
    simp only [List.length_take, hbs]; omega
  simp only [List.nil_append, f5, List.drop_zero] at f4
  refine ⟨hsz17, g1, f4, ?_⟩
  rw [drain_transmit_eq 17 _ g2 (by rw [g4]; simp [hbs]), g4]
  cases bs with
  | nil => cases hbs
  | cons b rest => rfl

/-- Witness for C3, amended: the sample engine and the bytes 1 to 17. -/
theorem transmit_overflow_sixteen_witness :
    sample_new.2.dpi.m_transmit_buffer_size = 17 ∧
    (send_chars (List.range' 1 17) sample_new.2.dpi).1 = .ok () ∧
    transmit_pending (send_chars ((List.range' 1 17).take 16) sample_new.2.dpi).2 =
      (List.range' 1 17).take 16 ∧
    drain_transmit 17 (send_chars (List.range' 1 17) sample_new.2.dpi).2 =
      (List.range' 1 17).tail :=
  transmit_overflow_sixteen obliging zeroed 5678 1 16 (some [0x48, 0x49]) 0 none sample_new.2
    (List.range' 1 17) (by rfl) (by decide) (by decide)

/-- C10. Full and empty thresholds.  Take buffers in order, C the capacity
of the receive buffer, the receive buffer empty, and C - 1 bytes bs.  After
the first k of them are enqueued (k at most C - 1) the buffer reports full
exactly when k = C - 1 and empty exactly when k = 0; after all of them are
enqueued and j of them dequeued (j at most C - 1) the j bytes come out in
order, the buffer reports empty exactly when j = C - 1 and full exactly
when j = 0.  The same holds of the transmit buffer with `send_char` and
`deque_transmit_byte`. -/
theorem full_empty_thresholds (s : uart_dpi) (bs : List Nat) (h : BuffersOk s) :
    (is_receive_buffer_empty s = true → bs.length = s.m_receive_buffer_size - 1 →
      (∀ k, k ≤ bs.length →
        (run_ops ((bs.take k).map .enqueue_receive_byte) s [] []).1 = .ok ([], []) ∧
        (is_receive_buffer_full
          (run_ops ((bs.take k).map .enqueue_receive_byte) s [] []).2 = true ↔
            k = bs.length) ∧
        (is_receive_buffer_empty
          (run_ops ((bs.take k).map .enqueue_receive_byte) s [] []).2 = true ↔ k = 0)) ∧
      (∀ j, j ≤ bs.length →
        (run_ops (bs.map .enqueue_receive_byte ++ List.replicate j .deque_receive_byte)
          s [] []).1 = .ok (bs.take j, []) ∧
        (is_receive_buffer_empty
          (run_ops (bs.map .enqueue_receive_byte ++ List.replicate j .deque_receive_byte)
            s [] []).2 = true ↔ j = bs.length) ∧
        (is_receive_buffer_full
          (run_ops (bs.map .enqueue_receive_byte ++ List.replicate j .deque_receive_byte)
            s [] []).2 = true ↔ j = 0))) ∧
    (is_transmit_buffer_empty s = true → bs.length = s.m_transmit_buffer_size - 1 →
      (∀ k, k ≤ bs.length →
        (run_ops ((bs.take k).map .send_char) s [] []).1 = .ok ([], []) ∧
        (is_transmit_buffer_full
          (run_ops ((bs.take k).map .send_char) s [] []).2 = true ↔ k = bs.length) ∧
        (is_transmit_buffer_empty
          (run_ops ((bs.take k).map .send_char) s [] []).2 = true ↔ k = 0)) ∧
      (∀ j, j ≤ bs.length →
        (run_ops (bs.map .send_char ++ List.replicate j .deque_transmit_byte)
          s [] []).1 = .ok ([], bs.take j) ∧
        (is_transmit_buffer_empty
          (run_ops (bs.map .send_char ++ List.replicate j .deque_transmit_byte)
            s [] []).2 = true ↔ j = bs.length) ∧
        (is_transmit_buffer_full
          (run_ops (bs.map .send_char ++ List.replicate j .deque_transmit_byte)
            s [] []).2 = true ↔ j = 0))) := by
  have hr1 : 1 < s.m_receive_buffer_size := h.1.1
  have ht1 : 1 < s.m_transmit_buffer_size := h.2.1
  constructor
  · intro he hlen
    have hp : receive_pending s = [] := List.length_eq_zero.1 ((rx_empty_iff s h).1 he)
    constructor
    · intro k hk
      have hk2 : (bs.take k).length = k := by simp [List.length_take]; omega
      have f := fill_drain_receive s h hp (bs.take k) 0 (by omega) (by omega)
      simp only [List.replicate_zero, List.append_nil, List.take_zero] at f
      obtain ⟨f1, f2, f3, f4⟩ := f
      have hc : (run_ops ((bs.take k).map .enqueue_receive_byte) s [] []).2.m_receive_buffer_size
          = s.m_receive_buffer_size := congrArg Prod.fst f3
      refine ⟨f1, ?_, ?_⟩
      · rw [rx_full_iff _ f2, f4, hc]; omega
      · rw [rx_empty_iff _ f2, f4]; omega
    · intro j hj
      obtain ⟨f1, f2, f3, f4⟩ := fill_drain_receive s h hp bs j (by omega) hj
      have hc : (run_ops (bs.map .enqueue_receive_byte ++
          List.replicate j .deque_receive_byte) s [] []).2.m_receive_buffer_size
          = s.m_receive_buffer_size := congrArg Prod.fst f3
      refine ⟨f1, ?_, ?_⟩
      · rw [rx_empty_iff _ f2, f4]; omega
      · rw [rx_full_iff _ f2, f4, hc]; omega
  · intro he hlen
    have hp : transmit_pending s = [] := List.length_eq_zero.1 ((tx_empty_iff s h).1 he)
    constructor
    · intro k hk
      have hk2 : (bs.take k).length = k := by simp [List.length_take]; omega
      have f := fill_drain_transmit s h hp (bs.take k) 0 (by omega) (by omega)
      simp only [List.replicate_zero, List.append_nil, List.take_zero] at f
      obtain ⟨f1, f2, f3, f4⟩ := f
      have hc : (run_ops ((bs.take k).map .send_char) s [] []).2.m_transmit_buffer_size
          = s.m_transmit_buffer_size := congrArg Prod.snd f3
      refine ⟨f1, ?_, ?_⟩
      · rw [tx_full_iff _ f2, f4, hc]; omega
      · rw [tx_empty_iff _ f2, f4]; omega
    · intro j hj
      obtain ⟨f1, f2, f3, f4⟩ := fill_drain_transmit s h hp bs j (by omega) hj
      have hc : (run_ops (bs.map .send_char ++
          List.replicate j .deque_transmit_byte) s [] []).2.m_transmit_buffer_size
          = s.m_transmit_buffer_size := congrArg Prod.snd f3
      refine ⟨f1, ?_, ?_⟩
      · rw [tx_empty_iff _ f2, f4]; omega
      · rw [tx_full_iff _ f2, f4, hc]; omega

/-- Witness for C10: the sample engine, capacity 17, and the bytes 1 to 16;
after 15 of them the receive buffer is not full, after 16 it is. -/
theorem full_empty_thresholds_witness :
    BuffersOk sample_new.2.dpi ∧ is_receive_buffer_empty sample_new.2.dpi = true ∧
    sample_new.2.dpi.m_receive_buffer_size = 17 ∧
    ¬ (is_receive_buffer_full
      (run_ops (((List.range' 1 16).take 15).map .enqueue_receive_byte)
        sample_new.2.dpi [] []).2 = true) ∧
    is_receive_buffer_full
      (run_ops (((List.range' 1 16).take 16).map .enqueue_receive_byte)
        sample_new.2.dpi [] []).2 = true :=
  have h := (full_empty_thresholds sample_new.2.dpi (List.range' 1 16) (by decide)).1
    (by decide) (by decide)
  ⟨by decide, by decide, by decide,
    fun hf => absurd ((h.1 15 (by decide)).2.1.1 hf) (by decide),
    (h.1 16 (by decide)).2.1.2 (by decide)⟩

/-! ## Theorems on construction -/

/-- C9. Construction validation.  When memory allocation and the setup of
the listening socket succeed, the constructor raises if and only if
tcp_port is zero, or listen_on_local_addr_only is not 0 or 1, or
print_informational_messages is not 0 or 1, or transmit_buffer_size < 16,
or receive_buffer_size < 16, and what it raises is one of the five
configuration errors.  When it succeeds both buffers are empty, the welcome
message is the given string (empty when absent), and, the sizes being
`int`s, each buffer's capacity is its configured size + 1, which is also
the size of its memory block. -/
theorem construction_validates (os : Os) (garbage : uart_dpi) (tcp_port : Int)
    (listen_on_local_addr_only : Nat) (transmit_buffer_size : Int) (receive_buffer_size : Int)
    (welcome_message : Option (List Nat)) (print_informational_messages : Nat)
    ( informational_message_prefix : Option String) (r : Except Failure Unit) (w : World)
    (hos : all_calls_succeed os)
    (hnew : uart_dpi_new os garbage tcp_port listen_on_local_addr_only transmit_buffer_size
      receive_buffer_size welcome_message print_informational_messages
      informational_message_prefix = (r, w)) :
    ((∃ e, r = .error e) ↔
      (tcp_port = 0 ∨
        (listen_on_local_addr_only ≠ 0 ∧ listen_on_local_addr_only ≠ 1) ∨
        (print_informational_messages ≠ 0 ∧ print_informational_messages ≠ 1) ∨
        transmit_buffer_size < 16 ∨ receive_buffer_size < 16)) ∧
    ((∃ e, r = .error e) →
      ∃ msg, msg ∈ configuration_errors ∧ r = .error (.runtime_error (.text msg))) ∧
    (r = .ok () →
      is_receive_buffer_empty w.dpi = true ∧ is_transmit_buffer_empty w.dpi = true ∧
      w.dpi.m_welcome_message = welcome_message.getD [] ∧
      (receive_buffer_size < 2 ^ 31 →
        (w.dpi.m_receive_buffer_size : Int) = receive_buffer_size + 1 ∧
        w.dpi.m_receive_buffer.length = w.dpi.m_receive_buffer_size) ∧
      (transmit_buffer_size < 2 ^ 31 →
        (w.dpi.m_transmit_buffer_size : Int) = transmit_buffer_size + 1 ∧
        w.dpi.m_transmit_buffer.length = w.dpi.m_transmit_buffer_size)) := by
  have h1 := uart_dpi_body_spec os tcp_port listen_on_local_addr_only transmit_buffer_size
    receive_buffer_size welcome_message print_informational_messages
    informational_message_prefix { dpi := unassigned garbage, trace := [], log := [] }
  have h2 := uart_dpi_body_validates os tcp_port listen_on_local_addr_only
    transmit_buffer_size receive_buffer_size welcome_message print_informational_messages
    informational_message_prefix { dpi := unassigned garbage, trace := [], log := [] } hos
  unfold wp at h1 h2
  unfold uart_dpi_new at hnew
  rw [hnew] at h1 h2
  simp only at h1 h2
  obtain ⟨_, h1⟩ := h1
  obtain ⟨h2, h3⟩ := h2
  have hvalid : valid_arguments tcp_port listen_on_local_addr_only transmit_buffer_size
      receive_buffer_size print_informational_messages ↔
      ¬ (tcp_port = 0 ∨
        (listen_on_local_addr_only ≠ 0 ∧ listen_on_local_addr_only ≠ 1) ∨
        (print_informational_messages ≠ 0 ∧ print_informational_messages ≠ 1) ∨
        transmit_buffer_size < 16 ∨ receive_buffer_size < 16) := by
    unfold valid_arguments
    constructor
    · rintro ⟨a, b, c, d, e⟩ (f | f | f | f | f) <;> omega
    · intro hn
      refine ⟨fun f => hn (Or.inl f), ?_, ?_, ?_, ?_⟩ <;> omega
  refine ⟨?_, ?_, ?_⟩
  · constructor
    · rintro ⟨e, he⟩
      by_contra hn
      have := h2 (hvalid.2 hn)
      rw [he] at this; cases this
    · intro hbad
      obtain ⟨msg, _, hm⟩ := h3 (fun hv => hvalid.1 hv hbad)
      exact ⟨_, hm⟩
  · rintro ⟨e, he⟩
    apply h3
    intro hv
    have := h2 hv
    rw [he] at this; cases this
  · intro hr
    obtain ⟨hv, hc⟩ := h1 hr
    have hv2 := hv
    obtain ⟨_, _, _, hv4, hv5⟩ := hv2
    obtain ⟨_, _, c3, c4, c5, c6, c7, c8, c9, c10, _, _, _, c14, _⟩ := hc
    refine ⟨?_, ?_, c14, ?_, ?_⟩
    · simp [is_receive_buffer_empty, c7, c8]
    · simp [is_transmit_buffer_empty, c9, c10]
    · intro hlt
      obtain ⟨e1, _, _⟩ := int_to_unsigned_succ receive_buffer_size hv5 hlt
      rw [c3, c5, e1]
      exact ⟨Int.toNat_of_nonneg (by omega), rfl⟩
    · intro hlt
      obtain ⟨e1, _, _⟩ := int_to_unsigned_succ transmit_buffer_size hv4 hlt
      rw [c4, c6, e1]
      exact ⟨Int.toNat_of_nonneg (by omega), rfl⟩

/-- Witness for C9: the sample engine is constructed, and a receive buffer
size of 15 is refused. -/
theorem construction_validates_witness :
    all_calls_succeed obliging ∧
    sample_new.1 = .ok () ∧
    is_receive_buffer_empty sample_new.2.dpi = true ∧
    is_transmit_buffer_empty sample_new.2.dpi = true ∧
    sample_new.2.dpi.m_welcome_message = [0x48, 0x49] ∧
    (sample_new.2.dpi.m_receive_buffer_size : Int) = 16 + 1 ∧
    (sample_new.2.dpi.m_transmit_buffer_size : Int) = 16 + 1 :=
  have hos : all_calls_succeed obliging := fun _ => ⟨rfl, by simp [obliging], by simp [obliging]⟩
  have h := (construction_validates obliging zeroed 5678 1 16 16 (some [0x48, 0x49]) 0 none
    sample_new.1 sample_new.2 hos (by rfl)).2.2 (by rfl)
  ⟨hos, by rfl, h.1, h.2.1, h.2.2.1, (h.2.2.2.1 (by decide)).1, (h.2.2.2.2 (by decide)).1⟩

/-! ## Theorems on the tick -/

/-- Counterexample for C5: `tick` can raise to its caller.  First case: the
sample engine is constructed, then the zero-timeout `poll` on the listening
socket fails with errno 4, and the first `tick` raises "Error polling the
listening socket: ".  Second case: the sample engine is constructed, its
first `tick` accepts a peer and sends the welcome message, its second
`tick` finds the peer closed and drops the session, and in its third `tick`
the call of `socket` that re-opens the listening socket fails with errno 24:
that `tick` raises "Error creating the listening socket: ". -/
theorem tick_raises_counterexample :
    (deaf_new.1 = .ok () ∧
      ((tick listening_poll_fails).run deaf_new.2).1 =
        .error (.runtime_error (.os_error "Error polling the listening socket: " 4))) ∧
    (short_new.1 = .ok () ∧
      ((tick reopen_fails).run short_new.2).1 = .ok 0 ∧
      ((tick reopen_fails).run ((tick reopen_fails).run short_new.2).2).1 = .ok 0 ∧
      ((tick reopen_fails).run ((tick reopen_fails).run ((tick reopen_fails).run
          short_new.2).2).2).1 =
        .error (.runtime_error (.os_error "Error creating the listening socket: " 24))) := by
  have e1 : ((tick reopen_fails).run short_new.2).2 = short_welcome.2 :=
    tick_world_of_parts _ _ short_accept.2 _ (by rfl) (by decide) (by rfl)
  have e2 : ((tick reopen_fails).run short_welcome.2).2 = short_closed.2 :=
    tick_world_of_parts _ _ short_idle.2 _ (by rfl) (by decide) (by rfl)
  have r1 : ((tick reopen_fails).run short_new.2).1 = .ok 0 := by
    have h := (tick_spec reopen_fails short_new.2 (by decide)).2
    rw [e1] at h
    rcases h with h | ⟨⟨_, _, _, _⟩, _, h⟩
    · rw [h]; rfl
    · exact absurd h (by decide)
  have r2 : ((tick reopen_fails).run short_welcome.2).1 = .ok 0 := by
    have h := (tick_spec reopen_fails short_welcome.2 (by decide)).2
    rw [e2] at h
    rcases h with h | ⟨_, h, _⟩
    · rw [h]; rfl
    · exact absurd h (by decide)
  refine ⟨⟨by rfl, tick_raises_of_accept _ _ _ (by rfl)⟩, by rfl, r1, ?_, ?_⟩
  · rw [e1]; exact r2
  · rw [e1, e2]; exact tick_raises_of_accept _ _ _ (by rfl)

/-- C5, amended.  In every world reachable from a successful construction,
under every behaviour of the operating system calls, `tick` either returns
normally, or raises an exception of re-opening the listening socket
(`socket`, `setsockopt`, `bind`, `listen`) or of the zero-timeout `poll` on
the listening socket, and when it raises there is no connection before or
after the call.  So a `tick` that starts with a connection returns
normally: the failures of `poll`, `send` and `recv` on the connection
socket are absorbed. -/
theorem tick_raises_only_while_listening (os : Os) (w : World) (h : Reachable os w) :
    ((∃ n : Int, ((tick os).run w).1 = .ok n) ∨
      (raised_with tick_errors ((tick os).run w).1 ∧
        w.dpi.m_connectionSocket = -1 ∧
        ((tick os).run w).2.dpi.m_connectionSocket = -1)) ∧
    (w.dpi.m_connectionSocket ≠ -1 → ∃ n : Int, ((tick os).run w).1 = .ok n) := by
  have hs := (tick_spec os w (reachable_inv os w h)).2
  rcases hs with hs | hs
  · exact ⟨Or.inl ⟨_, hs⟩, fun _ => ⟨_, hs⟩⟩
  · exact ⟨Or.inr hs, fun hc => absurd hs.2.1 hc⟩

/-- Witness for C5, amended: the sample engine after the first tick of the
short session is reachable and has a connection, and its next `tick`, in
which the peer is found closed, returns. -/
theorem tick_raises_only_while_listening_witness :
    Reachable reopen_fails short_welcome.2 ∧
    short_welcome.2.dpi.m_connectionSocket ≠ -1 ∧
    ∃ n : Int, ((tick reopen_fails).run short_welcome.2).1 = .ok n :=
  have e1 : ((tick reopen_fails).run short_new.2).2 = short_welcome.2 :=
    tick_world_of_parts _ _ short_accept.2 _ (by rfl) (by decide) (by rfl)
  have hr : Reachable reopen_fails short_welcome.2 :=
    e1 ▸ Reachable.tick _ (Reachable.constructed zeroed 5678 1 16 16 (some [0x48, 0x49]) 0 none
      short_new.2 (by rfl) (by decide) (by decide))
  ⟨hr, by decide, (tick_raises_only_while_listening reopen_fails short_welcome.2 hr).2
    (by decide)⟩

/-- C6. Mutual exclusion of the two sockets.  In every world reachable
from a successful construction through calls of `tick`, `send_char` and
`receive`, under every behaviour of the operating system calls, the
listening socket and the connection socket are not both present; and the
world a successful construction leaves has the listening socket and no
connection. -/
theorem sockets_mutually_exclusive (os : Os) (w : World) (h : Reachable os w) :
    ¬ (w.dpi.m_listening_socket ≠ -1 ∧ w.dpi.m_connectionSocket ≠ -1) ∧
    (∀ (garbage : uart_dpi) (tcp_port : Int) (listen_on_local_addr_only : Nat)
      (transmit_buffer_size receive_buffer_size : Int) (welcome_message : Option (List Nat))
      (print_informational_messages : Nat) ( informational_message_prefix : Option String),
      uart_dpi_new os garbage tcp_port listen_on_local_addr_only transmit_buffer_size
        receive_buffer_size welcome_message print_informational_messages
        informational_message_prefix = (.ok (), w) →
      w.dpi.m_listening_socket ≠ -1 ∧ w.dpi.m_connectionSocket = -1) := by
  constructor
  · rintro ⟨h1, h2⟩
    rcases (reachable_inv os w h).2.1 with g | g
    · exact h1 g
    · exact h2 g
  · intro garbage tcp_port listen_on_local_addr_only transmit_buffer_size receive_buffer_size
      welcome_message print_informational_messages informational_message_prefix hnew
    have hb := uart_dpi_body_spec os tcp_port listen_on_local_addr_only transmit_buffer_size
      receive_buffer_size welcome_message print_informational_messages
      informational_message_prefix { dpi := unassigned garbage, trace := [], log := [] }
    unfold wp at hb
    unfold uart_dpi_new at hnew
    rw [hnew] at hb
    obtain ⟨_, hc⟩ := hb.2 rfl
    obtain ⟨_, _, _, _, _, _, _, _, _, _, _, _, _, _, c15, c16⟩ := hc
    exact ⟨c15, c16⟩

/-- Witness for C6: the sample engine of the short session, after
construction (listening, no connection), after its first tick (connected,
not listening) and after its second tick (neither). -/
theorem sockets_mutually_exclusive_witness :
    (Reachable reopen_fails short_new.2 ∧
      short_new.2.dpi.m_listening_socket = 3 ∧ short_new.2.dpi.m_connectionSocket = -1) ∧
    (Reachable reopen_fails short_welcome.2 ∧
      short_welcome.2.dpi.m_listening_socket = -1 ∧
      short_welcome.2.dpi.m_connectionSocket = 3) ∧
    (Reachable reopen_fails short_closed.2 ∧
      ¬ (short_closed.2.dpi.m_listening_socket ≠ -1 ∧
        short_closed.2.dpi.m_connectionSocket ≠ -1)) :=
  have e1 : ((tick reopen_fails).run short_new.2).2 = short_welcome.2 :=
    tick_world_of_parts _ _ short_accept.2 _ (by rfl) (by decide) (by rfl)
  have e2 : ((tick reopen_fails).run short_welcome.2).2 = short_closed.2 :=
    tick_world_of_parts _ _ short_idle.2 _ (by rfl) (by decide) (by rfl)
  have h0 : Reachable reopen_fails short_new.2 :=
    Reachable.constructed zeroed 5678 1 16 16 (some [0x48, 0x49]) 0 none
      short_new.2 (by rfl) (by decide) (by decide)
  have h1 : Reachable reopen_fails short_welcome.2 := e1 ▸ Reachable.tick _ h0
  have h2 : Reachable reopen_fails short_closed.2 := e2 ▸ Reachable.tick _ h1
  ⟨⟨h0, by decide, by decide⟩, ⟨h1, by decide, by decide⟩,
    ⟨h2, (sockets_mutually_exclusive reopen_fails short_closed.2 h2).1⟩⟩

/-! ## Theorems on the welcome message -/

/-- C7. Welcome-message replay precedes application data.  Take any world
reachable from a successful construction that has no connection, with a
welcome message `m` (a C string: no byte of it is 0) and the bytes `t`
waiting in the transmit buffer, and a `tick` whose first step accepts a
peer.  If the socket is writable and `send` succeeds for the two calls
(`poll`, `send`) that each byte takes, then the `tick` returns, the bytes
handed to `send` during the `tick` are exactly `m` in full followed by `t`
in order, and afterwards the welcome cursor is the sentinel -1 and the
transmit buffer is empty.  The world being any reachable one, this holds
for the first connection and for every later one. -/
theorem welcome_precedes_data (os : Os) (w : World) (h : Reachable os w)
    (hz : 0 ∉ w.dpi.m_welcome_message)
    (hnone : w.dpi.m_connectionSocket = -1)
    (hacc : ((accept_eventual_incoming_connection os).run w).2.dpi.m_connectionSocket ≠ -1)
    (hwr : writable_during os ((accept_eventual_incoming_connection os).run w).2.trace.length
      (2 * (w.dpi.m_welcome_message ++ transmit_pending w.dpi).length)) :
    (∃ n : Int, ((tick os).run w).1 = .ok n) ∧
    sent_bytes ((tick os).run w).2.trace =
      sent_bytes w.trace ++ (w.dpi.m_welcome_message ++ transmit_pending w.dpi) ∧
    ((tick os).run w).2.dpi.m_welcome_message_pos = -1 ∧
    transmit_pending ((tick os).run w).2.dpi = [] ∧
    is_transmit_buffer_empty ((tick os).run w).2.dpi = true := by
  have hinv := reachable_inv os w h
  have hw : wp (tick os) (fun r wf =>
      (∃ n : Int, r = .ok n) ∧
      sent_bytes wf.trace =
        sent_bytes w.trace ++ (w.dpi.m_welcome_message ++ transmit_pending w.dpi) ∧
      wf.dpi.m_welcome_message_pos = -1 ∧
      transmit_pending wf.dpi = [] ∧
      is_transmit_buffer_empty wf.dpi = true) w := by
    simp only [tick, wp_bind, wp_the_object, on_ok_ok, wp_ite, wp_pure, wp_on_object]
    apply wp_mono _ _ _ _ (wp_and _ _ _ _
      (wp_and _ _ _ _ (accept_eventual_incoming_connection_spec os w hinv)
        (accept_eventual_incoming_connection_cursor os w hnone))
      (wp_and _ _ _ _
        (wp_of_sends_nothing _ (accept_eventual_incoming_connection_sends_nothing os) w)
        (wp_self (accept_eventual_incoming_connection os) w)))
    rintro r w1 ⟨⟨⟨inv1, ⟨l, p, c, pos, hd⟩, hr⟩, hpos⟩, hsent, _, hself⟩
    have hc1 : w1.dpi.m_connectionSocket ≠ -1 := by rw [hself]; exact hacc
    have hr1 : r = .ok () := by
      rcases hr with hr | ⟨_, _, hr⟩
      · exact hr
      · exact absurd hr hc1
    subst hr1
    have hwel : w1.dpi.m_welcome_message = w.dpi.m_welcome_message := by rw [hd]
    have hpen : transmit_pending w1.dpi = transmit_pending w.dpi := by rw [hd]; rfl
    have hout : outgoing w1.dpi = w.dpi.m_welcome_message ++ transmit_pending w.dpi := by
      unfold outgoing
      rw [hpos hc1, hpen, hwel]
      cases hm : w.dpi.m_welcome_message with
      | nil => simp
      | cons a rest => simp
    simp only [on_ok_ok]
    rw [if_pos hc1]
    apply wp_mono _ _ _ _ (wp_and _ _ _ _
      (transfer_or_drop_spec os w1 inv1 hc1)
      (transfer_or_drop_sends os w1 inv1 hc1 (by rw [hwel]; exact hz)
        (by rw [hout, hself]; exact hwr)))
    rintro r2 w2 ⟨⟨d1, d2, _⟩, e1, e2, e3⟩
    subst d1
    simp only [on_ok_ok]
    refine ⟨⟨_, get_received_byte_count_eq w2.dpi d2.1⟩, ?_, e2, e3, ?_⟩
    · show sent_bytes w2.trace = _
      rw [e1, hsent, hout]
    · show is_transmit_buffer_empty w2.dpi = true
      rw [tx_empty_iff w2.dpi d2.1, e3]
      rfl
  exact hw

/-- Witness for C7: the sample engine with the welcome message "HI" and
the byte 0x41 queued before any peer connects.  The tick that accepts the
first peer puts H, I, A on the wire, in that order, and drops the session
when the peer is found closed; the tick that accepts the second peer puts
H, I on the wire again. -/
theorem welcome_precedes_data_witness :
    (Reachable first_peer_leaves hi_queued ∧
      hi_queued.dpi.m_welcome_message = [0x48, 0x49] ∧
      transmit_pending hi_queued.dpi = [0x41] ∧
      sent_bytes hi_queued.trace = [] ∧
      sent_bytes ((tick first_peer_leaves).run hi_queued).2.trace = [0x48, 0x49, 0x41] ∧
      ((tick first_peer_leaves).run hi_queued).2.dpi.m_welcome_message_pos = -1 ∧
      is_transmit_buffer_empty ((tick first_peer_leaves).run hi_queued).2.dpi = true) ∧
    (Reachable first_peer_leaves hi_dropped.2 ∧
      hi_dropped.2.dpi.m_connectionSocket = -1 ∧
      sent_bytes ((tick first_peer_leaves).run hi_dropped.2).2.trace =
        [0x48, 0x49, 0x41] ++ [0x48, 0x49]) :=
  have hwr : ∀ first count : Nat, writable_during first_peer_leaves first count := by
    intro first count n _ _
    unfold first_peer_leaves
    split <;> exact ⟨rfl, rfl⟩
  have hr : Reachable first_peer_leaves hi_queued :=
    Reachable.send_char hi_new.2 0x41
      (Reachable.constructed zeroed 5678 1 16 16 (some [0x48, 0x49]) 0 none
        hi_new.2 (by rfl) (by decide) (by decide))
  have e1 : ((tick first_peer_leaves).run hi_queued).2 = hi_dropped.2 :=
    tick_world_of_parts _ _ hi_accept.2 _ (by rfl) (by decide) (by rfl)
  have hr2 : Reachable first_peer_leaves hi_dropped.2 := e1 ▸ Reachable.tick _ hr
  have h := welcome_precedes_data first_peer_leaves hi_queued hr (by decide) (by decide)
    (by decide) (hwr _ _)
  have h2 := welcome_precedes_data first_peer_leaves hi_dropped.2 hr2 (by decide) (by decide)
    (by decide) (hwr _ _)
  ⟨⟨hr, by decide, by decide, by decide, h.2.1.trans (by decide), h.2.2.1, h.2.2.2.2⟩,
    ⟨hr2, by decide, h2.2.1.trans (by decide)⟩⟩

/-! ## Theorems on the receive step -/

/-- C8. Receive back-pressure.  From every world whose receive buffer is
full, `receive_data` returns and leaves the whole world as it was: no call
of `poll` or `recv` is made, no line is printed and the object is
unchanged; when the buffers are in order, the number of bytes waiting was,
and stays, the capacity minus one.  From every world, `receive_data` never
fails the assertion of `enqueue_receive_byte`; from every world with a
connection it fails no assertion at all; and from every world with a
connection and buffers in order it returns or raises an exception, and the
bytes waiting afterwards are at most the capacity minus one. -/
theorem receive_backpressure (os : Os) (w : World) :
    (is_receive_buffer_full w.dpi = true →
      (receive_data os).run w = (.ok (), w) ∧
      (BuffersOk w.dpi →
        (receive_pending w.dpi).length = w.dpi.m_receive_buffer_size - 1 ∧
        get_received_byte_count ((receive_data os).run w).2.dpi =
          .ok ((w.dpi.m_receive_buffer_size : Int) - 1))) ∧
    ((receive_data os).run w).1 ≠ .error (.assertion_failed "!is_receive_buffer_full()") ∧
    (w.dpi.m_connectionSocket ≠ -1 →
      ∀ x : String, ((receive_data os).run w).1 ≠ .error (.assertion_failed x)) ∧
    (w.dpi.m_connectionSocket ≠ -1 → BuffersOk w.dpi →
      returns_or_raises ((receive_data os).run w).1 ∧
      (receive_pending ((receive_data os).run w).2.dpi).length ≤
        ((receive_data os).run w).2.dpi.m_receive_buffer_size - 1) := by
  have hrun : ∀ x : String,
      (x = "!is_receive_buffer_full()" ∨ w.dpi.m_connectionSocket ≠ -1) →
      ((receive_data os).run w).1 ≠ .error (.assertion_failed x) := by
    intro x hx
    have h : wp (receive_data os) (fun r _ => r ≠ .error (.assertion_failed x)) w := by
      simp only [receive_data, wp_bind, wp_the_object, on_ok_ok]
      exact receive_data_loop_asserts os x _ w hx
    exact h
  refine ⟨fun hfull => ?_, hrun _ (Or.inl rfl), fun hc x => hrun x (Or.inr hc),
    fun hc hok => ?_⟩
  swap
  · have hs := receive_data_spec os w hok hc
    have hlt := rx_pending_lt _ hs.2.1
    exact ⟨hs.1, by omega⟩
  have heq : (receive_data os).run w = (.ok (), w) := by
    have h : wp (receive_data os) (fun r w1 => (r, w1) = (.ok (), w)) w := by
      simp only [receive_data, wp_bind, wp_the_object, on_ok_ok, receive_data_loop, wp_ite,
        hfull, Bool.not_true, Bool.false_eq_true, if_false, wp_pure]
    exact h
  refine ⟨heq, fun hok => ?_⟩
  have hlen := (rx_full_iff w.dpi hok).mp hfull
  have hpos := rx_pending_lt w.dpi hok
  refine ⟨hlen, ?_⟩
  rw [heq, get_received_byte_count_eq w.dpi hok, hlen]
  congr 1
  omega

/-- Witness for C8: the sample engine, connected, with 16 bytes in its
receive buffer of capacity 17: the receive step changes nothing, and the
count stays 16. -/
theorem receive_backpressure_witness :
    is_receive_buffer_full sample_full_receive.dpi = true ∧
    sample_full_receive.dpi.m_connectionSocket ≠ -1 ∧
    (receive_data obliging).run sample_full_receive = (.ok (), sample_full_receive) ∧
    get_received_byte_count ((receive_data obliging).run sample_full_receive).2.dpi =
      .ok 16 :=
  have h := (receive_backpressure obliging sample_full_receive).1 (by decide)
  ⟨by decide, by decide, h.1, (h.2 (by decide)).2⟩

/-! ## Theorems on the listening port -/

/-- C16, at the port 65536.  The constructor accepts `tcp_port = 65536`
(it is not zero), stores 0 in `m_listening_tcp_port`, binds the listening
socket to port 0 and prints port 0 in its banner.  Likewise the port 70000
is stored as 4464 and the port -1 as 65535. -/
theorem port_wraps_to_zero :
    (65536 : Int) ≠ 0 ∧
    wide_port_new.1 = .ok () ∧
    wide_port_new.2.dpi.m_listening_tcp_port = 0 ∧
    wide_port_new.2.trace =
      [.malloc 17, .malloc 17, .socket, .setsockopt 3, .bind 3 0 true, .inet_ntop,
        .listen 3 1] ∧
    wide_port_new.2.log = [.listening "" "127.0.0.1" true 0] ∧
    (uart_dpi_new obliging zeroed 70000 1 16 16 none 0 none).2.dpi.m_listening_tcp_port = 4464 ∧
    (uart_dpi_new obliging zeroed (-1) 1 16 16 none 0 none).2.dpi.m_listening_tcp_port = 65535 := by
  refine ⟨by decide, by rfl, by rfl, by rfl, by rfl, by rfl, by rfl⟩

/-! ## Theorems on accepting a connection -/

/-- C14. Accept outcomes.  Take a world with a listening socket in which
`poll` reports a pending peer.  When `accept4` returns a descriptor c with
an address that fits, and, diagnostics being enabled, the address can be
formatted, `accept_connection` returns, the connection socket is c, the
listening socket is closed and absent, the welcome cursor is 0 if the
welcome message is not empty and -1 otherwise, and nothing else in the
object has changed.  When `accept4` fails, or the address is too large, or
diagnostics are enabled and the address cannot be formatted,
`accept_connection` returns without raising, prints one line about the
error, and leaves the whole object as it was: the connection stays as it
was (absent), the listening socket stays open, the welcome cursor and both
buffers are unchanged. -/
theorem accept_outcomes (os : Os) (w : World) (hl : w.dpi.m_listening_socket ≠ -1)
    (hpoll : (os w.trace.length).poll = .one_ready) :
    (∀ c : Nat, (os (w.trace.length + 1)).fd = some c →
      (os (w.trace.length + 1)).addr_len ≤ SIZEOF_SOCKADDR_IN →
      (w.dpi.m_print_informational_messages = true →
        (os (w.trace.length + 2)).addr_text ≠ none) →
      ((accept_connection os).run w).1 = .ok () ∧
      ((accept_connection os).run w).2.dpi =
        { w.dpi with
          m_connectionSocket := (c : Int)
          m_welcome_message_pos := if w.dpi.m_welcome_message.isEmpty then -1 else 0
          m_listening_socket := -1 } ∧
      ((accept_connection os).run w).2.dpi.m_connectionSocket ≠ -1) ∧
    (((os (w.trace.length + 1)).fd = none ∨
        SIZEOF_SOCKADDR_IN < (os (w.trace.length + 1)).addr_len ∨
        (w.dpi.m_print_informational_messages = true ∧
          (os (w.trace.length + 2)).addr_text = none)) →
      ((accept_connection os).run w).1 = .ok () ∧
      ((accept_connection os).run w).2.dpi = w.dpi ∧
      ∃ what, ((accept_connection os).run w).2.log = w.log ++ [.error_accepting what]) := by
  have hlen : (w.trace ++ [Syscall.poll w.dpi.m_listening_socket PollEvents.pollin]).length =
      w.trace.length + 1 := by simp
  have hlen2 : (w.trace ++ [Syscall.poll w.dpi.m_listening_socket PollEvents.pollin] ++
      [Syscall.accept4 w.dpi.m_listening_socket]).length = w.trace.length + 2 := by simp
  constructor
  · intro c hfd hfit hfmt
    have hc : fd_to_int (some c) ≠ -1 := fd_to_int_some_ne c
    have hw : wp (accept_connection os) (fun r w1 =>
        r = .ok () ∧
        w1.dpi = { w.dpi with
          m_connectionSocket := (c : Int)
          m_welcome_message_pos := if w.dpi.m_welcome_message.isEmpty then -1 else 0
          m_listening_socket := -1 } ∧
        w1.dpi.m_connectionSocket ≠ -1) w := by
      simp only [accept_connection, accept_pending_connection, accept_connection_try, wp_bind,
        wp_the_object, on_ok_ok, wp_c_assert, wp_syscall, wp_ite, wp_pure,
        wp_throw_runtime_error, bne_iff_ne, ne_eq, hl, not_false_eq_true, if_true, hpoll,
        PollResult.toInt, show ¬ ((1 : Int) = -1) by decide, show ¬ ((1 : Int) = 0) by decide,
        beq_self_eq_true, if_false, wp_try_catch, wp_ip_address_to_text, wp_print_line,
        on_caught_runtime_error, on_ok_error, on_caught_ok, wp_assign, hlen, hlen2, hfd, hc,
        show ¬ ((os (w.trace.length + 1)).addr_len > SIZEOF_SOCKADDR_IN) by omega]
      cases hp : w.dpi.m_print_informational_messages
      · simp only [Bool.false_eq_true, if_false, on_ok_ok, on_caught_ok, if_true]
        refine wp_of_close_listening_socket _ _ _ hl ⟨rfl, rfl, hc⟩
      · simp only [if_true]
        cases ht : (os (w.trace.length + 2)).addr_text with
        | none => exact absurd ht (hfmt hp)
        | some str =>
          simp only [on_ok_ok, wp_print_line, wp_pure, on_caught_ok, if_true]
          refine wp_of_close_listening_socket _ _ _ hl ⟨rfl, rfl, hc⟩
    exact hw
  · intro hfail
    have hw : wp (accept_connection os) (fun r w1 =>
        r = .ok () ∧ w1.dpi = w.dpi ∧ ∃ what, w1.log = w.log ++ [.error_accepting what]) w := by
      simp only [accept_connection, accept_pending_connection, accept_connection_try, wp_bind,
        wp_the_object, on_ok_ok, wp_c_assert, wp_syscall, wp_ite, wp_pure,
        wp_throw_runtime_error, bne_iff_ne, ne_eq, hl, not_false_eq_true, if_true, hpoll,
        PollResult.toInt, show ¬ ((1 : Int) = -1) by decide, show ¬ ((1 : Int) = 0) by decide,
        beq_self_eq_true, if_false, wp_try_catch, wp_ip_address_to_text, wp_print_line,
        on_caught_runtime_error, on_ok_error, on_caught_ok, wp_assign, hlen, hlen2]
      cases hfd : (os (w.trace.length + 1)).fd with
      | none =>
        simp only [fd_to_int, if_true, on_caught_runtime_error, wp_bind, wp_print_line, on_ok_ok,
          not_true_eq_false, if_false, wp_pure, Bool.false_eq_true]
        exact ⟨by first | rfl | trivial, by first | rfl | trivial, _, rfl⟩
      | some c =>
        have hc : fd_to_int (some c) ≠ -1 := fd_to_int_some_ne c
        simp only [hc, if_false, not_false_eq_true, if_true]
        by_cases hbig : (os (w.trace.length + 1)).addr_len > SIZEOF_SOCKADDR_IN
        · simp only [hbig, if_true, on_caught_runtime_error, wp_bind, wp_print_line, on_ok_ok,
            wp_syscall, wp_pure, Bool.false_eq_true, if_false]
          exact ⟨by first | rfl | trivial, by first | rfl | trivial, _, rfl⟩
        · rcases hfail with h | h | ⟨hp, ht⟩
          · rw [hfd] at h; cases h
          · exact absurd h hbig
          · simp only [hbig, if_false, hp, if_true, ht, on_ok_error, on_caught_runtime_error,
              wp_bind, wp_print_line, on_ok_ok, wp_syscall, wp_pure, Bool.false_eq_true]
            exact ⟨by first | rfl | trivial, by first | rfl | trivial, _, rfl⟩
    exact hw

/-- Witness for C14: the sample engine accepts the peer on descriptor 3
when `accept4` succeeds, and stays as it was, listening, when `accept4`
fails. -/
theorem accept_outcomes_witness :
    (sample_new.2.dpi.m_listening_socket ≠ -1 ∧
      (obliging sample_new.2.trace.length).poll = .one_ready ∧
      ((accept_connection obliging).run sample_new.2).1 = .ok () ∧
      ((accept_connection obliging).run sample_new.2).2.dpi =
        { sample_new.2.dpi with
          m_connectionSocket := 3, m_welcome_message_pos := 0, m_listening_socket := -1 }) ∧
    (unlucky_new.2.dpi.m_listening_socket ≠ -1 ∧
      ((accept_connection accept4_fails).run unlucky_new.2).1 = .ok () ∧
      ((accept_connection accept4_fails).run unlucky_new.2).2.dpi = unlucky_new.2.dpi) :=
  have h := (accept_outcomes obliging sample_new.2 (by decide) (by rfl)).1 3 (by rfl)
    (by decide) (fun _ => by simp [obliging])
  have h2 := (accept_outcomes accept4_fails unlucky_new.2 (by decide) (by rfl)).2
    (Or.inl (by rfl))
  ⟨⟨by decide, by rfl, h.1, h.2.1⟩, ⟨by decide, h2.1, h2.2.1⟩⟩

/-! ## Lemmas on the bytes received -/

theorem received_from_append (os : Os) (a b : List Syscall) : ∀ first : Nat,
    received_from os first (a ++ b) =
      received_from os first a ++ received_from os (first + a.length) b := by
  induction a with
  | nil => intro first; simp [received_from]
  | cons c rest ih =>
    intro first
    show (received_byte os first c).toList ++ received_from os (first + 1) (rest ++ b) =
      (received_byte os first c).toList ++ received_from os (first + 1) rest ++
        received_from os (first + (rest.length + 1)) b
    rw [ih, List.append_assoc, show first + 1 + rest.length = first + (rest.length + 1) by omega]

theorem received_bytes_snoc (os : Os) (t : List Syscall) (c : Syscall) :
    received_bytes os (t ++ [c]) = received_bytes os t ++ (received_byte os t.length c).toList := by
  unfold received_bytes
  rw [received_from_append]
  simp [received_from]

theorem receives_nothing_bind {α β : Type} (os : Os) (m : Method α) (f : α → Method β)
    (hm : receives_nothing os m) (hf : ∀ a, receives_nothing os (f a)) :
    receives_nothing os (m >>= f) := by
  intro w
  have hb : (m >>= f).run w =
      match m.run w with
      | (.ok a, w1) => (f a).run w1
      | (.error e, w1) => (.error e, w1) := rfl
  rw [hb]
  have h1 := hm w
  rcases hrun : m.run w with ⟨r, w1⟩
  rw [hrun] at h1
  cases r with
  | ok a => exact (hf a w1).trans h1
  | error e => exact h1

theorem receives_nothing_try_catch {α : Type} (os : Os) (body : Method α)
    (handler : What → Method α) (hm : receives_nothing os body)
    (hf : ∀ what, receives_nothing os (handler what)) :
    receives_nothing os (try_catch body handler) := by
  intro w
  have hb : (try_catch body handler).run w =
      match body.run w with
      | (.error (.runtime_error what), w1) => (handler what).run w1
      | (r, w1) => (r, w1) := rfl
  rw [hb]
  have h1 := hm w
  rcases hrun : body.run w with ⟨r, w1⟩
  rw [hrun] at h1
  rcases r with e | a
  · cases e with
    | runtime_error what => exact (hf what w1).trans h1
    | assertion_failed x => exact h1
    | out_of_fuel => exact h1
  · exact h1

theorem receives_nothing_ite {α : Type} (os : Os) (c : Prop) [Decidable c] (a b : Method α)
    (ha : receives_nothing os a) (hb : receives_nothing os b) :
    receives_nothing os (if c then a else b) := by
  split
  · exact ha
  · exact hb

theorem receives_nothing_pure {α : Type} (os : Os) (a : α) :
    receives_nothing os (pure a : Method α) := fun _ => rfl

theorem receives_nothing_the_object (os : Os) : receives_nothing os the_object := fun _ => rfl

theorem receives_nothing_assign (os : Os) (f : uart_dpi → uart_dpi) :
    receives_nothing os (assign f) := fun _ => rfl

theorem receives_nothing_on_object {α : Type} (os : Os)
    (f : uart_dpi → Except Failure α × uart_dpi) : receives_nothing os (on_object f) :=
  fun _ => rfl

theorem receives_nothing_print_line (os : Os) (e : LogEvent) :
    receives_nothing os (print_line e) := fun _ => rfl

theorem receives_nothing_throw_runtime_error {α : Type} (os : Os) (what : What) :
    receives_nothing os (throw_runtime_error what : Method α) := fun _ => rfl

theorem receives_nothing_fuel_exhausted {α : Type} (os : Os) :
    receives_nothing os (fuel_exhausted : Method α) := fun _ => rfl

theorem receives_nothing_c_assert (os : Os) (cond : Bool) (expr : String) :
    receives_nothing os (c_assert cond expr) := by
  intro w
  unfold c_assert Method.run
  cases cond <;> rfl

theorem receives_nothing_syscall (os os2 : Os) (c : Syscall)
    (h : ∀ n, received_byte os n c = none) : receives_nothing os (syscall os2 c) := by
  intro w
  show received_bytes os (w.trace ++ [c]) = received_bytes os w.trace
  rw [received_bytes_snoc, h]
  simp

theorem close_current_connection_receives_nothing (os : Os) (os2 : Os) :
    receives_nothing os (close_current_connection os2) := by
  unfold close_current_connection
  repeat' with_reducible first
    | exact receives_nothing_pure os _
    | exact receives_nothing_the_object os
    | exact receives_nothing_assign os _
    | exact receives_nothing_print_line os _
    | exact receives_nothing_throw_runtime_error os _
    | exact receives_nothing_c_assert os _ _
    | refine receives_nothing_syscall os _ _ ?_
    | apply receives_nothing_bind
    | apply receives_nothing_ite
    | apply receives_nothing_try_catch
    | split
    | intro _
  all_goals rfl

theorem close_listening_socket_receives_nothing (os : Os) (os2 : Os) :
    receives_nothing os (close_listening_socket os2) := by
  unfold close_listening_socket
  repeat' with_reducible first
    | exact receives_nothing_pure os _
    | exact receives_nothing_the_object os
    | exact receives_nothing_assign os _
    | exact receives_nothing_print_line os _
    | exact receives_nothing_throw_runtime_error os _
    | exact receives_nothing_c_assert os _ _
    | refine receives_nothing_syscall os _ _ ?_
    | apply receives_nothing_bind
    | apply receives_nothing_ite
    | apply receives_nothing_try_catch
    | split
    | intro _
  all_goals rfl

theorem ip_address_to_text_receives_nothing (os : Os) (os2 : Os) :
    receives_nothing os (ip_address_to_text os2) := by
  unfold ip_address_to_text
  repeat' with_reducible first
    | exact receives_nothing_pure os _
    | exact receives_nothing_the_object os
    | exact receives_nothing_assign os _
    | exact receives_nothing_print_line os _
    | exact receives_nothing_throw_runtime_error os _
    | exact receives_nothing_c_assert os _ _
    | refine receives_nothing_syscall os _ _ ?_
    | apply receives_nothing_bind
    | apply receives_nothing_ite
    | apply receives_nothing_try_catch
    | split
    | intro _
  all_goals rfl

theorem print_listening_message_once_receives_nothing (os : Os) (os2 : Os) :
    receives_nothing os (print_listening_message_once os2) := by
  unfold print_listening_message_once
  repeat' with_reducible first
    | exact ip_address_to_text_receives_nothing os os2
    | exact receives_nothing_pure os _
    | exact receives_nothing_the_object os
    | exact receives_nothing_assign os _
    | exact receives_nothing_print_line os _
    | exact receives_nothing_throw_runtime_error os _
    | exact receives_nothing_c_assert os _ _
    | refine receives_nothing_syscall os _ _ ?_
    | apply receives_nothing_bind
    | apply receives_nothing_ite
    | apply receives_nothing_try_catch
    | split
    | intro _

theorem create_listening_socket_try_receives_nothing (os : Os) (os2 : Os) :
    receives_nothing os (create_listening_socket_try os2) := by
  unfold create_listening_socket_try
  repeat' with_reducible first
    | exact print_listening_message_once_receives_nothing os os2
    | exact receives_nothing_pure os _
    | exact receives_nothing_the_object os
    | exact receives_nothing_assign os _
    | exact receives_nothing_print_line os _
    | exact receives_nothing_throw_runtime_error os _
    | exact receives_nothing_c_assert os _ _
    | refine receives_nothing_syscall os _ _ ?_
    | apply receives_nothing_bind
    | apply receives_nothing_ite
    | apply receives_nothing_try_catch
    | split
    | intro _
  all_goals rfl

theorem create_listening_socket_receives_nothing (os : Os) (os2 : Os) :
    receives_nothing os (create_listening_socket os2) := by
  unfold create_listening_socket
  repeat' with_reducible first
    | exact create_listening_socket_try_receives_nothing os os2
    | exact close_listening_socket_receives_nothing os os2
    | exact receives_nothing_pure os _
    | exact receives_nothing_the_object os
    | exact receives_nothing_assign os _
    | exact receives_nothing_print_line os _
    | exact receives_nothing_throw_runtime_error os _
    | exact receives_nothing_c_assert os _ _
    | refine receives_nothing_syscall os _ _ ?_
    | apply receives_nothing_bind
    | apply receives_nothing_ite
    | apply receives_nothing_try_catch
    | split
    | intro _
  all_goals rfl

theorem accept_connection_try_receives_nothing (os : Os) (os2 : Os) (connectionSocket : Int) (ra : OsReply) :
    receives_nothing os (accept_connection_try os2 connectionSocket ra) := by
  unfold accept_connection_try
  repeat' with_reducible first
    | exact ip_address_to_text_receives_nothing os os2
    | exact receives_nothing_pure os _
    | exact receives_nothing_the_object os
    | exact receives_nothing_assign os _
    | exact receives_nothing_print_line os _
    | exact receives_nothing_throw_runtime_error os _
    | exact receives_nothing_c_assert os _ _
    | refine receives_nothing_syscall os _ _ ?_
    | apply receives_nothing_bind
    | apply receives_nothing_ite
    | apply receives_nothing_try_catch
    | split
    | intro _

theorem accept_pending_connection_receives_nothing (os : Os) (os2 : Os) :
    receives_nothing os (accept_pending_connection os2) := by
  unfold accept_pending_connection
  repeat' with_reducible first
    | exact accept_connection_try_receives_nothing os os2 _ _
    | exact close_listening_socket_receives_nothing os os2
    | exact receives_nothing_pure os _
    | exact receives_nothing_the_object os
    | exact receives_nothing_assign os _
    | exact receives_nothing_print_line os _
    | exact receives_nothing_throw_runtime_error os _
    | exact receives_nothing_c_assert os _ _
    | refine receives_nothing_syscall os _ _ ?_
    | apply receives_nothing_bind
    | apply receives_nothing_ite
    | apply receives_nothing_try_catch
    | split
    | intro _
  all_goals rfl

theorem accept_connection_receives_nothing (os : Os) (os2 : Os) :
    receives_nothing os (accept_connection os2) := by
  unfold accept_connection
  repeat' with_reducible first
    | exact accept_pending_connection_receives_nothing os os2
    | exact receives_nothing_pure os _
    | exact receives_nothing_the_object os
    | exact receives_nothing_assign os _
    | exact receives_nothing_print_line os _
    | exact receives_nothing_throw_runtime_error os _
    | exact receives_nothing_c_assert os _ _
    | refine receives_nothing_syscall os _ _ ?_
    | apply receives_nothing_bind
    | apply receives_nothing_ite
    | apply receives_nothing_try_catch
    | split
    | intro _
  all_goals rfl

theorem accept_eventual_incoming_connection_receives_nothing (os : Os) (os2 : Os) :
    receives_nothing os (accept_eventual_incoming_connection os2) := by
  unfold accept_eventual_incoming_connection
  repeat' with_reducible first
    | exact create_listening_socket_receives_nothing os os2
    | exact accept_connection_receives_nothing os os2
    | exact receives_nothing_pure os _
    | exact receives_nothing_the_object os
    | exact receives_nothing_assign os _
    | exact receives_nothing_print_line os _
    | exact receives_nothing_throw_runtime_error os _
    | exact receives_nothing_c_assert os _ _
    | refine receives_nothing_syscall os _ _ ?_
    | apply receives_nothing_bind
    | apply receives_nothing_ite
    | apply receives_nothing_try_catch
    | split
    | intro _

theorem send_byte_receives_nothing (os : Os) (os2 : Os) (data : Nat) :
    receives_nothing os (send_byte os2 data) := by
  unfold send_byte
  repeat' with_reducible first
    | exact receives_nothing_pure os _
    | exact receives_nothing_the_object os
    | exact receives_nothing_assign os _
    | exact receives_nothing_print_line os _
    | exact receives_nothing_throw_runtime_error os _
    | exact receives_nothing_c_assert os _ _
    | refine receives_nothing_syscall os _ _ ?_
    | apply receives_nothing_bind
    | apply receives_nothing_ite
    | apply receives_nothing_try_catch
    | split
    | intro _
  all_goals rfl

theorem next_byte_to_send_receives_nothing (os : Os) :
    receives_nothing os (next_byte_to_send) := by
  unfold next_byte_to_send
  repeat' with_reducible first
    | exact receives_nothing_pure os _
    | exact receives_nothing_the_object os
    | exact receives_nothing_assign os _
    | exact receives_nothing_on_object os _
    | exact receives_nothing_print_line os _
    | exact receives_nothing_throw_runtime_error os _
    | exact receives_nothing_c_assert os _ _
    | refine receives_nothing_syscall os _ _ ?_
    | apply receives_nothing_bind
    | apply receives_nothing_ite
    | apply receives_nothing_try_catch
    | split
    | intro _

theorem transmit_data_loop_receives_nothing (os os2 : Os) (fuel : Nat) :
    receives_nothing os (transmit_data_loop os2 fuel) := by
  induction fuel with
  | zero => exact receives_nothing_fuel_exhausted os
  | succ fuel ih =>
    unfold transmit_data_loop
    repeat' with_reducible first
      | exact ih
      | exact next_byte_to_send_receives_nothing os
      | exact send_byte_receives_nothing os os2 _
      | exact receives_nothing_pure os _
      | exact receives_nothing_the_object os
      | exact receives_nothing_throw_runtime_error os _
      | exact receives_nothing_c_assert os _ _
      | refine receives_nothing_syscall os _ _ ?_
      | apply receives_nothing_bind
      | apply receives_nothing_ite
      | intro _
    all_goals rfl

theorem transmit_data_receives_nothing (os os2 : Os) :
    receives_nothing os (transmit_data os2) := by
  unfold transmit_data
  apply receives_nothing_bind _ _ _ (receives_nothing_the_object os)
  intro self
  exact transmit_data_loop_receives_nothing os os2 _

theorem wp_of_receives_nothing {α : Type} (os : Os) (m : Method α)
    (h : receives_nothing os m) (w : World) :
    wp m (fun _ w1 => received_bytes os w1.trace = received_bytes os w.trace) w :=
  h w

/-- What `close_current_connection` does to the object: nothing but to the
connection socket. -/
theorem close_current_connection_frame (os : Os) (w : World) :
    wp (close_current_connection os) (fun _ w1 =>
      ∃ c, w1.dpi = { w.dpi with m_connectionSocket := c }) w := by
  simp only [close_current_connection, wp_bind, wp_the_object, on_ok_ok, wp_c_assert,
    wp_syscall, wp_assign]
  split
  · exact ⟨_, rfl⟩
  · exact ⟨w.dpi.m_connectionSocket, rfl⟩

/-- The receive loop enqueues the bytes it receives, and no others. -/
theorem receive_data_loop_receives (os : Os) (fuel : Nat) : ∀ (w : World), BuffersOk w.dpi →
    wp (receive_data_loop os fuel) (fun _ w1 =>
      ∃ more, receive_pending w1.dpi = receive_pending w.dpi ++ more ∧
        received_bytes os w1.trace = received_bytes os w.trace ++ more) w := by
  induction fuel with
  | zero =>
    intro w _
    simp only [receive_data_loop, wp_fuel_exhausted]
    exact ⟨[], by simp, by simp⟩
  | succ fuel ih =>
    intro w hok
    simp only [receive_data_loop, wp_bind, wp_the_object, on_ok_ok, wp_ite, wp_pure,
      wp_syscall, wp_throw_runtime_error, wp_c_assert, wp_print_line, wp_on_object]
    cases hfull : is_receive_buffer_full w.dpi
    · simp only [Bool.not_false, if_true]
      cases hpoll : (os w.trace.length).poll
      · simp only [PollResult.toInt, if_true]
        exact ⟨[], by simp, by simp only [received_bytes_snoc, received_byte, Option.toList, List.append_nil]⟩
      · simp only [PollResult.toInt, show ¬ ((0 : Int) = -1) by decide, if_true, if_false]
        exact ⟨[], by simp, by simp only [received_bytes_snoc, received_byte, Option.toList, List.append_nil]⟩
      · simp only [PollResult.toInt, show ¬ ((1 : Int) = -1) by decide,
          show ¬ ((1 : Int) = 0) by decide, beq_self_eq_true, if_true, if_false, on_ok_ok]
        cases hrecv : (os (w.trace ++ [Syscall.poll w.dpi.m_connectionSocket
            PollEvents.pollin]).length).recv
        · simp only [RecvResult.toInt, show ¬ ((-1 : Int) = 0) by decide, if_true, if_false]
          split
          · exact ⟨[], by simp, by simp only [received_bytes_snoc, received_byte, hrecv, reduceCtorEq, if_false,
              Option.toList, List.append_nil]⟩
          · exact ⟨[], by simp, by simp only [received_bytes_snoc, received_byte, hrecv, reduceCtorEq, if_false,
              Option.toList, List.append_nil]⟩
        · simp only [RecvResult.toInt, if_true, close_current_connection, wp_bind,
            wp_the_object, on_ok_ok, wp_c_assert, wp_syscall, wp_assign, wp_print_line]
          repeat' split
          all_goals
            refine ⟨[], ?_, ?_⟩
            · simp [receive_pending]
            · simp only [received_bytes_snoc, received_byte, hrecv, reduceCtorEq, if_false,
                Option.toList, List.append_nil]
        · simp only [RecvResult.toInt, show ¬ ((1 : Int) = -1) by decide,
            show ¬ ((1 : Int) = 0) by decide, beq_self_eq_true, if_true, if_false]
          have hb : received_bytes os (w.trace ++
              [Syscall.poll w.dpi.m_connectionSocket PollEvents.pollin] ++
              [Syscall.recv w.dpi.m_connectionSocket]) = received_bytes os w.trace ++
              [(os (w.trace ++ [Syscall.poll w.dpi.m_connectionSocket
                PollEvents.pollin]).length).recv_data] := by
            simp only [received_bytes_snoc, received_byte, hrecv, if_true, Option.toList,
              List.append_nil]
          generalize (os (w.trace ++ [Syscall.poll w.dpi.m_connectionSocket
            PollEvents.pollin]).length).recv_data = b at hb ⊢
          obtain ⟨h1, h2, h3, _⟩ := enqueue_receive_byte_ok w.dpi b hok hfull
          rw [h1]
          simp only [on_ok_ok]
          apply wp_mono _ _ _ _ (ih _ h2)
          rintro r2 w2 ⟨more, g1, g2⟩
          refine ⟨b :: more, ?_, ?_⟩
          · rw [g1]
            show receive_pending (enqueue_receive_byte w.dpi b).2 ++ more = _
            rw [h3]; simp
          · rw [g2]
            show received_bytes os (w.trace ++
              [Syscall.poll w.dpi.m_connectionSocket PollEvents.pollin] ++
              [Syscall.recv w.dpi.m_connectionSocket]) ++ more = _
            rw [hb]; simp
    · simp only [Bool.not_true, Bool.false_eq_true, if_false]
      exact ⟨[], by simp, by simp⟩

/-- The transfer of one tick enqueues the bytes it receives, and no
others. -/
theorem transfer_or_drop_receives (os : Os) (w : World) (hok : BuffersOk w.dpi)
    (hcur : cursor_ok w.dpi) :
    wp (transfer_or_drop os) (fun _ w1 =>
      ∃ more, receive_pending w1.dpi = receive_pending w.dpi ++ more ∧
        received_bytes os w1.trace = received_bytes os w.trace ++ more) w := by
  have hclose : ∀ (w0 : World) (more : List Nat) (e : LogEvent),
      receive_pending w0.dpi = receive_pending w.dpi ++ more →
      received_bytes os w0.trace = received_bytes os w.trace ++ more →
      wp (close_current_connection os) (fun _ w1 =>
        ∃ more, receive_pending w1.dpi = receive_pending w.dpi ++ more ∧
          received_bytes os w1.trace = received_bytes os w.trace ++ more)
        { w0 with log := w0.log ++ [e] } := by
    intro w0 more e g1 g2
    apply wp_mono _ _ _ _ (wp_and _ _ _ _ (close_current_connection_frame os _)
      (wp_of_receives_nothing os _ (close_current_connection_receives_nothing os os) _))
    rintro r w1 ⟨⟨c, hd⟩, ht⟩
    refine ⟨more, ?_, ?_⟩
    · rw [hd]; exact g1
    · rw [ht]; exact g2
  simp only [transfer_or_drop, wp_try_catch, wp_bind]
  apply wp_mono _ _ _ _ (wp_and _ _ _ _ (transmit_data_spec os w hok hcur)
    (wp_of_receives_nothing os _ (transmit_data_receives_nothing os os) w))
  rintro r w1 ⟨⟨a1, a2, _, ⟨p, pos, a4⟩, _⟩, at1⟩
  have hrx1 : receive_pending w1.dpi = receive_pending w.dpi := by rw [a4]; rfl
  rcases r with e | u
  · cases e with
    | runtime_error what =>
      simp only [on_ok_error, on_caught_runtime_error, wp_bind, wp_print_line, on_ok_ok]
      exact hclose w1 [] _ (by rw [hrx1]; simp) (by rw [at1]; simp)
    | assertion_failed x => exact absurd a1 (by simp [returns_or_raises])
    | out_of_fuel => exact absurd a1 (by simp [returns_or_raises])
  · simp only [on_ok_ok, receive_data, wp_bind, wp_the_object]
    apply wp_mono _ _ _ _ (receive_data_loop_receives os _ w1 a2)
    rintro r2 w2 ⟨more, g1, g2⟩
    rw [hrx1] at g1
    rw [at1] at g2
    rcases r2 with e | u
    · cases e with
      | runtime_error what =>
        simp only [on_caught_runtime_error, wp_bind, wp_print_line, on_ok_ok]
        exact hclose w2 more _ g1 g2
      | assertion_failed x => exact ⟨more, g1, g2⟩
      | out_of_fuel => exact ⟨more, g1, g2⟩
    · exact ⟨more, g1, g2⟩

/-- One tick enqueues the bytes it receives, and no others. -/
theorem tick_receives (os : Os) (w : World) (hinv : engine_inv w.dpi) :
    wp (tick os) (fun _ w1 =>
      ∃ more, receive_pending w1.dpi = receive_pending w.dpi ++ more ∧
        received_bytes os w1.trace = received_bytes os w.trace ++ more) w := by
  simp only [tick, wp_bind, wp_the_object, on_ok_ok, wp_ite, wp_pure, wp_on_object]
  apply wp_mono _ _ _ _ (wp_and _ _ _ _ (accept_eventual_incoming_connection_spec os w hinv)
    (wp_of_receives_nothing os _ (accept_eventual_incoming_connection_receives_nothing os os) w))
  rintro r w1 ⟨⟨inv1, ⟨l, p, c, pos, hd⟩, _⟩, ht⟩
  have hrx1 : receive_pending w1.dpi = receive_pending w.dpi := by rw [hd]; rfl
  rcases r with e | u
  · exact ⟨[], by rw [hrx1]; simp, by rw [ht]; simp⟩
  · simp only [on_ok_ok]
    split
    · next hc =>
      apply wp_mono _ _ _ _ (transfer_or_drop_receives os w1 inv1.1 (inv1.2.2.1 hc))
      rintro r2 w2 ⟨more, g1, g2⟩
      rw [hrx1] at g1
      rw [ht] at g2
      rcases r2 with e | u
      · exact ⟨more, g1, g2⟩
      · exact ⟨more, g1, g2⟩
    · exact ⟨[], by rw [hrx1]; simp, by rw [ht]; simp⟩

theorem uart_dpi_body_receives_nothing (os os2 : Os) (tcp_port : Int)
    (listen_on_local_addr_only : Nat) (transmit_buffer_size : Int) (receive_buffer_size : Int)
    (welcome_message : Option (List Nat)) (print_informational_messages : Nat)
    ( informational_message_prefix : Option String) :
    receives_nothing os (uart_dpi_body os2 tcp_port listen_on_local_addr_only
      transmit_buffer_size receive_buffer_size welcome_message print_informational_messages
      informational_message_prefix) := by
  unfold uart_dpi_body
  repeat' with_reducible first
    | exact create_listening_socket_receives_nothing os os2
    | exact receives_nothing_pure os _
    | exact receives_nothing_the_object os
    | exact receives_nothing_assign os _
    | exact receives_nothing_throw_runtime_error os _
    | refine receives_nothing_syscall os _ _ ?_
    | apply receives_nothing_bind
    | apply receives_nothing_ite
    | intro _
  all_goals rfl

theorem reachable_of_after (os : Os) (w : World) (n : Nat) (h : ReachableAfter os w n) :
    Reachable os w := by
  induction h with
  | constructed garbage tcp_port listen_on_local_addr_only transmit_buffer_size
      receive_buffer_size welcome_message print_informational_messages
      informational_message_prefix w hnew htx hrx =>
    exact Reachable.constructed garbage tcp_port listen_on_local_addr_only
      transmit_buffer_size receive_buffer_size welcome_message print_informational_messages
      informational_message_prefix w hnew htx hrx
  | tick w n _ ih => exact Reachable.tick w ih
  | send_char w c n _ ih => exact Reachable.send_char w c ih
  | receive w n _ ih => exact Reachable.receive w ih

theorem after_of_reachable (os : Os) (w : World) (h : Reachable os w) :
    ∃ n, ReachableAfter os w n := by
  induction h with
  | constructed garbage tcp_port listen_on_local_addr_only transmit_buffer_size
      receive_buffer_size welcome_message print_informational_messages
      informational_message_prefix w hnew htx hrx =>
    exact ⟨0, ReachableAfter.constructed garbage tcp_port listen_on_local_addr_only
      transmit_buffer_size receive_buffer_size welcome_message print_informational_messages
      informational_message_prefix w hnew htx hrx⟩
  | tick w _ ih =>
    obtain ⟨n, hn⟩ := ih
    exact ⟨n, ReachableAfter.tick w n hn⟩
  | send_char w c _ ih =>
    obtain ⟨n, hn⟩ := ih
    exact ⟨n, ReachableAfter.send_char w c n hn⟩
  | receive w _ ih =>
    obtain ⟨n, hn⟩ := ih
    exact ⟨_, ReachableAfter.receive w n hn⟩

/-- The bytes waiting in the receive buffer are the bytes received, less
those that `receive` has handed out. -/
theorem received_history (os : Os) (w : World) (n : Nat) (h : ReachableAfter os w n) :
    n ≤ (received_bytes os w.trace).length ∧
      receive_pending w.dpi = (received_bytes os w.trace).drop n := by
  induction h with
  | constructed garbage tcp_port listen_on_local_addr_only transmit_buffer_size
      receive_buffer_size welcome_message print_informational_messages
      informational_message_prefix w hnew htx hrx =>
    have h2 := uart_dpi_new_buffers os garbage tcp_port listen_on_local_addr_only
      transmit_buffer_size receive_buffer_size welcome_message print_informational_messages
      informational_message_prefix w hnew htx hrx
    have h3 := uart_dpi_body_receives_nothing os os tcp_port listen_on_local_addr_only
      transmit_buffer_size receive_buffer_size welcome_message print_informational_messages
      informational_message_prefix { dpi := unassigned garbage, trace := [], log := [] }
    unfold uart_dpi_new at hnew
    rw [hnew] at h3
    have h4 : received_bytes os w.trace = [] := h3
    rw [h4, h2.2.1]
    exact ⟨Nat.zero_le _, rfl⟩
  | tick w n hr ih =>
    obtain ⟨more, g1, g2⟩ :=
      tick_receives os w (reachable_inv os w (reachable_of_after os w n hr))
    rw [g1, g2, ih.2]
    refine ⟨by simp; omega, ?_⟩
    rw [List.drop_append_of_le_length ih.1]
  | send_char w c n hr ih =>
    have hrx := (send_char_spec w.dpi c
      (reachable_inv os w (reachable_of_after os w n hr)).1).2.2.2
    exact ⟨ih.1, hrx.trans ih.2⟩
  | receive w n hr ih =>
    have hok := (reachable_inv os w (reachable_of_after os w n hr)).1
    cases he : is_receive_buffer_empty w.dpi
    · obtain ⟨_, ⟨b, _, hb⟩, _⟩ := receive_ok w.dpi hok he
      simp only [Bool.false_eq_true, if_false]
      have hd : (received_bytes os w.trace).drop n =
          b :: receive_pending (receive w.dpi).2 := by rw [← ih.2]; exact hb
      have hlt : n < (received_bytes os w.trace).length := by
        by_contra hge
        rw [List.drop_eq_nil_of_le (by omega)] at hd
        cases hd
      refine ⟨hlt, ?_⟩
      show receive_pending (receive w.dpi).2 = _
      have ht := congrArg List.tail hd
      simp only [List.tail_drop, List.tail_cons] at ht
      exact ht.symm
    · have hsame : (receive w.dpi).2 = w.dpi := by simp [receive, he]
      simp only [if_true]
      show _ ∧ receive_pending (receive w.dpi).2 = _
      rw [hsame]
      exact ih

/-- The world a `tick` leaves when its first step returns with a connection
and its transfer returns: the one the transfer leaves. -/
theorem tick_world_of_stages (os : Os) (w : World)
    (ha : returned ((accept_eventual_incoming_connection os).run w).1 = true)
    (hc : ((accept_eventual_incoming_connection os).run w).2.dpi.m_connectionSocket ≠ -1)
    (ht : returned ((transfer_or_drop os).run
      ((accept_eventual_incoming_connection os).run w).2).1 = true) :
    ((tick os).run w).2 =
      ((transfer_or_drop os).run ((accept_eventual_incoming_connection os).run w).2).2 := by
  have ha2 : (accept_eventual_incoming_connection os).run w =
      (.ok (), ((accept_eventual_incoming_connection os).run w).2) := by
    rcases hrun : (accept_eventual_incoming_connection os).run w with ⟨r, w1⟩
    rw [hrun] at ha
    cases r with
    | ok u => rfl
    | error e => cases ha
  have ht2 : (transfer_or_drop os).run ((accept_eventual_incoming_connection os).run w).2 =
      (.ok (), ((transfer_or_drop os).run
        ((accept_eventual_incoming_connection os).run w).2).2) := by
    rcases hrun : (transfer_or_drop os).run
      ((accept_eventual_incoming_connection os).run w).2 with ⟨r, w1⟩
    rw [hrun] at ht
    cases r with
    | ok u => rfl
    | error e => cases ht
  exact tick_world_of_parts os w _ _ ha2 hc ht2

/-! ## Theorems on the occupied count -/

/-- C11. The occupied count is correct across wraparound.  In every world
reachable from a successful construction, `n` bytes having been handed out
by `receive` so far: both receive pointers are below the capacity; the
bytes waiting in the receive buffer are the bytes received (each was
enqueued right after its `recv`) less the first `n`, in order;
`get_received_byte_count` returns their number, the number of bytes
enqueued and not yet dequeued, so its assertion `ret > 0` holds; this
number is at most capacity - 1; and it is write - read when read <= write,
and capacity - (read - write), a positive number, otherwise. -/
theorem occupied_count_correct (os : Os) (w : World) (n : Nat)
    (h : ReachableAfter os w n) :
    w.dpi.m_receive_read_pointer < w.dpi.m_receive_buffer_size ∧
    w.dpi.m_receive_write_pointer < w.dpi.m_receive_buffer_size ∧
    n ≤ (received_bytes os w.trace).length ∧
    receive_pending w.dpi = (received_bytes os w.trace).drop n ∧
    get_received_byte_count w.dpi =
      .ok (((received_bytes os w.trace).length : Int) - (n : Int)) ∧
    (received_bytes os w.trace).length - n ≤ w.dpi.m_receive_buffer_size - 1 ∧
    (w.dpi.m_receive_read_pointer ≤ w.dpi.m_receive_write_pointer →
      ((received_bytes os w.trace).length : Int) - (n : Int) =
        (w.dpi.m_receive_write_pointer : Int) - (w.dpi.m_receive_read_pointer : Int)) ∧
    (w.dpi.m_receive_write_pointer < w.dpi.m_receive_read_pointer →
      ((received_bytes os w.trace).length : Int) - (n : Int) =
        (w.dpi.m_receive_buffer_size : Int) -
          ((w.dpi.m_receive_read_pointer : Int) - (w.dpi.m_receive_write_pointer : Int)) ∧
      0 < (w.dpi.m_receive_buffer_size : Int) -
          ((w.dpi.m_receive_read_pointer : Int) - (w.dpi.m_receive_write_pointer : Int))) := by
  have hok := (reachable_inv os w (reachable_of_after os w n h)).1
  obtain ⟨hle, hpend⟩ := received_history os w n h
  obtain ⟨_, _, _, hrp, hwp⟩ := hok.1
  have hlen : (receive_pending w.dpi).length = (received_bytes os w.trace).length - n := by
    rw [hpend, List.length_drop]
  have hlt := rx_pending_lt w.dpi hok
  have hcount : (receive_pending w.dpi).length =
      ring_count w.dpi.m_receive_buffer_size w.dpi.m_receive_read_pointer
        w.dpi.m_receive_write_pointer := by
    simp only [receive_pending, ring_bytes_length]
  refine ⟨hrp, hwp, hle, hpend, ?_, by omega, ?_, ?_⟩
  · rw [get_received_byte_count_eq w.dpi hok, hlen]
    congr 1
    omega
  · intro hrw
    unfold ring_count at hcount
    rw [if_pos hrw] at hcount
    omega
  · intro hwr
    unfold ring_count at hcount
    rw [if_neg (by omega)] at hcount
    omega

/-- Witness for C11: the sample engine after 17 bytes were received and
one was handed out: the write pointer, 0, is behind the read pointer, 1,
and the count is 17 - (1 - 0) = 16. -/
theorem occupied_count_correct_witness :
    ReachableAfter obliging wrap_round.2 1 ∧
    wrap_round.2.dpi.m_receive_buffer_size = 17 ∧
    wrap_round.2.dpi.m_receive_read_pointer = 1 ∧
    wrap_round.2.dpi.m_receive_write_pointer = 0 ∧
    (received_bytes obliging wrap_round.2.trace).length = 17 ∧
    get_received_byte_count wrap_round.2.dpi = .ok 16 := by
  have e1 : ((tick obliging).run sample_new.2).2 = wrap_filled.2 :=
    tick_world_of_stages _ _ (by decide!) (by decide!) (by decide!)
  have e2 : ((tick obliging).run wrap_taken).2 = wrap_round.2 :=
    tick_world_of_stages _ _ (by decide!) (by decide!) (by decide!)
  have h0 : ReachableAfter obliging sample_new.2 0 :=
    ReachableAfter.constructed zeroed 5678 1 16 16 (some [0x48, 0x49]) 0 none
      sample_new.2 (by rfl) (by decide) (by decide)
  have h1 := ReachableAfter.tick sample_new.2 0 h0
  rw [e1] at h1
  have h2 := ReachableAfter.receive wrap_filled.2 0 h1
  have hif : (if is_receive_buffer_empty wrap_filled.2.dpi = true then 0 else 0 + 1) = 1 := by
    decide!
  rw [hif] at h2
  have h3 := ReachableAfter.tick wrap_taken 1 h2
  rw [e2] at h3
  have hlen : (received_bytes obliging wrap_round.2.trace).length = 17 := by decide!
  have h := (occupied_count_correct obliging wrap_round.2 1 h3).2.2.2.2.1
  rw [hlen] at h
  exact ⟨h3, by decide!, by decide!, by decide!, hlen, h⟩

/-! ## Lemmas on the tick without a peer -/

/-- The value `tick` returns is the count of the object it leaves. -/
theorem tick_returns_count (os : Os) (w : World) :
    wp (tick os) (fun r w1 => ∀ n : Int, r = .ok n → get_received_byte_count w1.dpi = .ok n)
      w := by
  have hfin : ∀ w2 : World, ∀ n : Int, get_received_byte_count w2.dpi = .ok n →
      get_received_byte_count ({ w2 with dpi := w2.dpi } : World).dpi = .ok n :=
    fun _ _ h => h
  simp only [tick, wp_bind, wp_the_object, on_ok_ok, wp_ite, wp_pure, wp_on_object]
  unfold wp
  rcases (accept_eventual_incoming_connection os).run w with ⟨r, w1⟩
  rcases r with e | u
  · intro n hn; cases hn
  · simp only [on_ok_ok]
    split
    · rcases (transfer_or_drop os).run w1 with ⟨r2, w2⟩
      rcases r2 with e | u
      · intro n hn; cases hn
      · exact hfin w2
    · exact hfin w1

/-- A `tick` of a listening engine when no peer is pending: one `poll` on
the listening socket, and nothing else. -/
theorem tick_idle (os : Os) (w : World) (hc : w.dpi.m_connectionSocket = -1)
    (hl : w.dpi.m_listening_socket ≠ -1) (hpoll : (os w.trace.length).poll = .none_ready) :
    (tick os).run w =
      (get_received_byte_count w.dpi,
        { w with trace := w.trace ++ [.poll w.dpi.m_listening_socket .pollin] }) := by
  have hw : wp (tick os) (fun r w1 => (r, w1) =
      (get_received_byte_count w.dpi,
        { w with trace := w.trace ++ [.poll w.dpi.m_listening_socket .pollin] })) w := by
    simp only [tick, accept_eventual_incoming_connection, accept_connection, wp_bind,
      wp_the_object, on_ok_ok, wp_ite, wp_pure, wp_on_object, wp_c_assert, wp_syscall, hc, hl,
      if_true, if_false, bne_iff_ne, ne_eq, not_false_eq_true, hpoll, PollResult.toInt,
      not_true_eq_false]
  exact hw

/-- While no peer is pending the engine stays as construction left it:
listening, without a connection, with an empty receive buffer. -/
theorem reachable_without_peer (os : Os) (hos : no_peer_pending os) (w : World)
    (h : Reachable os w) :
    w.dpi.m_connectionSocket = -1 ∧ w.dpi.m_listening_socket ≠ -1 ∧
      receive_pending w.dpi = [] := by
  induction h with
  | constructed garbage tcp_port listen_on_local_addr_only transmit_buffer_size
      receive_buffer_size welcome_message print_informational_messages
      informational_message_prefix w hnew htx hrx =>
    have h1 := uart_dpi_new_inv os garbage tcp_port listen_on_local_addr_only
      transmit_buffer_size receive_buffer_size welcome_message print_informational_messages
      informational_message_prefix w hnew htx hrx
    have h2 := uart_dpi_new_buffers os garbage tcp_port listen_on_local_addr_only
      transmit_buffer_size receive_buffer_size welcome_message print_informational_messages
      informational_message_prefix w hnew htx hrx
    exact ⟨h1.2.2, h1.2.1, h2.2.1⟩
  | tick w _ ih =>
    rw [tick_idle os w ih.1 ih.2.1 (hos _)]
    exact ih
  | send_char w c hr ih =>
    obtain ⟨buf, p, q, hd⟩ := send_char_frame w.dpi c
    have hrx := (send_char_spec w.dpi c (reachable_inv os w hr).1).2.2.2
    refine ⟨?_, ?_, hrx.trans ih.2.2⟩
    · show (send_char w.dpi c).2.m_connectionSocket = -1
      rw [hd]; exact ih.1
    · show (send_char w.dpi c).2.m_listening_socket ≠ -1
      rw [hd]; exact ih.2.1
  | receive w hr ih =>
    have hemp : is_receive_buffer_empty w.dpi = true :=
      (rx_empty_iff w.dpi (reachable_inv os w hr).1).2 (by rw [ih.2.2]; rfl)
    have hsame : (receive w.dpi).2 = w.dpi := by simp [receive, hemp]
    show (receive w.dpi).2.m_connectionSocket = -1 ∧ (receive w.dpi).2.m_listening_socket ≠ -1 ∧
      receive_pending (receive w.dpi).2 = []
    rw [hsame]
    exact ih

/-! ## Theorems on the value tick returns -/

/-- C12. `tick` reports the occupied count of the receive buffer, and with
no peer it is always 0.  From every world, when `tick` returns a value it
is the value of `get_received_byte_count` on the object the tick leaves;
from a reachable world this is the number of bytes waiting in the receive
buffer at the end of the tick.  And in every world reachable from a
successful construction by calls of `tick`, `send_char` and `receive` while
`poll` never reports a pending peer, `tick` returns 0, makes one call, the
`poll` with timeout zero on the listening socket, and leaves the object and
the log as they were. -/
theorem tick_reports_count (os : Os) (w : World) :
    (∀ n : Int, ((tick os).run w).1 = .ok n →
      get_received_byte_count ((tick os).run w).2.dpi = .ok n) ∧
    (Reachable os w → ∀ n : Int, ((tick os).run w).1 = .ok n →
      n = ((receive_pending ((tick os).run w).2.dpi).length : Int)) ∧
    (Reachable os w → no_peer_pending os →
      (tick os).run w =
        (.ok 0, { w with trace := w.trace ++ [.poll w.dpi.m_listening_socket .pollin] })) := by
  refine ⟨tick_returns_count os w, fun hr n hn => ?_, fun hr hos => ?_⟩
  · have hs := (tick_spec os w (reachable_inv os w hr)).2
    rcases hs with hs | ⟨⟨_, _, hs, _⟩, _⟩
    · rw [hs] at hn
      injection hn with hn
      exact hn.symm
    · rw [hs] at hn; cases hn
  · obtain ⟨hc, hl, hrx⟩ := reachable_without_peer os hos w hr
    rw [tick_idle os w hc hl (hos _), get_received_byte_count_eq w.dpi (reachable_inv os w hr).1,
      hrx]
    rfl

/-- Witness for C12: the sample engine under an oracle with no peer, after
construction, a `send_char` and a `tick`: its next `tick` returns 0 and
makes one `poll` on the listening socket, descriptor 3. -/
theorem tick_reports_count_witness :
    no_peer_pending lonely ∧
    Reachable lonely
      ((tick lonely).run { lonely_new.2 with dpi := (send_char lonely_new.2.dpi 0x41).2 }).2 ∧
    (tick lonely).run
        ((tick lonely).run { lonely_new.2 with dpi := (send_char lonely_new.2.dpi 0x41).2 }).2 =
      (.ok 0,
        { lonely_new.2 with
          dpi := (send_char lonely_new.2.dpi 0x41).2
          trace := lonely_new.2.trace ++ [.poll 3 .pollin, .poll 3 .pollin] }) :=
  have hos : no_peer_pending lonely := fun _ => rfl
  have h0 : Reachable lonely { lonely_new.2 with dpi := (send_char lonely_new.2.dpi 0x41).2 } :=
    Reachable.send_char lonely_new.2 0x41
      (Reachable.constructed zeroed 5678 1 16 16 (some [0x48, 0x49]) 0 none
        lonely_new.2 (by rfl) (by decide) (by decide))
  have h1 := (tick_reports_count lonely _).2.2 h0 hos
  have h2 := (tick_reports_count lonely _).2.2 (Reachable.tick _ h0) hos
  ⟨hos, Reachable.tick _ h0, h2.trans (by rw [h1]; rfl)⟩

/-! ## Lemmas on the end of a session -/

theorem session_ends_in_append (os : Os) (a b : List Syscall) : ∀ first : Nat,
    session_ends_in os first (a ++ b) =
      (session_ends_in os first a || session_ends_in os (first + a.length) b) := by
  induction a with
  | nil => intro first; simp [session_ends_in]
  | cons c rest ih =>
    intro first
    show (ends_session os first c || session_ends_in os (first + 1) (rest ++ b)) =
      ((ends_session os first c || session_ends_in os (first + 1) rest) ||
        session_ends_in os (first + (rest.length + 1)) b)
    rw [ih, Bool.or_assoc, show first + 1 + rest.length = first + (rest.length + 1) by omega]

theorem session_drop_refl (os : Os) (w : World) (dropped : Prop) (h : ¬ dropped) :
    session_drop os w dropped w :=
  ⟨[], by simp, by simp [session_ends_in, h]⟩

/-- The calls made so far ended nothing: what follows decides. -/
theorem session_drop_step (os : Os) (w w0 w1 : World) (dropped : Prop) (pre : List Syscall)
    (htrace : w0.trace = w.trace ++ pre)
    (hpre : session_ends_in os w.trace.length pre = false)
    (h : session_drop os w0 dropped w1) : session_drop os w dropped w1 := by
  obtain ⟨calls, h1, h2⟩ := h
  refine ⟨pre ++ calls, by rw [h1, htrace, List.append_assoc], ?_⟩
  rw [session_ends_in_append, hpre, Bool.false_or, ← h2, htrace, List.length_append]

/-- The calls made so far ended the session. -/
theorem session_drop_of_ended (os : Os) (w w1 : World) (dropped : Prop) (calls : List Syscall)
    (htrace : w1.trace = w.trace ++ calls)
    (hcalls : session_ends_in os w.trace.length calls = true) (h : dropped) :
    session_drop os w dropped w1 :=
  ⟨calls, htrace, by simp [hcalls, h]⟩

/-- The calls made ended nothing. -/
theorem session_drop_of_kept (os : Os) (w w1 : World) (dropped : Prop) (calls : List Syscall)
    (htrace : w1.trace = w.trace ++ calls)
    (hcalls : session_ends_in os w.trace.length calls = false) (h : ¬ dropped) :
    session_drop os w dropped w1 :=
  ⟨calls, htrace, by simp [hcalls, h]⟩

/-- The transmit loop raises exactly when a `poll` or a `send` of the
connection fails. -/
theorem transmit_data_loop_drop (os : Os) (fuel : Nat) : ∀ (w : World), BuffersOk w.dpi →
    cursor_ok w.dpi → transmit_backlog w.dpi < fuel →
    wp (transmit_data_loop os fuel) (fun r w1 => session_drop os w (r ≠ .ok ()) w1) w := by
  induction fuel with
  | zero => intro w _ _ h; omega
  | succ fuel ih =>
    intro w hok hcur hfuel
    simp only [transmit_data_loop, wp_bind, wp_the_object, on_ok_ok, wp_ite, wp_pure,
      wp_syscall, wp_throw_runtime_error, wp_c_assert]
    by_cases hcond : (!is_transmit_buffer_empty w.dpi || w.dpi.m_welcome_message_pos != -1) = true
    · rw [if_pos hcond]
      have hsome : is_transmit_buffer_empty w.dpi = false ∨ w.dpi.m_welcome_message_pos ≠ -1 := by
        simpa using hcond
      cases hpoll : (os w.trace.length).poll
      · simp only [PollResult.toInt, if_true]
        exact session_drop_of_ended os w _ _ [_] rfl
          (by simp [session_ends_in, ends_session, hpoll]) (by simp)
      · simp only [PollResult.toInt, show ¬ ((0 : Int) = -1) by decide, if_true, if_false]
        exact session_drop_of_kept os w _ _ [_] rfl
          (by simp [session_ends_in, ends_session, hpoll]) (by simp)
      · simp only [PollResult.toInt, show ¬ ((1 : Int) = -1) by decide,
          show ¬ ((1 : Int) = 0) by decide, beq_self_eq_true, if_true, if_false, on_ok_ok]
        apply wp_mono _ _ _ _ (next_byte_to_send_spec
          { w with trace := w.trace ++ [Syscall.poll w.dpi.m_connectionSocket PollEvents.pollout] }
          hok hcur hsome)
        rintro r w1 ⟨⟨b, hb⟩, ht, _, h1, h2, _, _, h5⟩
        subst hb
        have ht1 : w1.trace = w.trace ++ [Syscall.poll w.dpi.m_connectionSocket
            PollEvents.pollout] := ht
        have hlen1 : w1.trace.length = w.trace.length + 1 := by rw [ht1]; simp
        simp only [on_ok_ok, send_byte, wp_bind, wp_the_object, wp_syscall, wp_ite,
          wp_throw_runtime_error, wp_pure]
        cases hsend : (os w1.trace.length).ok
        · simp only [Bool.not_false, if_true]
          refine session_drop_of_ended os w _ _
            [Syscall.poll w.dpi.m_connectionSocket PollEvents.pollout,
              Syscall.send w1.dpi.m_connectionSocket b] ?_ ?_ (by simp)
          · show w1.trace ++ [_] = _
            rw [ht1]; simp
          · rw [hlen1] at hsend
            simp [session_ends_in, ends_session, hpoll, hsend]
        · simp only [Bool.not_true, Bool.false_eq_true, if_false]
          apply wp_mono _ _ _ _ (ih
            { w1 with trace := w1.trace ++ [Syscall.send w1.dpi.m_connectionSocket b] }
            h1 h2 (by
              show transmit_backlog w1.dpi < fuel
              have : transmit_backlog w1.dpi < transmit_backlog w.dpi := h5
              omega))
          intro r2 w2 hpost
          refine session_drop_step os w _ w2 _
            [Syscall.poll w.dpi.m_connectionSocket PollEvents.pollout,
              Syscall.send w1.dpi.m_connectionSocket b] ?_ ?_ hpost
          · show w1.trace ++ [_] = _
            rw [ht1]; simp
          · rw [hlen1] at hsend
            simp [session_ends_in, ends_session, hpoll, hsend]
    · rw [if_neg hcond]
      exact session_drop_refl os w _ (by simp)

/-- The receive loop raises or closes the connection exactly when a `poll`
of the connection fails or a `recv` returns 0 or fails other than with
`EAGAIN` / `EWOULDBLOCK`. -/
theorem receive_data_loop_drop (os : Os) (fuel : Nat) : ∀ (w : World), BuffersOk w.dpi →
    w.dpi.m_connectionSocket ≠ -1 →
    w.dpi.m_receive_buffer_size ≤ (receive_pending w.dpi).length + fuel →
    wp (receive_data_loop os fuel) (fun r w1 =>
      session_drop os w (r ≠ .ok () ∨ w1.dpi.m_connectionSocket = -1) w1) w := by
  induction fuel with
  | zero =>
    intro w hok _ hfuel
    have := rx_pending_lt w.dpi hok
    omega
  | succ fuel ih =>
    intro w hok hconn hfuel
    simp only [receive_data_loop, wp_bind, wp_the_object, on_ok_ok, wp_ite, wp_pure,
      wp_syscall, wp_throw_runtime_error, wp_c_assert, wp_print_line, wp_on_object]
    cases hfull : is_receive_buffer_full w.dpi
    · simp only [Bool.not_false, if_true]
      cases hpoll : (os w.trace.length).poll
      · simp only [PollResult.toInt, if_true]
        exact session_drop_of_ended os w _ _ [_] rfl
          (by simp [session_ends_in, ends_session, hpoll]) (by simp)
      · simp only [PollResult.toInt, show ¬ ((0 : Int) = -1) by decide, if_true, if_false]
        exact session_drop_of_kept os w _ _ [_] rfl
          (by simp [session_ends_in, ends_session, hpoll]) (by simp [hconn])
      · simp only [PollResult.toInt, show ¬ ((1 : Int) = -1) by decide,
          show ¬ ((1 : Int) = 0) by decide, beq_self_eq_true, if_true, if_false, on_ok_ok]
        have hlen1 : (w.trace ++ [Syscall.poll w.dpi.m_connectionSocket
            PollEvents.pollin]).length = w.trace.length + 1 := by simp
        rw [hlen1]
        cases hrecv : (os (w.trace.length + 1)).recv
        · simp only [RecvResult.toInt, show ¬ ((-1 : Int) = 0) by decide, if_true, if_false]
          split
          · next hagain =>
            refine session_drop_of_kept os w _ _
              [Syscall.poll w.dpi.m_connectionSocket PollEvents.pollin,
                Syscall.recv w.dpi.m_connectionSocket] (by simp) ?_ (by simp [hconn])
            simp only [session_ends_in, ends_session, hpoll, hrecv, hagain]
            simp
          · next hagain =>
            refine session_drop_of_ended os w _ _
              [Syscall.poll w.dpi.m_connectionSocket PollEvents.pollin,
                Syscall.recv w.dpi.m_connectionSocket] (by simp) ?_ (by simp)
            simp only [session_ends_in, ends_session, hpoll, hrecv, hagain]
            simp
        · simp only [RecvResult.toInt, if_true]
          have hfin : ∀ lg : List LogEvent,
              wp (close_current_connection os) (fun r w1 =>
                session_drop os w (r ≠ .ok () ∨ w1.dpi.m_connectionSocket = -1) w1)
                { dpi := w.dpi,
                  trace := w.trace ++ [Syscall.poll w.dpi.m_connectionSocket PollEvents.pollin]
                    ++ [Syscall.recv w.dpi.m_connectionSocket],
                  log := lg } := by
            intro lg
            refine wp_of_close_current_connection _ _ _ hconn ?_
            refine session_drop_of_ended os w _ _
              [Syscall.poll w.dpi.m_connectionSocket PollEvents.pollin,
                Syscall.recv w.dpi.m_connectionSocket,
                Syscall.close w.dpi.m_connectionSocket] (by simp) ?_ (Or.inr rfl)
            simp only [session_ends_in, ends_session, hpoll, hrecv]
            simp
          split
          · exact hfin _
          · exact hfin _
        · simp only [RecvResult.toInt, show ¬ ((1 : Int) = -1) by decide,
            show ¬ ((1 : Int) = 0) by decide, beq_self_eq_true, if_true, if_false]
          generalize (os (w.trace.length + 1)).recv_data = b
          obtain ⟨a1, a2, a3, a4⟩ := enqueue_receive_byte_ok w.dpi b hok hfull
          rw [a1]
          simp only [on_ok_ok]
          have hc : (enqueue_receive_byte w.dpi b).2.m_connectionSocket
              = w.dpi.m_connectionSocket := by
            simp [enqueue_receive_byte, hfull]
          have hsz : (enqueue_receive_byte w.dpi b).2.m_receive_buffer_size
              = w.dpi.m_receive_buffer_size :=
            congrArg Prod.fst (enqueue_receive_byte_capacities w.dpi b)
          have hlen : (receive_pending (enqueue_receive_byte w.dpi b).2).length
              = (receive_pending w.dpi).length + 1 := by rw [a3]; simp
          apply wp_mono _ _ _ _ (ih
            { dpi := (enqueue_receive_byte w.dpi b).2,
              trace := w.trace ++ [Syscall.poll w.dpi.m_connectionSocket PollEvents.pollin]
                ++ [Syscall.recv w.dpi.m_connectionSocket],
              log := w.log }
            a2 (by rw [hc]; exact hconn)
            (by show (enqueue_receive_byte w.dpi b).2.m_receive_buffer_size ≤
                  (receive_pending (enqueue_receive_byte w.dpi b).2).length + fuel
                rw [hsz, hlen]; omega))
          intro r w2 hpost
          refine session_drop_step os w _ w2 _
            [Syscall.poll w.dpi.m_connectionSocket PollEvents.pollin,
              Syscall.recv w.dpi.m_connectionSocket] (by simp) ?_ hpost
          simp only [session_ends_in, ends_session, hpoll, hrecv]
          simp
    · simp only [Bool.not_true, Bool.false_eq_true, if_false]
      exact session_drop_refl os w _ (by simp [hconn])

theorem transmit_data_drop (os : Os) (w : World) (hok : BuffersOk w.dpi)
    (hcur : cursor_ok w.dpi) :
    wp (transmit_data os) (fun r w1 => session_drop os w (r ≠ .ok ()) w1) w := by
  simp only [transmit_data, wp_bind, wp_the_object, on_ok_ok]
  have := transmit_backlog_le w.dpi hok
  exact transmit_data_loop_drop os _ w hok hcur (by omega)

theorem receive_data_drop (os : Os) (w : World) (hok : BuffersOk w.dpi)
    (hconn : w.dpi.m_connectionSocket ≠ -1) :
    wp (receive_data os) (fun r w1 =>
      session_drop os w (r ≠ .ok () ∨ w1.dpi.m_connectionSocket = -1) w1) w := by
  simp only [receive_data, wp_bind, wp_the_object, on_ok_ok]
  exact receive_data_loop_drop os _ w hok hconn (by omega)

/-- The transfer of one tick leaves no connection exactly when one of its
calls got a reply that ends the session. -/
theorem transfer_or_drop_drop (os : Os) (w : World) (hinv : engine_inv w.dpi)
    (hconn : w.dpi.m_connectionSocket ≠ -1) :
    wp (transfer_or_drop os) (fun _ w1 =>
      session_drop os w (w1.dpi.m_connectionSocket = -1) w1) w := by
  obtain ⟨hok, _, hcur, _⟩ := hinv
  have hclose : ∀ (w0 : World) (e : LogEvent), w0.dpi.m_connectionSocket ≠ -1 →
      session_drop os w True w0 →
      wp (close_current_connection os) (fun _ w1 =>
        session_drop os w (w1.dpi.m_connectionSocket = -1) w1)
        { w0 with log := w0.log ++ [e] } := by
    intro w0 e hc0 ⟨calls, g1, g2⟩
    refine wp_of_close_current_connection _ _ _ hc0 ?_
    refine session_drop_of_ended os w _ _ (calls ++ [Syscall.close w0.dpi.m_connectionSocket])
      ?_ ?_ rfl
    · show w0.trace ++ [_] = _
      rw [g1, List.append_assoc]
    · rw [session_ends_in_append, g2.2 trivial]
      rfl
  simp only [transfer_or_drop, wp_try_catch, wp_bind]
  apply wp_mono _ _ _ _ (wp_and _ _ _ _ (transmit_data_spec os w hok (hcur hconn))
    (transmit_data_drop os w hok (hcur hconn)))
  rintro r w1 ⟨⟨a1, a2, _, ⟨p, pos, a4⟩, _⟩, ad⟩
  have hc1 : w1.dpi.m_connectionSocket ≠ -1 := by rw [a4]; exact hconn
  rcases r with e | u
  · cases e with
    | runtime_error what =>
      simp only [on_ok_error, on_caught_runtime_error, wp_bind, wp_print_line, on_ok_ok]
      refine hclose w1 _ hc1 ?_
      obtain ⟨calls, g1, g2⟩ := ad
      exact ⟨calls, g1, by simp [g2.2 (by simp)]⟩
    | assertion_failed x => exact absurd a1 (by simp [returns_or_raises])
    | out_of_fuel => exact absurd a1 (by simp [returns_or_raises])
  · simp only [on_ok_ok]
    obtain ⟨calls1, t1, e1⟩ := ad
    have hkept : session_ends_in os w.trace.length calls1 = false := by
      cases hq : session_ends_in os w.trace.length calls1
      · rfl
      · exact absurd rfl (e1.1 hq)
    apply wp_mono _ _ _ _ (wp_and _ _ _ _ (receive_data_spec os w1 a2 hc1)
      (receive_data_drop os w1 a2 hc1))
    rintro r2 w2 ⟨⟨b1, _, _, b4, _⟩, bd⟩
    have bd2 : session_drop os w (r2 ≠ .ok () ∨ w2.dpi.m_connectionSocket = -1) w2 :=
      session_drop_step os w w1 w2 _ calls1 t1 hkept bd
    rcases r2 with e | u
    · cases e with
      | runtime_error what =>
        have hc2 : w2.dpi.m_connectionSocket ≠ -1 := by
          rcases b4 with h | ⟨h, _⟩
          · rw [h]; exact hc1
          · cases h
        simp only [on_caught_runtime_error, wp_bind, wp_print_line, on_ok_ok]
        refine hclose w2 _ hc2 ?_
        obtain ⟨calls, g1, g2⟩ := bd2
        exact ⟨calls, g1, by simp [g2.2 (Or.inl (by simp))]⟩
      | assertion_failed x => exact absurd b1 (by simp [returns_or_raises])
      | out_of_fuel => exact absurd b1 (by simp [returns_or_raises])
    · simp only [on_caught_ok]
      obtain ⟨calls, g1, g2⟩ := bd2
      exact ⟨calls, g1, by simpa using g2⟩

/-- A tick that starts with a connection returns, and leaves no connection
exactly when one of its calls got a reply that ends the session. -/
theorem tick_drop (os : Os) (w : World) (hinv : engine_inv w.dpi)
    (hconn : w.dpi.m_connectionSocket ≠ -1) :
    wp (tick os) (fun r w1 =>
      (∃ n : Int, r = .ok n) ∧ w1.dpi.m_listening_socket = -1 ∧
      session_drop os w (w1.dpi.m_connectionSocket = -1) w1) w := by
  have hl : w.dpi.m_listening_socket = -1 := by
    rcases hinv.2.1 with h | h
    · exact h
    · exact absurd h hconn
  simp only [tick, accept_eventual_incoming_connection, wp_bind, wp_the_object, on_ok_ok,
    wp_ite, wp_pure, wp_on_object, hconn, if_false, ne_eq, not_false_eq_true, if_true]
  apply wp_mono _ _ _ _ (wp_and _ _ _ _ (transfer_or_drop_spec os w hinv hconn)
    (transfer_or_drop_drop os w hinv hconn))
  rintro r w1 ⟨⟨d1, d2, ⟨⟨p, pos, buf, q, c, d3⟩, _⟩⟩, dd⟩
  subst d1
  simp only [on_ok_ok]
  refine ⟨⟨_, get_received_byte_count_eq w1.dpi d2.1⟩, ?_, dd⟩
  show w1.dpi.m_listening_socket = -1
  rw [d3]; exact hl

/-- The first step of a tick without a connection and without a listening
socket, when the calls succeed and a peer is pending: the listening socket
is created again, the peer is accepted, the listening socket is closed. -/
theorem accept_eventual_incoming_connection_recovers (os : Os) (w : World)
    (hc : w.dpi.m_connectionSocket = -1) (hl : w.dpi.m_listening_socket = -1)
    (hflag : w.dpi.m_listening_message_already_printed = true)
    (hs : succeeds_during os w.trace.length 7) :
    wp (accept_eventual_incoming_connection os) (fun r w1 =>
      r = .ok () ∧ ∃ l c : Nat, ∃ rest : List Syscall,
        w1.dpi = { w.dpi with
          m_connectionSocket := (c : Int)
          m_welcome_message_pos := if w.dpi.m_welcome_message.isEmpty then -1 else 0
          m_listening_socket := -1 } ∧
        w1.trace = w.trace ++
          [.socket, .setsockopt l, .bind l w.dpi.m_listening_tcp_port
            w.dpi.m_listen_on_local_addr_only, .listen l 1, .poll l .pollin, .accept4 l] ++
          rest) w := by
  obtain ⟨l, f0⟩ : ∃ l, (os w.trace.length).fd = some l := by
    cases h : (os w.trace.length).fd with
    | none => exact absurd h (hs _ (by omega) (by omega)).2.1
    | some l => exact ⟨l, rfl⟩
  have f1 : (os (w.trace.length + 1)).ok = true := (hs _ (by omega) (by omega)).1
  have f2 : (os (w.trace.length + 1 + 1)).ok = true := (hs _ (by omega) (by omega)).1
  have f3 : (os (w.trace.length + 1 + 1 + 1)).ok = true := (hs _ (by omega) (by omega)).1
  have f4 : (os (w.trace.length + 1 + 1 + 1 + 1)).poll = .one_ready :=
    (hs _ (by omega) (by omega)).2.2.1
  obtain ⟨c, f5⟩ : ∃ c, (os (w.trace.length + 1 + 1 + 1 + 1 + 1)).fd = some c := by
    cases h : (os (w.trace.length + 1 + 1 + 1 + 1 + 1)).fd with
    | none => exact absurd h (hs _ (by omega) (by omega)).2.1
    | some c => exact ⟨c, rfl⟩
  have f5b : ¬ ((os (w.trace.length + 1 + 1 + 1 + 1 + 1)).addr_len > SIZEOF_SOCKADDR_IN) := by
    have := (hs (w.trace.length + 1 + 1 + 1 + 1 + 1) (by omega) (by omega)).2.2.2.1
    omega
  obtain ⟨str, f6⟩ : ∃ str, (os (w.trace.length + 1 + 1 + 1 + 1 + 1 + 1)).addr_text
      = some str := by
    cases h : (os (w.trace.length + 1 + 1 + 1 + 1 + 1 + 1)).addr_text with
    | none => exact absurd h (hs _ (by omega) (by omega)).2.2.2.2
    | some str => exact ⟨str, rfl⟩
  have hln : fd_to_int (some l) ≠ -1 := fd_to_int_some_ne l
  have hcn : fd_to_int (some c) ≠ -1 := fd_to_int_some_ne c
  simp only [accept_eventual_incoming_connection, create_listening_socket,
    create_listening_socket_try, print_listening_message_once, accept_connection,
    accept_pending_connection, accept_connection_try, close_listening_socket, wp_bind,
    wp_the_object, wp_syscall, wp_assign, on_ok_ok, wp_c_assert, wp_ite, wp_try_catch,
    wp_throw_runtime_error, wp_pure, wp_ip_address_to_text, wp_print_line, on_caught_ok,
    on_ok_error, on_caught_runtime_error, hc, hl, hflag, f0, f1, f2, f3, f4, f5, f5b, f6, hln,
    hcn, beq_self_eq_true, if_true, if_false, Bool.not_true, Bool.false_eq_true,
    List.length_append, List.length_singleton, PollResult.toInt, bne_iff_ne, ne_eq,
    not_false_eq_true, not_true_eq_false, show ¬ ((1 : Int) = -1) by decide,
    show ¬ ((1 : Int) = 0) by decide]
  split
  · exact ⟨trivial, l, c, [.inet_ntop, .close l], rfl, by simp [fd_to_int]⟩
  · exact ⟨trivial, l, c, [.close l], rfl, by simp [fd_to_int]⟩


/-- A tick that accepts a peer returns, and its calls follow those of the
first step. -/
theorem tick_after_accept (os : Os) (w : World) (hinv : engine_inv w.dpi)
    (hacc : ((accept_eventual_incoming_connection os).run w).2.dpi.m_connectionSocket ≠ -1) :
    wp (tick os) (fun r w1 =>
      (∃ n : Int, r = .ok n) ∧
      ∃ calls, w1.trace = ((accept_eventual_incoming_connection os).run w).2.trace ++ calls)
      w := by
  simp only [tick, wp_bind, wp_the_object, on_ok_ok, wp_ite, wp_pure, wp_on_object]
  apply wp_mono _ _ _ _ (wp_and _ _ _ _ (accept_eventual_incoming_connection_spec os w hinv)
    (wp_self (accept_eventual_incoming_connection os) w))
  rintro r w1 ⟨⟨inv1, _, hr⟩, _, hself⟩
  have hc1 : w1.dpi.m_connectionSocket ≠ -1 := by rw [hself]; exact hacc
  have hr1 : r = .ok () := by
    rcases hr with hr | ⟨_, _, hr⟩
    · exact hr
    · exact absurd hr hc1
  subst hr1
  simp only [on_ok_ok]
  rw [if_pos hc1]
  apply wp_mono _ _ _ _ (wp_and _ _ _ _ (transfer_or_drop_spec os w1 inv1 hc1)
    (transfer_or_drop_drop os w1 inv1 hc1))
  rintro r2 w2 ⟨⟨d1, d2, _⟩, ⟨calls, dt, _⟩⟩
  subst d1
  simp only [on_ok_ok]
  refine ⟨⟨_, get_received_byte_count_eq w2.dpi d2.1⟩, calls, ?_⟩
  show w2.trace = _
  rw [dt, hself]

/-! ## Theorems on the end of a session -/

/-- C13. Session drop and recovery.  Take a world reachable from a
successful construction.  If it has a connection, `tick` returns, and it
leaves no connection (and no listening socket) exactly when one of the
calls it made got a reply that ends the session: a `poll` or a `send` that
failed, a `recv` that returned 0 (the peer has closed) or failed with an
error other than `EAGAIN` / `EWOULDBLOCK`.  If it has neither a connection
nor a listening socket, which is how such a tick leaves it, and the next
seven calls succeed with a peer pending, `tick` returns too: it creates the
listening socket again (`socket`, `setsockopt`, `bind`, `listen`), polls
it and accepts the peer, whose descriptor becomes the connection socket of
the same object. -/
theorem session_drop_and_recovery (os : Os) (w : World) (h : Reachable os w) :
    (w.dpi.m_connectionSocket ≠ -1 →
      (∃ n : Int, ((tick os).run w).1 = .ok n) ∧
      ((tick os).run w).2.dpi.m_listening_socket = -1 ∧
      ∃ calls, ((tick os).run w).2.trace = w.trace ++ calls ∧
        (session_ends_in os w.trace.length calls = true ↔
          ((tick os).run w).2.dpi.m_connectionSocket = -1)) ∧
    (w.dpi.m_connectionSocket = -1 → w.dpi.m_listening_socket = -1 →
      succeeds_during os w.trace.length 7 →
      (∃ n : Int, ((tick os).run w).1 = .ok n) ∧
      ∃ l c : Nat, ∃ rest : List Syscall,
        ((accept_eventual_incoming_connection os).run w).2.dpi =
          { w.dpi with
            m_connectionSocket := (c : Int)
            m_welcome_message_pos := if w.dpi.m_welcome_message.isEmpty then -1 else 0
            m_listening_socket := -1 } ∧
        ((tick os).run w).2.trace = w.trace ++
          [.socket, .setsockopt l, .bind l w.dpi.m_listening_tcp_port
            w.dpi.m_listen_on_local_addr_only, .listen l 1, .poll l .pollin, .accept4 l] ++
          rest) := by
  have hinv := reachable_inv os w h
  constructor
  · intro hconn
    exact tick_drop os w hinv hconn
  · intro hc hl hs
    obtain ⟨_, l, c, rest, hd, ht⟩ :=
      accept_eventual_incoming_connection_recovers os w hc hl hinv.2.2.2 hs
    have hacc : ((accept_eventual_incoming_connection os).run w).2.dpi.m_connectionSocket
        ≠ -1 := by
      rw [hd]
      show (c : Int) ≠ -1
      omega
    obtain ⟨hn, calls, hcalls⟩ := tick_after_accept os w hinv hacc
    refine ⟨hn, l, c, rest ++ calls, hd, ?_⟩
    rw [hcalls, ht, List.append_assoc]

/-- Witness for C13.  The sample engine of the short session is connected
after its first tick, and in its second tick `recv` returns 0: the tick
returns and leaves no connection.  The sample engine of the two sessions
has lost its first peer after its first tick, and the calls of its second
tick succeed: the second peer is accepted on descriptor 3. -/
theorem session_drop_and_recovery_witness :
    (Reachable reopen_fails short_welcome.2 ∧
      short_welcome.2.dpi.m_connectionSocket ≠ -1 ∧
      (∃ n : Int, ((tick reopen_fails).run short_welcome.2).1 = .ok n) ∧
      ((tick reopen_fails).run short_welcome.2).2.dpi.m_listening_socket = -1 ∧
      short_closed.2.trace = short_welcome.2.trace ++ [.poll 3 .pollin, .recv 3, .close 3] ∧
      short_closed.2.dpi.m_connectionSocket = -1) ∧
    (Reachable first_peer_leaves hi_dropped.2 ∧
      hi_dropped.2.dpi.m_connectionSocket = -1 ∧
      hi_dropped.2.dpi.m_listening_socket = -1 ∧
      succeeds_during first_peer_leaves hi_dropped.2.trace.length 7 ∧
      (∃ n : Int, ((tick first_peer_leaves).run hi_dropped.2).1 = .ok n) ∧
      ((accept_eventual_incoming_connection first_peer_leaves).run
        hi_dropped.2).2.dpi.m_connectionSocket = 3) := by
  have e1 : ((tick reopen_fails).run short_new.2).2 = short_welcome.2 :=
    tick_world_of_stages _ _ (by decide!) (by decide!) (by decide!)
  have h0 : Reachable reopen_fails short_new.2 :=
    Reachable.constructed zeroed 5678 1 16 16 (some [0x48, 0x49]) 0 none
      short_new.2 (by rfl) (by decide) (by decide)
  have h1 := Reachable.tick short_new.2 h0
  rw [e1] at h1
  have hc1 : short_welcome.2.dpi.m_connectionSocket ≠ -1 := by decide!
  have t1 := (session_drop_and_recovery reopen_fails short_welcome.2 h1).1 hc1
  have e2 : ((tick first_peer_leaves).run hi_queued).2 = hi_dropped.2 :=
    tick_world_of_stages _ _ (by decide!) (by decide!) (by decide!)
  have g0 : Reachable first_peer_leaves hi_queued :=
    Reachable.send_char hi_new.2 0x41
      (Reachable.constructed zeroed 5678 1 16 16 (some [0x48, 0x49]) 0 none
        hi_new.2 (by rfl) (by decide) (by decide))
  have g1 := Reachable.tick hi_queued g0
  rw [e2] at g1
  have hs : succeeds_during first_peer_leaves hi_dropped.2.trace.length 7 := by
    intro n _ _
    unfold first_peer_leaves
    split <;> simp [obliging, SIZEOF_SOCKADDR_IN]
  have t2 := (session_drop_and_recovery first_peer_leaves hi_dropped.2 g1).2
    (by decide!) (by decide!) hs
  exact ⟨⟨h1, hc1, t1.1, t1.2.1, by decide!, by decide!⟩,
    ⟨g1, by decide!, by decide!, hs, t2.1, by decide!⟩⟩

/-! ## Lemmas on the banner -/

theorem banner_count_snoc (log : List LogEvent) (e : LogEvent) :
    banner_count (log ++ [e]) = banner_count log + (if is_banner e then 1 else 0) := by
  unfold banner_count
  rw [List.filter_append, List.length_append]
  cases h : is_banner e <;> simp [List.filter, h]

theorem keeps_banner_bind {α β : Type} (m : Method α) (f : α → Method β)
    (hm : keeps_banner m) (hf : ∀ a, keeps_banner (f a)) : keeps_banner (m >>= f) := by
  intro w hw
  have hb : (m >>= f).run w =
      match m.run w with
      | (.ok a, w1) => (f a).run w1
      | (.error e, w1) => (.error e, w1) := rfl
  rw [hb]
  have h1 := hm w hw
  rcases hrun : m.run w with ⟨r, w1⟩
  rw [hrun] at h1
  cases r with
  | ok a =>
    obtain ⟨g1, g2, g3⟩ := hf a w1 h1.1
    exact ⟨g1, g2.trans h1.2.1, g3.trans h1.2.2⟩
  | error e => exact h1

theorem keeps_banner_try_catch {α : Type} (body : Method α) (handler : What → Method α)
    (hm : keeps_banner body) (hf : ∀ what, keeps_banner (handler what)) :
    keeps_banner (try_catch body handler) := by
  intro w hw
  have hb : (try_catch body handler).run w =
      match body.run w with
      | (.error (.runtime_error what), w1) => (handler what).run w1
      | (r, w1) => (r, w1) := rfl
  rw [hb]
  have h1 := hm w hw
  rcases hrun : body.run w with ⟨r, w1⟩
  rw [hrun] at h1
  rcases r with e | a
  · cases e with
    | runtime_error what =>
      obtain ⟨g1, g2, g3⟩ := hf what w1 h1.1
      exact ⟨g1, g2.trans h1.2.1, g3.trans h1.2.2⟩
    | assertion_failed x => exact h1
    | out_of_fuel => exact h1
  · exact h1

theorem keeps_banner_ite {α : Type} (c : Prop) [Decidable c] (a b : Method α)
    (ha : keeps_banner a) (hb : keeps_banner b) : keeps_banner (if c then a else b) := by
  split
  · exact ha
  · exact hb

theorem keeps_banner_pure {α : Type} (a : α) : keeps_banner (pure a : Method α) :=
  fun _ h => ⟨h, rfl, rfl⟩

theorem keeps_banner_the_object : keeps_banner the_object := fun _ h => ⟨h, rfl, rfl⟩

theorem keeps_banner_assign (f : uart_dpi → uart_dpi) (hf : keeps_settings f) :
    keeps_banner (assign f) := fun w h => ⟨(hf w.dpi h).1, (hf w.dpi h).2, rfl⟩

theorem keeps_banner_on_object {α : Type} (f : uart_dpi → Except Failure α × uart_dpi)
    (hf : keeps_settings (fun d => (f d).2)) : keeps_banner (on_object f) :=
  fun w h => ⟨(hf w.dpi h).1, (hf w.dpi h).2, rfl⟩

theorem keeps_banner_print_line (e : LogEvent) (he : is_banner e = false) :
    keeps_banner (print_line e) := by
  intro w h
  refine ⟨h, rfl, ?_⟩
  show banner_count (w.log ++ [e]) = banner_count w.log
  rw [banner_count_snoc, he]
  rfl

theorem keeps_banner_throw_runtime_error {α : Type} (what : What) :
    keeps_banner (throw_runtime_error what : Method α) := fun _ h => ⟨h, rfl, rfl⟩

theorem keeps_banner_fuel_exhausted {α : Type} : keeps_banner (fuel_exhausted : Method α) :=
  fun _ h => ⟨h, rfl, rfl⟩

theorem keeps_banner_c_assert (cond : Bool) (expr : String) :
    keeps_banner (c_assert cond expr) := by
  intro w h
  unfold c_assert Method.run
  cases cond <;> exact ⟨h, rfl, rfl⟩

theorem keeps_banner_syscall (os : Os) (c : Syscall) : keeps_banner (syscall os c) :=
  fun _ h => ⟨h, rfl, rfl⟩

theorem keeps_settings_deque_transmit_byte :
    keeps_settings (fun d => (deque_transmit_byte d).2) := by
  intro d h
  by_cases he : is_transmit_buffer_empty d = true <;> simp [deque_transmit_byte, he, h]

theorem keeps_settings_enqueue_receive_byte (c : Nat) :
    keeps_settings (fun d => (enqueue_receive_byte d c).2) := by
  intro d h
  by_cases he : is_receive_buffer_full d = true <;> simp [enqueue_receive_byte, he, h]

theorem print_listening_message_once_keeps_banner (os : Os) :
    keeps_banner (print_listening_message_once os) := by
  intro w h
  have hrun : (print_listening_message_once os).run w = (.ok (), w) := by
    have hw : wp (print_listening_message_once os) (fun r w1 => (r, w1) = (.ok (), w)) w := by
      simp only [print_listening_message_once, wp_bind, wp_the_object, on_ok_ok, wp_ite, h,
        Bool.not_true, Bool.false_eq_true, if_false, wp_pure]
    exact hw
  rw [hrun]
  exact ⟨h, rfl, rfl⟩

theorem close_current_connection_keeps_banner (os : Os) :
    keeps_banner (close_current_connection os) := by
  unfold close_current_connection
  repeat' with_reducible first
    | exact keeps_banner_pure _
    | exact keeps_banner_the_object
    | exact keeps_banner_throw_runtime_error _
    | exact keeps_banner_c_assert _ _
    | exact keeps_banner_syscall _ _
    | exact keeps_banner_fuel_exhausted
    | refine keeps_banner_assign _ ?_
    | refine keeps_banner_print_line _ ?_
    | apply keeps_banner_bind
    | apply keeps_banner_ite
    | apply keeps_banner_try_catch
    | split
    | intro _
  all_goals first | rfl | exact fun _ h => ⟨h, rfl⟩

theorem close_listening_socket_keeps_banner (os : Os) :
    keeps_banner (close_listening_socket os) := by
  unfold close_listening_socket
  repeat' with_reducible first
    | exact keeps_banner_pure _
    | exact keeps_banner_the_object
    | exact keeps_banner_throw_runtime_error _
    | exact keeps_banner_c_assert _ _
    | exact keeps_banner_syscall _ _
    | exact keeps_banner_fuel_exhausted
    | refine keeps_banner_assign _ ?_
    | refine keeps_banner_print_line _ ?_
    | apply keeps_banner_bind
    | apply keeps_banner_ite
    | apply keeps_banner_try_catch
    | split
    | intro _
  all_goals first | rfl | exact fun _ h => ⟨h, rfl⟩

theorem ip_address_to_text_keeps_banner (os : Os) :
    keeps_banner (ip_address_to_text os) := by
  unfold ip_address_to_text
  repeat' with_reducible first
    | exact keeps_banner_pure _
    | exact keeps_banner_the_object
    | exact keeps_banner_throw_runtime_error _
    | exact keeps_banner_c_assert _ _
    | exact keeps_banner_syscall _ _
    | exact keeps_banner_fuel_exhausted
    | refine keeps_banner_assign _ ?_
    | refine keeps_banner_print_line _ ?_
    | apply keeps_banner_bind
    | apply keeps_banner_ite
    | apply keeps_banner_try_catch
    | split
    | intro _

theorem create_listening_socket_try_keeps_banner (os : Os) :
    keeps_banner (create_listening_socket_try os) := by
  unfold create_listening_socket_try
  repeat' with_reducible first
    | exact print_listening_message_once_keeps_banner os
    | exact keeps_banner_pure _
    | exact keeps_banner_the_object
    | exact keeps_banner_throw_runtime_error _
    | exact keeps_banner_c_assert _ _
    | exact keeps_banner_syscall _ _
    | exact keeps_banner_fuel_exhausted
    | refine keeps_banner_assign _ ?_
    | refine keeps_banner_print_line _ ?_
    | apply keeps_banner_bind
    | apply keeps_banner_ite
    | apply keeps_banner_try_catch
    | split
    | intro _

theorem create_listening_socket_keeps_banner (os : Os) :
    keeps_banner (create_listening_socket os) := by
  unfold create_listening_socket
  repeat' with_reducible first
    | exact create_listening_socket_try_keeps_banner os
    | exact close_listening_socket_keeps_banner os
    | exact keeps_banner_pure _
    | exact keeps_banner_the_object
    | exact keeps_banner_throw_runtime_error _
    | exact keeps_banner_c_assert _ _
    | exact keeps_banner_syscall _ _
    | exact keeps_banner_fuel_exhausted
    | refine keeps_banner_assign _ ?_
    | refine keeps_banner_print_line _ ?_
    | apply keeps_banner_bind
    | apply keeps_banner_ite
    | apply keeps_banner_try_catch
    | split
    | intro _
  all_goals first | rfl | exact fun _ h => ⟨h, rfl⟩

theorem accept_connection_try_keeps_banner (os : Os) (connectionSocket : Int) (ra : OsReply) :
    keeps_banner (accept_connection_try os connectionSocket ra) := by
  unfold accept_connection_try
  repeat' with_reducible first
    | exact ip_address_to_text_keeps_banner os
    | exact keeps_banner_pure _
    | exact keeps_banner_the_object
    | exact keeps_banner_throw_runtime_error _
    | exact keeps_banner_c_assert _ _
    | exact keeps_banner_syscall _ _
    | exact keeps_banner_fuel_exhausted
    | refine keeps_banner_assign _ ?_
    | refine keeps_banner_print_line _ ?_
    | apply keeps_banner_bind
    | apply keeps_banner_ite
    | apply keeps_banner_try_catch
    | split
    | intro _
  all_goals rfl

theorem accept_pending_connection_keeps_banner (os : Os) :
    keeps_banner (accept_pending_connection os) := by
  unfold accept_pending_connection
  repeat' with_reducible first
    | exact accept_connection_try_keeps_banner os _ _
    | exact close_listening_socket_keeps_banner os
    | exact keeps_banner_pure _
    | exact keeps_banner_the_object
    | exact keeps_banner_throw_runtime_error _
    | exact keeps_banner_c_assert _ _
    | exact keeps_banner_syscall _ _
    | exact keeps_banner_fuel_exhausted
    | refine keeps_banner_assign _ ?_
    | refine keeps_banner_print_line _ ?_
    | apply keeps_banner_bind
    | apply keeps_banner_ite
    | apply keeps_banner_try_catch
    | split
    | intro _
  all_goals first | rfl | exact fun _ h => ⟨h, rfl⟩

theorem accept_connection_keeps_banner (os : Os) :
    keeps_banner (accept_connection os) := by
  unfold accept_connection
  repeat' with_reducible first
    | exact accept_pending_connection_keeps_banner os
    | exact keeps_banner_pure _
    | exact keeps_banner_the_object
    | exact keeps_banner_throw_runtime_error _
    | exact keeps_banner_c_assert _ _
    | exact keeps_banner_syscall _ _
    | exact keeps_banner_fuel_exhausted
    | refine keeps_banner_assign _ ?_
    | refine keeps_banner_print_line _ ?_
    | apply keeps_banner_bind
    | apply keeps_banner_ite
    | apply keeps_banner_try_catch
    | split
    | intro _

theorem accept_eventual_incoming_connection_keeps_banner (os : Os) :
    keeps_banner (accept_eventual_incoming_connection os) := by
  unfold accept_eventual_incoming_connection
  repeat' with_reducible first
    | exact create_listening_socket_keeps_banner os
    | exact accept_connection_keeps_banner os
    | exact keeps_banner_pure _
    | exact keeps_banner_the_object
    | exact keeps_banner_throw_runtime_error _
    | exact keeps_banner_c_assert _ _
    | exact keeps_banner_syscall _ _
    | exact keeps_banner_fuel_exhausted
    | refine keeps_banner_assign _ ?_
    | refine keeps_banner_print_line _ ?_
    | apply keeps_banner_bind
    | apply keeps_banner_ite
    | apply keeps_banner_try_catch
    | split
    | intro _

theorem send_byte_keeps_banner (os : Os) (data : Nat) :
    keeps_banner (send_byte os data) := by
  unfold send_byte
  repeat' with_reducible first
    | exact keeps_banner_pure _
    | exact keeps_banner_the_object
    | exact keeps_banner_throw_runtime_error _
    | exact keeps_banner_c_assert _ _
    | exact keeps_banner_syscall _ _
    | exact keeps_banner_fuel_exhausted
    | refine keeps_banner_assign _ ?_
    | refine keeps_banner_print_line _ ?_
    | apply keeps_banner_bind
    | apply keeps_banner_ite
    | apply keeps_banner_try_catch
    | split
    | intro _

theorem next_byte_to_send_keeps_banner :
    keeps_banner (next_byte_to_send) := by
  unfold next_byte_to_send
  repeat' with_reducible first
    | exact keeps_banner_on_object _ keeps_settings_deque_transmit_byte
    | exact keeps_banner_pure _
    | exact keeps_banner_the_object
    | exact keeps_banner_throw_runtime_error _
    | exact keeps_banner_c_assert _ _
    | exact keeps_banner_syscall _ _
    | exact keeps_banner_fuel_exhausted
    | refine keeps_banner_assign _ ?_
    | refine keeps_banner_print_line _ ?_
    | apply keeps_banner_bind
    | apply keeps_banner_ite
    | apply keeps_banner_try_catch
    | split
    | intro _
  all_goals first | rfl | exact fun _ h => ⟨h, rfl⟩

theorem transmit_data_loop_keeps_banner (os : Os) (fuel : Nat) :
    keeps_banner (transmit_data_loop os fuel) := by
  induction fuel with
  | zero => exact keeps_banner_fuel_exhausted
  | succ fuel ih =>
    unfold transmit_data_loop
    repeat' with_reducible first
      | exact ih
      | exact next_byte_to_send_keeps_banner
      | exact send_byte_keeps_banner os _
      | exact keeps_banner_pure _
      | exact keeps_banner_the_object
      | exact keeps_banner_throw_runtime_error _
      | exact keeps_banner_c_assert _ _
      | exact keeps_banner_syscall _ _
      | exact keeps_banner_fuel_exhausted
      | refine keeps_banner_assign _ ?_
      | refine keeps_banner_print_line _ ?_
      | apply keeps_banner_bind
      | apply keeps_banner_ite
      | apply keeps_banner_try_catch
      | split
      | intro _

theorem receive_data_loop_keeps_banner (os : Os) (fuel : Nat) :
    keeps_banner (receive_data_loop os fuel) := by
  induction fuel with
  | zero => exact keeps_banner_fuel_exhausted
  | succ fuel ih =>
    unfold receive_data_loop
    repeat' with_reducible first
      | exact ih
      | exact close_current_connection_keeps_banner os
      | exact keeps_banner_on_object _ (keeps_settings_enqueue_receive_byte _)
      | exact keeps_banner_pure _
      | exact keeps_banner_the_object
      | exact keeps_banner_throw_runtime_error _
      | exact keeps_banner_c_assert _ _
      | exact keeps_banner_syscall _ _
      | exact keeps_banner_fuel_exhausted
      | refine keeps_banner_assign _ ?_
      | refine keeps_banner_print_line _ ?_
      | apply keeps_banner_bind
      | apply keeps_banner_ite
      | apply keeps_banner_try_catch
      | split
      | intro _
    all_goals rfl

theorem transfer_or_drop_keeps_banner (os : Os) : keeps_banner (transfer_or_drop os) := by
  unfold transfer_or_drop transmit_data receive_data
  repeat' with_reducible first
    | exact transmit_data_loop_keeps_banner os _
    | exact receive_data_loop_keeps_banner os _
    | exact close_current_connection_keeps_banner os
    | exact keeps_banner_pure _
    | exact keeps_banner_the_object
    | exact keeps_banner_throw_runtime_error _
    | exact keeps_banner_c_assert _ _
    | exact keeps_banner_syscall _ _
    | exact keeps_banner_fuel_exhausted
    | refine keeps_banner_assign _ ?_
    | refine keeps_banner_print_line _ ?_
    | apply keeps_banner_bind
    | apply keeps_banner_ite
    | apply keeps_banner_try_catch
    | split
    | intro _
  all_goals rfl

theorem tick_keeps_banner (os : Os) : keeps_banner (tick os) := by
  unfold tick
  refine keeps_banner_bind _ _ (accept_eventual_incoming_connection_keeps_banner os) ?_
  intro _
  refine keeps_banner_bind _ _ keeps_banner_the_object ?_
  intro self
  refine keeps_banner_ite _ _ _ ?_ ?_
  · refine keeps_banner_bind _ _ (transfer_or_drop_keeps_banner os) ?_
    intro _
    exact keeps_banner_on_object _ (fun _ h => ⟨h, rfl⟩)
  · refine keeps_banner_bind _ _ (keeps_banner_pure _) ?_
    intro _
    exact keeps_banner_on_object _ (fun _ h => ⟨h, rfl⟩)

/-- The banner is printed by `print_listening_message_once` when the flag
is not yet set and diagnostics are enabled, and then once. -/
theorem print_listening_message_once_banner (os : Os) (w : World)
    (hflag : w.dpi.m_listening_message_already_printed = false) :
    wp (print_listening_message_once os) (fun r w1 =>
      banner_count w1.log ≤ banner_count w.log + 1 ∧
      (r = .ok () → banner_count w1.log =
        banner_count w.log + (if w.dpi.m_print_informational_messages then 1 else 0))) w := by
  simp only [print_listening_message_once, wp_bind, wp_the_object, wp_assign, on_ok_ok,
    wp_ite, wp_pure, wp_ip_address_to_text, wp_print_line, hflag, Bool.not_false, if_true]
  cases hp : w.dpi.m_print_informational_messages
  · rw [if_neg (by decide)]
    exact ⟨Nat.le_succ _, fun _ => rfl⟩
  · simp only [if_true]
    split
    · simp only [on_ok_error]
      exact ⟨Nat.le_succ _, fun h => by cases h⟩
    · refine ⟨?_, fun _ => ?_⟩
      · show banner_count (w.log ++ [_]) ≤ _
        rw [banner_count_snoc]
        simp [is_banner]
      · show banner_count (w.log ++ [_]) = _
        rw [banner_count_snoc]
        simp [is_banner]

theorem create_listening_socket_try_banner (os : Os) (w : World)
    (hflag : w.dpi.m_listening_message_already_printed = false) :
    wp (create_listening_socket_try os) (fun r w1 =>
      banner_count w1.log ≤ banner_count w.log + 1 ∧
      (r = .ok () → banner_count w1.log =
        banner_count w.log + (if w.dpi.m_print_informational_messages then 1 else 0))) w := by
  simp only [create_listening_socket_try, wp_bind, wp_the_object, wp_syscall, on_ok_ok,
    wp_ite, wp_throw_runtime_error, wp_pure]
  split
  · simp
  · split
    · simp
    · apply wp_mono _ _ _ _ (print_listening_message_once_banner os
        { w with trace := w.trace ++ [Syscall.setsockopt w.dpi.m_listening_socket] ++
          [Syscall.bind w.dpi.m_listening_socket w.dpi.m_listening_tcp_port
            w.dpi.m_listen_on_local_addr_only] } hflag)
      rintro r w1 ⟨h1, h2⟩
      cases r with
      | error e =>
        simp only [on_ok_error]
        exact ⟨h1, by simp⟩
      | ok a =>
        simp only [on_ok_ok, wp_bind, wp_syscall, wp_ite, wp_throw_runtime_error, wp_pure]
        split
        · exact ⟨h1, by simp⟩
        · exact ⟨h1, fun _ => h2 rfl⟩

theorem create_listening_socket_banner (os : Os) (w : World)
    (hflag : w.dpi.m_listening_message_already_printed = false) :
    wp (create_listening_socket os) (fun r w1 =>
      banner_count w1.log ≤ banner_count w.log + 1 ∧
      (r = .ok () → banner_count w1.log =
        banner_count w.log + (if w.dpi.m_print_informational_messages then 1 else 0))) w := by
  simp only [create_listening_socket, wp_bind, wp_the_object, wp_syscall, wp_assign, on_ok_ok,
    wp_c_assert, wp_ite, wp_try_catch, wp_throw_runtime_error]
  split
  · split
    · simp
    · apply wp_mono _ _ _ _ (create_listening_socket_try_banner os
        { w with
          dpi := { w.dpi with m_listening_socket := fd_to_int (os w.trace.length).fd }
          trace := w.trace ++ [Syscall.socket] } hflag)
      rintro r w1 ⟨h1, h2⟩
      rcases r with e | a
      · cases e with
        | runtime_error what =>
          simp only [on_caught_runtime_error, wp_bind, on_ok_ok, wp_throw_runtime_error,
            close_listening_socket, wp_the_object, wp_c_assert, wp_syscall, wp_assign]
          split
          · exact ⟨h1, by simp⟩
          · exact ⟨h1, by simp⟩
        | assertion_failed x => exact ⟨h1, by simp⟩
        | out_of_fuel => exact ⟨h1, by simp⟩
      · simp only [on_caught_ok]
        exact ⟨h1, fun _ => h2 rfl⟩
  · simp

/-- The constructor prints the banner at most once, and when it succeeds,
once if diagnostics are enabled and not at all otherwise. -/
theorem uart_dpi_body_banner (os : Os) (tcp_port : Int) (listen_on_local_addr_only : Nat)
    (transmit_buffer_size : Int) (receive_buffer_size : Int)
    (welcome_message : Option (List Nat)) (print_informational_messages : Nat)
    ( informational_message_prefix : Option String) (w : World) (hlog : w.log = []) :
    wp (uart_dpi_body os tcp_port listen_on_local_addr_only transmit_buffer_size
        receive_buffer_size welcome_message print_informational_messages
        informational_message_prefix)
      (fun r w1 =>
        banner_count w1.log ≤ 1 ∧
        (r = .ok () → banner_count w1.log =
          if print_informational_messages = 1 then 1 else 0)) w := by
  have h0 : banner_count w.log = 0 := by rw [hlog]; rfl
  simp only [uart_dpi_body, wp_bind, wp_the_object, wp_syscall, wp_assign, on_ok_ok,
    wp_ite, wp_throw_runtime_error]
  split
  · simp [h0]
  split
  · simp [h0]
  split
  · simp [h0]
  split
  · simp [h0]
  split
  · simp [h0]
  split
  · simp [h0]
  split
  · simp [h0]
  apply wp_mono _ _ _ _ (create_listening_socket_banner os _ rfl)
  rintro r w1 ⟨g1, g2⟩
  have g1b : banner_count w1.log ≤ banner_count w.log + 1 := g1
  refine ⟨by omega, fun hr => ?_⟩
  have g2b : banner_count w1.log =
      banner_count w.log + (if decide (print_informational_messages = 1) = true then 1 else 0) :=
    g2 hr
  rw [g2b, h0]
  simp

/-- Every reachable world has printed the banner once if diagnostics are
enabled, and not at all otherwise. -/
theorem reachable_banner (os : Os) (w : World) (h : Reachable os w) :
    banner_count w.log = if w.dpi.m_print_informational_messages then 1 else 0 := by
  induction h with
  | constructed garbage tcp_port listen_on_local_addr_only transmit_buffer_size
      receive_buffer_size welcome_message print_informational_messages
      informational_message_prefix w hnew htx hrx =>
    have hb := uart_dpi_body_banner os tcp_port listen_on_local_addr_only transmit_buffer_size
      receive_buffer_size welcome_message print_informational_messages
      informational_message_prefix { dpi := unassigned garbage, trace := [], log := [] } rfl
    have hs := uart_dpi_body_spec os tcp_port listen_on_local_addr_only transmit_buffer_size
      receive_buffer_size welcome_message print_informational_messages
      informational_message_prefix { dpi := unassigned garbage, trace := [], log := [] }
    unfold wp at hb hs
    unfold uart_dpi_new at hnew
    rw [hnew] at hb hs
    obtain ⟨_, hc⟩ := hs.2 rfl
    obtain ⟨_, _, _, _, _, _, _, _, _, _, c11, _⟩ := hc
    rw [hb.2 rfl, c11]
    simp
  | tick w hr ih =>
    obtain ⟨_, g2, g3⟩ := tick_keeps_banner os w (reachable_inv os w hr).2.2.2
    rw [g3, g2]
    exact ih
  | send_char w c _ ih =>
    obtain ⟨buf, p, q, hd⟩ := send_char_frame w.dpi c
    show banner_count w.log = if (send_char w.dpi c).2.m_print_informational_messages then 1 else 0
    rw [hd]
    exact ih
  | receive w _ ih =>
    obtain ⟨p, hd⟩ := receive_frame w.dpi
    show banner_count w.log = if (receive w.dpi).2.m_print_informational_messages then 1 else 0
    rw [hd]
    exact ih

/-! ## Theorems on the banner -/

/-- C15. The bind banner is printed at most once.  The lines printed are
part of the world.  In every world reachable from a successful
construction by calls of `tick`, `send_char` and `receive`, whatever the
operating system does (any number of connections, disconnections and
errors, each of which has the listening socket created again), the banner
"Listening on IP address" has been printed exactly once if diagnostics are
enabled and never if they are disabled.  And the constructor itself,
whether it succeeds or not, prints the banner at most once; when it
succeeds it has printed it once if `print_informational_messages` is 1 and
not at all if it is 0, and that is the diagnostics setting of the
engine. -/
theorem banner_at_most_once (os : Os) (w : World) (h : Reachable os w) :
    (w.dpi.m_print_informational_messages = true → banner_count w.log = 1) ∧
    (w.dpi.m_print_informational_messages = false → banner_count w.log = 0) ∧
    banner_count w.log ≤ 1 ∧
    (∀ (garbage : uart_dpi) (tcp_port : Int) (listen_on_local_addr_only : Nat)
      (transmit_buffer_size receive_buffer_size : Int) (welcome_message : Option (List Nat))
      (print_informational_messages : Nat) ( informational_message_prefix : Option String)
      (r : Except Failure Unit) (w0 : World),
      uart_dpi_new os garbage tcp_port listen_on_local_addr_only transmit_buffer_size
        receive_buffer_size welcome_message print_informational_messages
        informational_message_prefix = (r, w0) →
      banner_count w0.log ≤ 1 ∧
      (r = .ok () →
        w0.dpi.m_print_informational_messages = decide (print_informational_messages = 1) ∧
        banner_count w0.log = if print_informational_messages = 1 then 1 else 0)) := by
  have hb := reachable_banner os w h
  refine ⟨fun hp => by rw [hb, hp]; rfl, fun hp => by rw [hb, hp]; rfl, ?_, ?_⟩
  · rw [hb]; split <;> omega
  · intro garbage tcp_port listen_on_local_addr_only transmit_buffer_size receive_buffer_size
      welcome_message print_informational_messages informational_message_prefix r w0 hnew
    have hb := uart_dpi_body_banner os tcp_port listen_on_local_addr_only transmit_buffer_size
      receive_buffer_size welcome_message print_informational_messages
      informational_message_prefix { dpi := unassigned garbage, trace := [], log := [] } rfl
    have hs := uart_dpi_body_spec os tcp_port listen_on_local_addr_only transmit_buffer_size
      receive_buffer_size welcome_message print_informational_messages
      informational_message_prefix { dpi := unassigned garbage, trace := [], log := [] }
    unfold wp at hb hs
    unfold uart_dpi_new at hnew
    rw [hnew] at hb hs
    refine ⟨hb.1, fun hr => ?_⟩
    obtain ⟨_, hc⟩ := hs.2 hr
    obtain ⟨_, _, _, _, _, _, _, _, _, _, c11, _⟩ := hc
    exact ⟨c11, hb.2 hr⟩

/-- Witness for C15: an engine with diagnostics enabled, after two
sessions, each of which ended with the peer closing and the second of
which had the listening socket created again: the banner is the first of
the five lines printed and is not printed again. -/
theorem banner_at_most_once_witness :
    Reachable all_peers_leave chatty_second.2 ∧
    chatty_second.2.dpi.m_print_informational_messages = true ∧
    chatty_second.2.log =
      [.listening "uart: " "127.0.0.1" true 5678,
        .accepted "uart: " "127.0.0.1" 40000, .closed_at_other_end "uart: ",
        .accepted "uart: " "127.0.0.1" 40000, .closed_at_other_end "uart: "] ∧
    banner_count chatty_second.2.log = 1 := by
  have e1 : ((tick all_peers_leave).run chatty_new.2).2 = chatty_first.2 :=
    tick_world_of_stages _ _ (by decide!) (by decide!) (by decide!)
  have e2 : ((tick all_peers_leave).run chatty_first.2).2 = chatty_second.2 :=
    tick_world_of_stages _ _ (by decide!) (by decide!) (by decide!)
  have h0 : Reachable all_peers_leave chatty_new.2 :=
    Reachable.constructed zeroed 5678 1 16 16 (some [0x48, 0x49]) 1 (some "uart: ")
      chatty_new.2 (by rfl) (by decide) (by decide)
  have h1 := Reachable.tick chatty_new.2 h0
  rw [e1] at h1
  have h2 := Reachable.tick chatty_first.2 h1
  rw [e2] at h2
  have hp : chatty_second.2.dpi.m_print_informational_messages = true := by decide!
  exact ⟨h2, hp, by decide!, (banner_at_most_once all_peers_leave chatty_second.2 h2).1 hp⟩

/-! ## Lemmas on what a dropped session leaves -/

/-- The tick that accepts a peer on a socket that stays writable: it
returns after sending the whole welcome message and then all that waited in
the transmit buffer. -/
theorem tick_sends_after_accept (os : Os) (w : World) (hinv : engine_inv w.dpi)
    (hz : 0 ∉ w.dpi.m_welcome_message)
    (hnone : w.dpi.m_connectionSocket = -1)
    (hacc : ((accept_eventual_incoming_connection os).run w).2.dpi.m_connectionSocket ≠ -1)
    (hwr : writable_during os ((accept_eventual_incoming_connection os).run w).2.trace.length
      (2 * (w.dpi.m_welcome_message ++ transmit_pending w.dpi).length)) :
    wp (tick os) (fun r wf =>
      (∃ n : Int, r = .ok n) ∧
      sent_bytes wf.trace =
        sent_bytes w.trace ++ (w.dpi.m_welcome_message ++ transmit_pending w.dpi) ∧
      wf.dpi.m_welcome_message_pos = -1 ∧
      transmit_pending wf.dpi = [] ∧
      is_transmit_buffer_empty wf.dpi = true) w := by
  simp only [tick, wp_bind, wp_the_object, on_ok_ok, wp_ite, wp_pure, wp_on_object]
  apply wp_mono _ _ _ _ (wp_and _ _ _ _
    (wp_and _ _ _ _ (accept_eventual_incoming_connection_spec os w hinv)
      (accept_eventual_incoming_connection_cursor os w hnone))
    (wp_and _ _ _ _
      (wp_of_sends_nothing _ (accept_eventual_incoming_connection_sends_nothing os) w)
      (wp_self (accept_eventual_incoming_connection os) w)))
  rintro r w1 ⟨⟨⟨inv1, ⟨l, p, c, pos, hd⟩, hr⟩, hpos⟩, hsent, _, hself⟩
  have hc1 : w1.dpi.m_connectionSocket ≠ -1 := by rw [hself]; exact hacc
  have hr1 : r = .ok () := by
    rcases hr with hr | ⟨_, _, hr⟩
    · exact hr
    · exact absurd hr hc1
  subst hr1
  have hwel : w1.dpi.m_welcome_message = w.dpi.m_welcome_message := by rw [hd]
  have hpen : transmit_pending w1.dpi = transmit_pending w.dpi := by rw [hd]; rfl
  have hout : outgoing w1.dpi = w.dpi.m_welcome_message ++ transmit_pending w.dpi := by
    unfold outgoing
    rw [hpos hc1, hpen, hwel]
    cases hm : w.dpi.m_welcome_message with
    | nil => simp
    | cons a rest => simp
  simp only [on_ok_ok]
  rw [if_pos hc1]
  apply wp_mono _ _ _ _ (wp_and _ _ _ _
    (transfer_or_drop_spec os w1 inv1 hc1)
    (transfer_or_drop_sends os w1 inv1 hc1 (by rw [hwel]; exact hz)
      (by rw [hout, hself]; exact hwr)))
  rintro r2 w2 ⟨⟨d1, d2, _⟩, e1, e2, e3⟩
  subst d1
  simp only [on_ok_ok]
  refine ⟨⟨_, get_received_byte_count_eq w2.dpi d2.1⟩, ?_, e2, e3, ?_⟩
  · show sent_bytes w2.trace = _
    rw [e1, hsent, hout]
  · show is_transmit_buffer_empty w2.dpi = true
    rw [tx_empty_iff w2.dpi d2.1, e3]
    rfl

/-- After the transmit step, the transfer of a tick touches nothing in the
object but the receive buffer, its write pointer and the connection
socket. -/
theorem transfer_after_transmit (os : Os) (w : World) (hinv : engine_inv w.dpi)
    (hconn : w.dpi.m_connectionSocket ≠ -1) :
    wp (transfer_or_drop os) (fun _ wf =>
      ∃ buf q c, wf.dpi =
        { ((transmit_data os).run w).2.dpi with
          m_receive_buffer := buf, m_receive_write_pointer := q, m_connectionSocket := c }) w := by
  obtain ⟨hok, _, hcur, _⟩ := hinv
  have hclose : ∀ (w0 : World) (e : LogEvent) (buf : List Nat) (q : Nat) (c : Int),
      w0.dpi = { ((transmit_data os).run w).2.dpi with
          m_receive_buffer := buf, m_receive_write_pointer := q, m_connectionSocket := c } →
      wp (close_current_connection os)
        (fun _ wf => ∃ buf q c, wf.dpi =
          { ((transmit_data os).run w).2.dpi with
            m_receive_buffer := buf, m_receive_write_pointer := q, m_connectionSocket := c })
        { w0 with log := w0.log ++ [e] } := by
    intro w0 e buf q c hd
    apply wp_mono _ _ _ _ (close_current_connection_frame os _)
    rintro r w1 ⟨c2, hd2⟩
    refine ⟨buf, q, c2, ?_⟩
    rw [hd2]
    show ({ w0.dpi with m_connectionSocket := c2 } : uart_dpi) = _
    rw [hd]
  simp only [transfer_or_drop, wp_bind, wp_try_catch]
  apply wp_mono _ _ _ _ (wp_and _ _ _ _ (transmit_data_spec os w hok (hcur hconn))
    (wp_self (transmit_data os) w))
  rintro r w1 ⟨⟨a1, a2, _, ⟨p, pos, a4⟩, _⟩, _, hself⟩
  have hc1 : w1.dpi.m_connectionSocket ≠ -1 := by rw [a4]; exact hconn
  have hd1 : w1.dpi = { ((transmit_data os).run w).2.dpi with
      m_receive_buffer := w1.dpi.m_receive_buffer,
      m_receive_write_pointer := w1.dpi.m_receive_write_pointer,
      m_connectionSocket := w1.dpi.m_connectionSocket } := by
    rw [← hself]
  rcases r with e | u
  · cases e with
    | runtime_error what =>
      simp only [on_ok_error, on_caught_runtime_error, wp_bind, wp_print_line, on_ok_ok]
      exact hclose w1 _ _ _ _ hd1
    | assertion_failed x => exact absurd a1 (by simp [returns_or_raises])
    | out_of_fuel => exact absurd a1 (by simp [returns_or_raises])
  · simp only [on_ok_ok]
    apply wp_mono _ _ _ _ (receive_data_spec os w1 a2 hc1)
    rintro r2 w2 ⟨b1, _, ⟨buf, q, c, b3⟩, _, _⟩
    have hd2 : w2.dpi = { ((transmit_data os).run w).2.dpi with
        m_receive_buffer := buf, m_receive_write_pointer := q, m_connectionSocket := c } := by
      rw [b3, ← hself]
    rcases r2 with e | u
    · cases e with
      | runtime_error what =>
        simp only [on_caught_runtime_error, wp_bind, wp_print_line, on_ok_ok]
        exact hclose w2 _ _ _ _ hd2
      | assertion_failed x => exact absurd b1 (by simp [returns_or_raises])
      | out_of_fuel => exact absurd b1 (by simp [returns_or_raises])
    · simp only [on_caught_ok]
      exact ⟨buf, q, c, hd2⟩

/-- After the transmit step, a tick touches nothing in the object but the
receive buffer, its write pointer and the connection socket. -/
theorem tick_after_transmit (os : Os) (w : World) (hinv : engine_inv w.dpi)
    (hconn : w.dpi.m_connectionSocket ≠ -1) :
    wp (tick os) (fun _ wf =>
      ∃ buf q c, wf.dpi =
        { ((transmit_data os).run w).2.dpi with
          m_receive_buffer := buf, m_receive_write_pointer := q, m_connectionSocket := c }) w := by
  simp only [tick, accept_eventual_incoming_connection, wp_bind, wp_the_object, on_ok_ok,
    wp_ite, wp_pure, wp_on_object, hconn, if_false, ne_eq, not_false_eq_true, if_true]
  apply wp_mono _ _ _ _ (transfer_after_transmit os w hinv hconn)
  rintro r w1 ⟨buf, q, c, hd⟩
  rcases r with e | u
  · exact ⟨buf, q, c, hd⟩
  · exact ⟨buf, q, c, hd⟩

/-! ## Theorems on what a dropped session leaves -/

/-- C17. Tearing down a session does not touch the buffers.
`close_current_connection` changes nothing in the object but the connection
socket.  For every tick that starts with a connection, from a world
reachable from a successful construction, and so for every tick in which
the session is dropped because the peer closed: at the end of the tick the
transmit buffer, its two pointers and the welcome cursor are those that the
transmit step left; the bytes that were waiting in the receive buffer are
still there, in order, before those received in the tick, and `receive`
hands out the first of them and leaves the rest.  And when the tick leaves
no connection, and the next tick accepts a peer on a socket that stays
writable, the bytes handed to `send` in that next tick are the welcome
message (a C string: no byte of it is 0) followed by the bytes that the
transmit step had left in the transmit buffer. -/
theorem teardown_keeps_buffers (os : Os) (w : World) (h : Reachable os w)
    (hconn : w.dpi.m_connectionSocket ≠ -1) :
    (∀ w0 : World, ∃ c : Int,
      ((close_current_connection os).run w0).2.dpi = { w0.dpi with m_connectionSocket := c }) ∧
    (((tick os).run w).2.dpi.m_transmit_buffer =
        ((transmit_data os).run w).2.dpi.m_transmit_buffer ∧
      ((tick os).run w).2.dpi.m_transmit_read_pointer =
        ((transmit_data os).run w).2.dpi.m_transmit_read_pointer ∧
      ((tick os).run w).2.dpi.m_transmit_write_pointer =
        ((transmit_data os).run w).2.dpi.m_transmit_write_pointer ∧
      ((tick os).run w).2.dpi.m_welcome_message_pos =
        ((transmit_data os).run w).2.dpi.m_welcome_message_pos ∧
      transmit_pending ((tick os).run w).2.dpi =
        transmit_pending ((transmit_data os).run w).2.dpi) ∧
    (∃ more, receive_pending ((tick os).run w).2.dpi = receive_pending w.dpi ++ more) ∧
    (∀ b rest, receive_pending ((tick os).run w).2.dpi = b :: rest →
      (receive ((tick os).run w).2.dpi).1 = .ok b ∧
      receive_pending (receive ((tick os).run w).2.dpi).2 = rest) ∧
    (((tick os).run w).2.dpi.m_connectionSocket = -1 →
      0 ∉ w.dpi.m_welcome_message →
      ((accept_eventual_incoming_connection os).run
        ((tick os).run w).2).2.dpi.m_connectionSocket ≠ -1 →
      writable_during os
        ((accept_eventual_incoming_connection os).run ((tick os).run w).2).2.trace.length
        (2 * (w.dpi.m_welcome_message ++
          transmit_pending ((transmit_data os).run w).2.dpi).length) →
      sent_bytes ((tick os).run ((tick os).run w).2).2.trace =
        sent_bytes ((tick os).run w).2.trace ++
          (w.dpi.m_welcome_message ++
            transmit_pending ((transmit_data os).run w).2.dpi)) := by
  have hinv := reachable_inv os w h
  have hinv2 := reachable_inv os _ (Reachable.tick w h)
  obtain ⟨buf, q, c, hd⟩ := tick_after_transmit os w hinv hconn
  obtain ⟨_, _, _, ⟨p, pos, hd1⟩, _⟩ := transmit_data_spec os w hinv.1 (hinv.2.2.1 hconn)
  have hpen : transmit_pending ((tick os).run w).2.dpi =
      transmit_pending ((transmit_data os).run w).2.dpi := by rw [hd]; rfl
  have hwel : ((tick os).run w).2.dpi.m_welcome_message = w.dpi.m_welcome_message := by
    rw [hd]
    show ((transmit_data os).run w).2.dpi.m_welcome_message = _
    rw [hd1]
  refine ⟨fun w0 => close_current_connection_frame os w0, ⟨by rw [hd], by rw [hd], by rw [hd],
    by rw [hd], hpen⟩, ?_, ?_, ?_⟩
  · obtain ⟨more, g1, _⟩ := tick_receives os w hinv
    exact ⟨more, g1⟩
  · intro b rest hp
    have hne : is_receive_buffer_empty ((tick os).run w).2.dpi = false := by
      cases he : is_receive_buffer_empty ((tick os).run w).2.dpi
      · rfl
      · have := (rx_empty_iff _ hinv2.1).1 he
        rw [hp] at this
        cases this
    obtain ⟨_, ⟨b2, g1, g2⟩, _⟩ := receive_ok _ hinv2.1 hne
    rw [hp] at g2
    injection g2 with e1 e2
    subst e1
    exact ⟨g1, e2.symm⟩
  · intro hdrop hz hacc hwr
    have ht := tick_sends_after_accept os ((tick os).run w).2 hinv2 (by rw [hwel]; exact hz)
      hdrop hacc (by rw [hwel, hpen]; exact hwr)
    have ht2 := ht.2.1
    rw [hwel, hpen] at ht2
    exact ht2

/-- Witness for C17: the sample engine with the welcome message "HI" and
the byte 0x41 queued.  Its first peer is accepted and never becomes
writable; in the second tick the peer is found closed and the session is
dropped with nothing sent; the byte is still in the transmit buffer, and
the tick that accepts the second peer puts H, I, A on the wire. -/
theorem teardown_keeps_buffers_witness :
    Reachable stalled stalled_idle.2 ∧
    stalled_idle.2.dpi.m_connectionSocket ≠ -1 ∧
    stalled_lost.2.dpi.m_connectionSocket = -1 ∧
    transmit_pending stalled_lost.2.dpi = [0x41] ∧
    sent_bytes stalled_lost.2.trace = [] ∧
    sent_bytes ((tick stalled).run stalled_lost.2).2.trace = [0x48, 0x49, 0x41] := by
  have e1 : ((tick stalled).run stalled_queued).2 = stalled_idle.2 :=
    tick_world_of_stages _ _ (by decide!) (by decide!) (by decide!)
  have e2 : ((tick stalled).run stalled_idle.2).2 = stalled_lost.2 :=
    tick_world_of_stages _ _ (by decide!) (by decide!) (by decide!)
  have h0 : Reachable stalled stalled_queued :=
    Reachable.send_char stalled_new.2 0x41
      (Reachable.constructed zeroed 5678 1 16 16 (some [0x48, 0x49]) 0 none
        stalled_new.2 (by rfl) (by decide) (by decide))
  have h1 := Reachable.tick stalled_queued h0
  rw [e1] at h1
  have hc : stalled_idle.2.dpi.m_connectionSocket ≠ -1 := by decide!
  have hlen : ((accept_eventual_incoming_connection stalled).run
      stalled_lost.2).2.trace.length = 22 := by decide!
  have hwr : ∀ count : Nat, writable_during stalled
      ((accept_eventual_incoming_connection stalled).run stalled_lost.2).2.trace.length
      count := by
    intro count n hn _
    rw [hlen] at hn
    have g1 : ¬ (n = 9 ∨ n = 10 ∨ n = 11) := by omega
    have g2 : ¬ (n = 13) := by omega
    simp [stalled, g1, g2, obliging]
  have h := (teardown_keeps_buffers stalled stalled_idle.2 h1 hc).2.2.2.2
  rw [e2] at h
  have hsent := h (by decide!) (by decide!) (by decide!) (hwr _)
  exact ⟨h1, hc, by decide!, by decide!, by decide!, hsent.trans (by decide!)⟩

end UartDpi
